import Mathlib

/-!
# AMD platform ACPI tables: MADT patch and CPU SSDT

A shallow embedding of

* `Platform/AMD/AmdMinBoardPkg/Library/DxeBoardInitLib/MadtAcpiTablePatch.c`
* `Platform/AMD/AmdPlatformPkg/Universal/Acpi/AcpiCommon/CpuSsdt.c`

Machine integers are natural numbers; 32-bit wrap-around is written out where
the C expression can overflow.  The MADT is held as its header plus the list of
its sub-structures, each with the fields of its C structure.  Everything the
code obtains from outside the two files is an explicit argument: the CPUID
answers, the socket-count PCD, the platform IOAPIC list, the pool allocator's
answer, the MP services and the SortLib sort routine.
-/

namespace AmdPlatform

/-! ## Constants -/

/-- Level type 0 of the extended-topology CPUID leaf: no more levels. -/
def CPUID_EXTENDED_TOPOLOGY_LEVEL_TYPE_INVALID : Nat := 0

/-- Level type 1 of the extended-topology CPUID leaf. -/
def CPUID_EXTENDED_TOPOLOGY_LEVEL_TYPE_SMT : Nat := 1

/-- Level type 2 of the extended-topology CPUID leaf. -/
def CPUID_EXTENDED_TOPOLOGY_LEVEL_TYPE_CORE : Nat := 2

def AMD_CPUID_V2_EXTENDED_TOPOLOGY_LEVEL_TYPE_CCX : Nat := 3

def AMD_CPUID_V2_EXTENDED_TOPOLOGY_LEVEL_TYPE_CCD : Nat := 4

def AMD_CPUID_V2_EXTENDED_TOPOLOGY_LEVEL_TYPE_DIE : Nat := 5

def MAX_UINT32 : Nat := 0xFFFFFFFF

/-- The table `mCcdOrder[16]`, identical in both source files. -/
def mCcdOrder : List Nat := [0, 4, 8, 12, 2, 6, 10, 14, 3, 7, 11, 15, 1, 5, 9, 13]

def EFI_ACPI_6_5_IO_APIC : Nat := 0x01

def EFI_ACPI_6_5_INTERRUPT_SOURCE_OVERRIDE : Nat := 0x02

def EFI_ACPI_6_5_PROCESSOR_LOCAL_X2APIC : Nat := 0x09

def EFI_ACPI_6_5_LOCAL_X2APIC_NMI : Nat := 0x0A

/-- The value of `sizeof (EFI_ACPI_6_5_MULTIPLE_APIC_DESCRIPTION_TABLE_HEADER)`:
the 36-byte description header, `LocalApicAddress` and `Flags`. -/
def sizeofMadtHeader : Nat := 44

/-- The value of `sizeof (EFI_ACPI_6_5_PROCESSOR_LOCAL_X2APIC_STRUCTURE)`. -/
def sizeofLocalX2Apic : Nat := 16

def PROCESSOR_ENABLED_BIT : Nat := 0x02

def PROCESSOR_HEALTH_STATUS_BIT : Nat := 0x04

def DEVICE_PRESENT_BIT : Nat := 0x0001

def DEVICE_ENABLED_BIT : Nat := 0x0002

def DEVICE_IN_UI_BIT : Nat := 0x0004

def DEVICE_HEALTH_BIT : Nat := 0x0008

inductive EFI_STATUS where
  | EFI_SUCCESS
  | EFI_INVALID_PARAMETER
  | EFI_UNSUPPORTED
  | EFI_OUT_OF_RESOURCES
  | EFI_NOT_FOUND
  | EFI_DEVICE_ERROR
  deriving DecidableEq, Repr

/-- The macro `EFI_ERROR (Status)`. -/
def EFI_ERROR (Status : EFI_STATUS) : Bool :=
  match Status with
  | .EFI_SUCCESS => false
  | _ => true

/-! ## Topology decoder: `AmdGetProcessorLocation2ByApicId` -/

/-- One answer of `AsmCpuidEx (0x80000026, Index, &Eax, NULL, &Ecx, NULL)`. -/
structure CpuidAnswer where
  Eax : Nat
  Ecx : Nat
  deriving DecidableEq, Repr

/-- The bit-field `ExtendedTopologyEax.Bits.ApicIdShift`, bits 4:0 of EAX. -/
def CpuidAnswer.ApicIdShift (r : CpuidAnswer) : Nat := r.Eax % 32

/-- The bit-field `ExtendedTopologyEcx.Bits.LevelType`, bits 15:8 of ECX. -/
def CpuidAnswer.LevelType (r : CpuidAnswer) : Nat := (r.Ecx / 256) % 256

/-- The CPUID instruction as the decoder sees it: sub-leaf index to answer. -/
abbrev Cpuid := Nat → CpuidAnswer

/-- The CPUID loop of the decoder: `count` iterations are left, the next
sub-leaf is `Index`.  It stops at the first invalid level type and otherwise
stores the shift width at `Bits[LevelType]`.  `Bits` has seven elements; a
level type of 7 or more would make the C code write outside the array, and
the embedding drops such a write. -/
def readLevels (cpuid : Cpuid) : Nat → Nat → List Nat → List Nat
  | 0, _, Bits => Bits
  | count + 1, Index, Bits =>
    if (cpuid Index).LevelType = CPUID_EXTENDED_TOPOLOGY_LEVEL_TYPE_INVALID then
      Bits
    else
      readLevels cpuid count (Index + 1)
        (Bits.set (cpuid Index).LevelType (cpuid Index).ApicIdShift)

/-- The loop `for (LevelType = CORE; LevelType < ARRAY_SIZE (Bits); LevelType++)`
that lets a level with width 0 take the width of the level below. -/
def inheritLevels (Bits : List Nat) : List Nat :=
  (List.range' CPUID_EXTENDED_TOPOLOGY_LEVEL_TYPE_CORE 5).foldl
    (fun B LevelType =>
      if B.getD LevelType 0 = 0 then B.set LevelType (B.getD (LevelType - 1) 0) else B)
    Bits

/-- The array `Bits` as it stands before the output loop. -/
def topologyBits (cpuid : Cpuid) : List Nat :=
  let Bits := inheritLevels (readLevels cpuid 7 0 [0, 0, 0, 0, 0, 0, 0])
  Bits.set (AMD_CPUID_V2_EXTENDED_TOPOLOGY_LEVEL_TYPE_DIE + 1)
    (Bits.getD AMD_CPUID_V2_EXTENDED_TOPOLOGY_LEVEL_TYPE_DIE 0 + 1)

/-- The expression
`(InitialApicId & ((1 << Bits[LevelType]) - 1)) >> Bits[LevelType - 1]`
in 32-bit arithmetic.  The widths up to the die level are 5-bit fields, so
only the package level can have width 32 (above a die width of 31); C leaves a
shift by 32 undefined, and here it wraps to 0 like the other 32-bit
operations. -/
def locationField (Bits : List Nat) (InitialApicId LevelType : Nat) : Nat :=
  (InitialApicId &&& ((((1 <<< Bits.getD LevelType 0) % 2 ^ 32) + 2 ^ 32 - 1) % 2 ^ 32))
    >>> Bits.getD (LevelType - 1) 0

/-- Which of the six optional output pointers are non-NULL. -/
structure LocationRequest where
  Package : Bool
  Die : Bool
  Ccd : Bool
  Complex : Bool
  Core : Bool
  Thread : Bool
  deriving DecidableEq, Repr

/-- What the decoder wrote through each pointer; `none` for a NULL pointer. -/
structure LocationOutput where
  Package : Option Nat
  Die : Option Nat
  Ccd : Option Nat
  Complex : Option Nat
  Core : Option Nat
  Thread : Option Nat
  deriving DecidableEq, Repr

def allOutputs : LocationRequest :=
  { Package := true, Die := true, Ccd := true, Complex := true, Core := true, Thread := true }

/-- The function `AmdGetProcessorLocation2ByApicId` (the two copies in the
repository are the same text). -/
def AmdGetProcessorLocation2ByApicId (cpuid : Cpuid) (InitialApicId : Nat)
    (req : LocationRequest) : LocationOutput :=
  let Bits := topologyBits cpuid
  let out (wanted : Bool) (LevelType : Nat) : Option Nat :=
    if wanted then some (locationField Bits InitialApicId LevelType) else none
  { Package := out req.Package (AMD_CPUID_V2_EXTENDED_TOPOLOGY_LEVEL_TYPE_DIE + 1)
    -- the value computed for the die level is overwritten by 0 at the end
    Die := if req.Die then some 0 else none
    Ccd := out req.Ccd AMD_CPUID_V2_EXTENDED_TOPOLOGY_LEVEL_TYPE_CCD
    Complex := out req.Complex AMD_CPUID_V2_EXTENDED_TOPOLOGY_LEVEL_TYPE_CCX
    Core := out req.Core CPUID_EXTENDED_TOPOLOGY_LEVEL_TYPE_CORE
    Thread := out req.Thread CPUID_EXTENDED_TOPOLOGY_LEVEL_TYPE_SMT }

/-- The structure `EFI_CPU_PHYSICAL_LOCATION2`. -/
structure EFI_CPU_PHYSICAL_LOCATION2 where
  Package : Nat
  Module : Nat
  Tile : Nat
  Die : Nat
  Core : Nat
  Thread : Nat
  deriving DecidableEq, Repr

/-- The call pattern shared by both files:
`AmdGetProcessorLocation2ByApicId (Id, &L.Package, &L.Tile, &L.Die, &L.Module,
&L.Core, &L.Thread)`.  The die output lands in `Tile` and the CCD output in
`Die`. -/
def decodeLocation2 (cpuid : Cpuid) (Id : Nat) : EFI_CPU_PHYSICAL_LOCATION2 :=
  let o := AmdGetProcessorLocation2ByApicId cpuid Id allOutputs
  { Package := o.Package.getD 0
    Tile := o.Die.getD 0
    Die := o.Ccd.getD 0
    Module := o.Complex.getD 0
    Core := o.Core.getD 0
    Thread := o.Thread.getD 0 }

/-! ## CCD comparator: `SortByCcd` -/

/-- The search loop `for (Index = 0; Index < ARRAY_SIZE (mCcdOrder); Index++)`
with its `break`; `MAX_UINT32` when the number is not in the table. -/
def findCcdIndex (Die : Nat) : List Nat → Nat → Nat
  | [], _ => MAX_UINT32
  | c :: rest, Index => if Die = c then Index else findCcdIndex Die rest (Index + 1)

/-- The value of `LeftCcdIndex` / `RightCcdIndex` for a CCD number. -/
def ccdIndex (Die : Nat) : Nat := findCcdIndex Die mCcdOrder 0

/-- The final three-way comparison of `SortByCcd`. -/
def compareCcdIndex (LeftCcdIndex RightCcdIndex : Nat) : Int :=
  if LeftCcdIndex < RightCcdIndex then -1
  else if LeftCcdIndex > RightCcdIndex then 1
  else 0

/-! ## SortLib -/

/-- The shape of `PerformQuickSort (BufferToSort, Count, ElementSize, CompareFunction)`
from SortLib, which is not part of this repository: the buffer of `Count`
elements is a list, the result is the buffer after the call. -/
abbrev SortFn := (α : Type) → (α → α → Int) → List α → List α

/-- What the code relies on from SortLib.  The routine rearranges the buffer
(`perm`); for a comparator that is total and transitive the result is in
comparator order (`sorted`); and it moves elements as raw bytes and looks at
them only through the comparator, so two buffers whose elements compare alike
position by position are rearranged alike (`natural`).  Nothing is said about
the order of elements that compare equal. -/
structure SortContract (sort : SortFn) : Prop where
  perm : ∀ (α : Type) (cmp : α → α → Int) (l : List α), (sort α cmp l).Perm l
  sorted : ∀ (α : Type) (cmp : α → α → Int) (l : List α),
    (∀ a b, cmp a b ≤ 0 ∨ cmp b a ≤ 0) →
    (∀ a b c, cmp a b ≤ 0 → cmp b c ≤ 0 → cmp a c ≤ 0) →
    (sort α cmp l).Pairwise (fun a b => cmp a b ≤ 0)
  natural : ∀ (α β : Type) (f : α → β) (cmpA : α → α → Int) (cmpB : β → β → Int)
    (l : List α), (∀ a ∈ l, ∀ b ∈ l, cmpB (f a) (f b) = cmpA a b) →
    sort β cmpB (l.map f) = (sort α cmpA l).map f

/-- The sort leaves a buffer that is already in comparator order as it is.
This is not part of `SortContract`; it is assumed only where it is named. -/
def KeepsOrdered (sort : SortFn) : Prop :=
  ∀ (α : Type) (cmp : α → α → Int) (l : List α),
    l.Pairwise (fun a b => cmp a b ≤ 0) → sort α cmp l = l

/-- Insertion of one element in front of the first element it does not exceed. -/
def orderedInsert {α : Type} (cmp : α → α → Int) (a : α) : List α → List α
  | [] => [a]
  | b :: l => if cmp a b ≤ 0 then a :: b :: l else b :: orderedInsert cmp a l

/-- A reference sort that meets `SortContract`, used to evaluate the tables on
concrete inputs. -/
def referenceSort : SortFn := fun _ cmp l => l.foldr (orderedInsert cmp) []

/-- The two sort calls of both files: with more than one socket the first
`Count / 2` elements and the next `Count / 2` elements are sorted separately
(an odd last element is left in place), otherwise the whole buffer is sorted. -/
def sortByCcdHalves (sort : SortFn) (PcdMaxCpuSocketCount : Nat) {α : Type}
    (cmp : α → α → Int) (buf : List α) : List α :=
  if PcdMaxCpuSocketCount > 1 then
    sort α cmp (buf.take (buf.length / 2))
      ++ sort α cmp ((buf.drop (buf.length / 2)).take (buf.length / 2))
      ++ buf.drop (buf.length / 2 + buf.length / 2)
  else
    sort α cmp buf

/-! ## MADT data model -/

structure EFI_ACPI_DESCRIPTION_HEADER where
  Signature : Nat
  Length : Nat
  Revision : Nat
  Checksum : Nat
  OemId : Nat
  OemTableId : Nat
  OemRevision : Nat
  CreatorId : Nat
  CreatorRevision : Nat
  deriving DecidableEq, Repr

structure EFI_ACPI_6_5_MULTIPLE_APIC_DESCRIPTION_TABLE_HEADER where
  Header : EFI_ACPI_DESCRIPTION_HEADER
  LocalApicAddress : Nat
  Flags : Nat
  deriving DecidableEq, Repr

/-- The C field `Type` is written `Type_` in every structure. -/
structure EFI_ACPI_6_5_IO_APIC_STRUCTURE where
  Type_ : Nat
  Length : Nat
  IoApicId : Nat
  Reserved : Nat
  IoApicAddress : Nat
  GlobalSystemInterruptBase : Nat
  deriving DecidableEq, Repr

structure EFI_ACPI_6_5_INTERRUPT_SOURCE_OVERRIDE_STRUCTURE where
  Type_ : Nat
  Length : Nat
  Bus : Nat
  Source : Nat
  GlobalSystemInterrupt : Nat
  Flags : Nat
  deriving DecidableEq, Repr

structure EFI_ACPI_6_5_LOCAL_X2APIC_NMI_STRUCTURE where
  Type_ : Nat
  Length : Nat
  Flags : Nat
  AcpiProcessorUid : Nat
  LocalX2ApicLint : Nat
  deriving DecidableEq, Repr

structure EFI_ACPI_6_5_PROCESSOR_LOCAL_X2APIC_STRUCTURE where
  Type_ : Nat
  Length : Nat
  Reserved : Nat
  X2ApicId : Nat
  Flags : Nat
  AcpiProcessorUid : Nat
  deriving DecidableEq, Repr

/-- One sub-structure of the MADT, by the C structure its bytes are laid out
as.  `Other` is any structure the patch has no C type for. -/
inductive MadtStructure where
  | IoApic (s : EFI_ACPI_6_5_IO_APIC_STRUCTURE)
  | InterruptSourceOverride (s : EFI_ACPI_6_5_INTERRUPT_SOURCE_OVERRIDE_STRUCTURE)
  | LocalX2ApicNmi (s : EFI_ACPI_6_5_LOCAL_X2APIC_NMI_STRUCTURE)
  | LocalX2Apic (s : EFI_ACPI_6_5_PROCESSOR_LOCAL_X2APIC_STRUCTURE)
  | Other (Type_ : Nat) (Length : Nat) (Data : List Nat)
  deriving DecidableEq, Repr

/-- The field `((STRUCTURE_HEADER *)TablePtr)->Type`. -/
def MadtStructure.Type_ : MadtStructure → Nat
  | .IoApic s => s.Type_
  | .InterruptSourceOverride s => s.Type_
  | .LocalX2ApicNmi s => s.Type_
  | .LocalX2Apic s => s.Type_
  | .Other t _ _ => t

/-- The field `((STRUCTURE_HEADER *)TablePtr)->Length`. -/
def MadtStructure.Length : MadtStructure → Nat
  | .IoApic s => s.Length
  | .InterruptSourceOverride s => s.Length
  | .LocalX2ApicNmi s => s.Length
  | .LocalX2Apic s => s.Length
  | .Other _ l _ => l

/-- A type byte none of the four `if`s of the walk reacts to. -/
def ignoredType (t : Nat) : Bool :=
  t != EFI_ACPI_6_5_IO_APIC && t != EFI_ACPI_6_5_INTERRUPT_SOURCE_OVERRIDE
    && t != EFI_ACPI_6_5_LOCAL_X2APIC_NMI && t != EFI_ACPI_6_5_PROCESSOR_LOCAL_X2APIC

/-- The structure is what its type byte says: the cast the walk performs on
the type byte reaches the C structure the bytes are laid out as, and the
structure is long enough to hold it (a local-x2APIC structure is exactly one
array element of the sort).  A structure with an ignored type byte is never
cast. -/
def MadtStructure.wellTyped : MadtStructure → Bool
  | .IoApic s => (s.Type_ == EFI_ACPI_6_5_IO_APIC && 12 ≤ s.Length) || ignoredType s.Type_
  | .InterruptSourceOverride s =>
    (s.Type_ == EFI_ACPI_6_5_INTERRUPT_SOURCE_OVERRIDE && 10 ≤ s.Length) || ignoredType s.Type_
  | .LocalX2ApicNmi s =>
    (s.Type_ == EFI_ACPI_6_5_LOCAL_X2APIC_NMI && 12 ≤ s.Length) || ignoredType s.Type_
  | .LocalX2Apic s =>
    (s.Type_ == EFI_ACPI_6_5_PROCESSOR_LOCAL_X2APIC && s.Length == sizeofLocalX2Apic)
      || ignoredType s.Type_
  | .Other t _ _ => ignoredType t

/-- The MADT buffer: header and sub-structures in table order. -/
structure MadtTable where
  Header : EFI_ACPI_6_5_MULTIPLE_APIC_DESCRIPTION_TABLE_HEADER
  Structures : List MadtStructure
  deriving DecidableEq, Repr

/-- Ways a run of the C code is not described by this embedding. -/
inductive Fault where
  /-- The walk meets a structure of length 0 before the declared length is
  reached and never advances. -/
  | hang
  /-- The walk reads a structure header past the last structure of the table. -/
  | pastTable
  /-- A cast or the local-x2APIC array covers bytes of another layout. -/
  | overlay
  deriving DecidableEq, Repr

/-- What `MadtAcpiTablePatch` gets from outside the file. -/
structure MadtPlatform where
  /-- The CPUID instruction, for the comparator. -/
  cpuid : Cpuid
  /-- The value of `FixedPcdGet32 (PcdMaxCpuSocketCount)`. -/
  PcdMaxCpuSocketCount : Nat
  /-- The variable `NbioIoApic` after `GetIoApicInfo`; `none` is NULL. -/
  NbioIoApic : Option (List EFI_ACPI_6_5_IO_APIC_STRUCTURE)
  /-- The variable `IoApicCount` after `GetIoApicInfo`. -/
  IoApicCount : Nat
  /-- Whether `AllocateZeroPool` for the partition buffer returns a buffer. -/
  poolAvailable : Bool
  /-- With a single local-x2APIC entry, `LocalX2ApicPtr + 1` is past the array:
  whether the `X2ApicId` read there has its low bit set. -/
  pastArrayOdd : Bool

/-! ## MADT patch: `SortByCcd` and `MadtAcpiTablePatch` -/

namespace Madt

/-- The comparator `SortByCcd` of MadtAcpiTablePatch.c: both X2ApicId values
are decoded on every call and the CCD number is read from `Location.Die`. -/
def SortByCcd (cpuid : Cpuid)
    (Left Right : EFI_ACPI_6_5_PROCESSOR_LOCAL_X2APIC_STRUCTURE) : Int :=
  compareCcdIndex (ccdIndex (decodeLocation2 cpuid Left.X2ApicId).Die)
    (ccdIndex (decodeLocation2 cpuid Right.X2ApicId).Die)

/-- The CCD rank `SortByCcd` compares: the index of the entry's decoded CCD
number in `mCcdOrder`. -/
def ccdRank (cpuid : Cpuid) (e : EFI_ACPI_6_5_PROCESSOR_LOCAL_X2APIC_STRUCTURE) : Nat :=
  ccdIndex (decodeLocation2 cpuid e.X2ApicId).Die

/-- An array element the platform list does not have is zero, as the list
comes from `AllocateZeroPool`. -/
def zeroIoApic : EFI_ACPI_6_5_IO_APIC_STRUCTURE :=
  { Type_ := 0, Length := 0, IoApicId := 0, Reserved := 0, IoApicAddress := 0,
    GlobalSystemInterruptBase := 0 }

/-- The `if (Type == EFI_ACPI_6_5_IO_APIC)` block of the walk; returns the
structure and the new `Index`. -/
def patchIoApic (NbioIoApic : List EFI_ACPI_6_5_IO_APIC_STRUCTURE) (IoApicCount Index : Nat)
    (s : MadtStructure) : MadtStructure × Nat :=
  match s with
  | .IoApic a =>
    if a.Type_ = EFI_ACPI_6_5_IO_APIC then
      if Index ≥ IoApicCount then
        (.IoApic { a with Type_ := 0x7F }, Index + 1)
      else
        (.IoApic { a with
            IoApicId := (NbioIoApic.getD Index zeroIoApic).IoApicId
            IoApicAddress := (NbioIoApic.getD Index zeroIoApic).IoApicAddress
            GlobalSystemInterruptBase :=
              (NbioIoApic.getD Index zeroIoApic).GlobalSystemInterruptBase },
          Index + 1)
    else (s, Index)
  | _ => (s, Index)

/-- The `if (Type == EFI_ACPI_6_5_INTERRUPT_SOURCE_OVERRIDE)` block. -/
def patchInterruptSourceOverride (s : MadtStructure) : MadtStructure :=
  match s with
  | .InterruptSourceOverride a =>
    if a.Type_ = EFI_ACPI_6_5_INTERRUPT_SOURCE_OVERRIDE then
      .InterruptSourceOverride { a with Flags := 0xF }
    else s
  | _ => s

/-- The `if (Type == EFI_ACPI_6_5_LOCAL_X2APIC_NMI)` block. -/
def patchLocalX2ApicNmi (s : MadtStructure) : MadtStructure :=
  match s with
  | .LocalX2ApicNmi a =>
    if a.Type_ = EFI_ACPI_6_5_LOCAL_X2APIC_NMI then
      .LocalX2ApicNmi { a with Flags := 0x0005 }
    else s
  | _ => s

/-- The state the `do ... while` loop leaves behind. -/
structure WalkResult where
  Structures : List MadtStructure
  LapicCount : Nat
  /-- Position, among the sub-structures, of the first local-x2APIC entry;
  `none` is NULL. -/
  LocalX2ApicPtr : Option Nat
  deriving DecidableEq, Repr

/-- The loop `do { ... } while (Length < NewMadtTable->Header.Length)`.  The
list is what lies at `TablePtr`, `pos` is its position among the
sub-structures. -/
def walk (NbioIoApic : List EFI_ACPI_6_5_IO_APIC_STRUCTURE) (IoApicCount HeaderLength : Nat) :
    List MadtStructure → Nat → Nat → Nat → Nat → Option Nat → Except Fault WalkResult
  | [], _, _, _, _, _ => .error .pastTable
  | s :: rest, pos, Length, Index, LapicCount, LocalX2ApicPtr =>
    if !s.wellTyped then .error .overlay
    else
      let r := patchIoApic NbioIoApic IoApicCount Index s
      let s3 := patchLocalX2ApicNmi (patchInterruptSourceOverride r.1)
      let isLapic : Bool := s3.Type_ == EFI_ACPI_6_5_PROCESSOR_LOCAL_X2APIC
      let Ptr1 := if isLapic && LapicCount == 0 then some pos else LocalX2ApicPtr
      let LapicCount1 := if isLapic then LapicCount + 1 else LapicCount
      let Length1 := Length + s3.Length
      if Length1 < HeaderLength then
        if s3.Length = 0 then .error .hang
        else
          match walk NbioIoApic IoApicCount HeaderLength rest (pos + 1) Length1 r.2
              LapicCount1 Ptr1 with
          | .error e => .error e
          | .ok w => .ok { w with Structures := s3 :: w.Structures }
      else
        .ok { Structures := s3 :: rest, LapicCount := LapicCount1, LocalX2ApicPtr := Ptr1 }

/-- The `LapicCount` structures from `LocalX2ApicPtr` on, read as an array of
`EFI_ACPI_6_5_PROCESSOR_LOCAL_X2APIC_STRUCTURE`: defined when each of them is
such a structure. -/
def asLocalX2ApicArray :
    List MadtStructure → Option (List EFI_ACPI_6_5_PROCESSOR_LOCAL_X2APIC_STRUCTURE)
  | [] => some []
  | .LocalX2Apic a :: rest =>
    if a.Type_ = EFI_ACPI_6_5_PROCESSOR_LOCAL_X2APIC then
      (asLocalX2ApicArray rest).map (fun l => a :: l)
    else none
  | _ :: _ => none

/-- The loop `for (Index = 0; Index < LapicCount; Index++, SortedItem++)` that
stores `Index` in `AcpiProcessorUid`. -/
def assignUid : List EFI_ACPI_6_5_PROCESSOR_LOCAL_X2APIC_STRUCTURE → Nat →
    List EFI_ACPI_6_5_PROCESSOR_LOCAL_X2APIC_STRUCTURE
  | [], _ => []
  | e :: rest, Index => { e with AcpiProcessorUid := Index } :: assignUid rest (Index + 1)

/-- The test `((LocalX2ApicPtr + 1)->X2ApicId & 0x1) == 0x1`. -/
def secondEntryOdd (pastArrayOdd : Bool) :
    List EFI_ACPI_6_5_PROCESSOR_LOCAL_X2APIC_STRUCTURE → Bool
  | _ :: e :: _ => e.X2ApicId &&& 1 == 1
  | _ => pastArrayOdd

/-- The two copy loops into the new buffer: first every entry with
`(X2ApicId & 1) == 0`, then every entry with `(X2ApicId & 1) == 1`. -/
def separateThreads (arr : List EFI_ACPI_6_5_PROCESSOR_LOCAL_X2APIC_STRUCTURE) :
    List EFI_ACPI_6_5_PROCESSOR_LOCAL_X2APIC_STRUCTURE :=
  arr.filter (fun e => e.X2ApicId &&& 1 == 0) ++ arr.filter (fun e => e.X2ApicId &&& 1 == 1)

/-- The array after the sort calls and the UID loop. -/
def sortedWithUid (sort : SortFn) (P : MadtPlatform)
    (arr : List EFI_ACPI_6_5_PROCESSOR_LOCAL_X2APIC_STRUCTURE) :
    List EFI_ACPI_6_5_PROCESSOR_LOCAL_X2APIC_STRUCTURE :=
  assignUid (sortByCcdHalves sort P.PcdMaxCpuSocketCount (SortByCcd P.cpuid) arr) 0

/-- The block `if (LocalX2ApicPtr != NULL) { ... }` on the array: the status
returned and the array left in the table. -/
def collateLocalX2Apic (sort : SortFn) (P : MadtPlatform)
    (arr : List EFI_ACPI_6_5_PROCESSOR_LOCAL_X2APIC_STRUCTURE) :
    EFI_STATUS × List EFI_ACPI_6_5_PROCESSOR_LOCAL_X2APIC_STRUCTURE :=
  let withUid := sortedWithUid sort P arr
  if secondEntryOdd P.pastArrayOdd withUid then
    if P.poolAvailable then (.EFI_SUCCESS, separateThreads withUid)
    else (.EFI_OUT_OF_RESOURCES, withUid)
  else (.EFI_SUCCESS, withUid)

/-- The header after `NewMadtTable->Header.Revision = 6`. -/
def setRevision (T : MadtTable) : MadtTable :=
  { T with Header := { T.Header with Header := { T.Header.Header with Revision := 6 } } }

/-- The function `MadtAcpiTablePatch`: the status returned and the table
buffer at return. -/
def MadtAcpiTablePatch (sort : SortFn) (P : MadtPlatform) (NewTable : MadtTable) :
    Except Fault (EFI_STATUS × MadtTable) :=
  let T := setRevision NewTable
  match P.NbioIoApic with
  | none => .ok (.EFI_SUCCESS, T)
  | some NbioIoApic =>
    if P.IoApicCount = 0 then .ok (.EFI_SUCCESS, T)
    else
      match walk NbioIoApic P.IoApicCount T.Header.Header.Length T.Structures 0
          sizeofMadtHeader 0 0 none with
      | .error e => .error e
      | .ok w =>
        match w.LocalX2ApicPtr with
        | none => .ok (.EFI_SUCCESS, { T with Structures := w.Structures })
        | some p =>
          match asLocalX2ApicArray ((w.Structures.drop p).take w.LapicCount) with
          | none => .error .overlay
          | some arr =>
            if arr.length ≠ w.LapicCount then .error .overlay
            else
              let r := collateLocalX2Apic sort P arr
              .ok (r.1, { T with Structures :=
                w.Structures.take p ++ r.2.map MadtStructure.LocalX2Apic
                  ++ w.Structures.drop (p + w.LapicCount) })

/-- The structure as a local-x2APIC entry, when it is one. -/
def asLocalX2ApicEntry : MadtStructure → Option EFI_ACPI_6_5_PROCESSOR_LOCAL_X2APIC_STRUCTURE
  | .LocalX2Apic a => if a.Type_ = EFI_ACPI_6_5_PROCESSOR_LOCAL_X2APIC then some a else none
  | _ => none

/-- The local-x2APIC entries of a table, in table order. -/
def localX2ApicEntries (T : MadtTable) : List EFI_ACPI_6_5_PROCESSOR_LOCAL_X2APIC_STRUCTURE :=
  T.Structures.filterMap asLocalX2ApicEntry

/-! ### Reading the walk as a map over the table -/

/-- The three patch blocks of one loop iteration, in source order. -/
def patchOne (NbioIoApic : List EFI_ACPI_6_5_IO_APIC_STRUCTURE) (IoApicCount Index : Nat)
    (s : MadtStructure) : MadtStructure :=
  patchLocalX2ApicNmi (patchInterruptSourceOverride (patchIoApic NbioIoApic IoApicCount Index s).1)

/-- Whether the walk counts the structure as a local-x2APIC entry. -/
def isLapic (s : MadtStructure) : Bool := s.Type_ == EFI_ACPI_6_5_PROCESSOR_LOCAL_X2APIC

/-- Whether the walk takes the structure for an IOAPIC structure. -/
def isIoApic (s : MadtStructure) : Bool := s.Type_ == EFI_ACPI_6_5_IO_APIC

/-- Whether the IOAPIC block of the walk fires on the structure. -/
def countsAsIoApic : MadtStructure → Bool
  | .IoApic a => a.Type_ == EFI_ACPI_6_5_IO_APIC
  | _ => false

/-- The structures a complete walk leaves, the IOAPIC index starting at `Index`. -/
def patchAll (NbioIoApic : List EFI_ACPI_6_5_IO_APIC_STRUCTURE) (IoApicCount : Nat) :
    List MadtStructure → Nat → List MadtStructure
  | [], _ => []
  | s :: rest, Index =>
    patchOne NbioIoApic IoApicCount Index s
      :: patchAll NbioIoApic IoApicCount rest (patchIoApic NbioIoApic IoApicCount Index s).2

/-- The value of `LocalX2ApicPtr` a complete walk leaves. -/
def firstLapic : List MadtStructure → Nat → Nat → Option Nat → Option Nat
  | [], _, _, Ptr => Ptr
  | s :: rest, pos, LapicCount, Ptr =>
    firstLapic rest (pos + 1) (if isLapic s then LapicCount + 1 else LapicCount)
      (if isLapic s && LapicCount == 0 then some pos else Ptr)

/-- A table the walk covers exactly: at least one sub-structure, every
sub-structure of positive length and laid out as its type byte says, the
lengths adding up with the fixed header to `Header.Length`. -/
def WellFormed (T : MadtTable) : Prop :=
  T.Structures ≠ [] ∧ (∀ s ∈ T.Structures, s.wellTyped = true ∧ 0 < s.Length) ∧
    sizeofMadtHeader + (T.Structures.map MadtStructure.Length).sum = T.Header.Header.Length

/-- The local-x2APIC entries of the table are `arr`, stored next to each other
between the structures `pre` and `post`. -/
def LocalX2ApicRun (T : MadtTable) (pre : List MadtStructure)
    (arr : List EFI_ACPI_6_5_PROCESSOR_LOCAL_X2APIC_STRUCTURE) (post : List MadtStructure) :
    Prop :=
  T.Structures = pre ++ arr.map MadtStructure.LocalX2Apic ++ post ∧
    (∀ a ∈ arr, a.Type_ = EFI_ACPI_6_5_PROCESSOR_LOCAL_X2APIC) ∧
    (∀ s ∈ pre, isLapic s = false) ∧ (∀ s ∈ post, isLapic s = false)

/-- The IOAPIC information is there: `NbioIoApic` is the non-NULL list and
`IoApicCount` is not 0. -/
def IoApicInfo (P : MadtPlatform) (NbioIoApic : List EFI_ACPI_6_5_IO_APIC_STRUCTURE) : Prop :=
  P.NbioIoApic = some NbioIoApic ∧ P.IoApicCount ≠ 0

/-- The array block of the patch, skipped when there is no local-x2APIC entry. -/
def collateOrSkip (sort : SortFn) (P : MadtPlatform)
    (arr : List EFI_ACPI_6_5_PROCESSOR_LOCAL_X2APIC_STRUCTURE) :
    EFI_STATUS × List EFI_ACPI_6_5_PROCESSOR_LOCAL_X2APIC_STRUCTURE :=
  if arr = [] then (.EFI_SUCCESS, []) else collateLocalX2Apic sort P arr

/-- The enumeration index of the structure at position `j`: the number of
IOAPIC structures before it in table order. -/
def ioApicIndex (T : MadtTable) (j : Nat) : Nat := (T.Structures.take j).countP isIoApic

end Madt

/-! ## CPU SSDT: `SortByCcd`, `GenerateApicIdtoUidMap`, `InstallCpuAcpi` -/

/-- The structure `EFI_CPU_PHYSICAL_LOCATION`. -/
structure EFI_CPU_PHYSICAL_LOCATION where
  Package : Nat
  Core : Nat
  Thread : Nat
  deriving DecidableEq, Repr

/-- The union `EXTENDED_PROCESSOR_INFORMATION`, of which only `Location2` is
used. -/
structure EXTENDED_PROCESSOR_INFORMATION where
  Location2 : EFI_CPU_PHYSICAL_LOCATION2
  deriving DecidableEq, Repr

structure EFI_PROCESSOR_INFORMATION where
  ProcessorId : Nat
  StatusFlag : Nat
  Location : EFI_CPU_PHYSICAL_LOCATION
  ExtendedInformation : EXTENDED_PROCESSOR_INFORMATION
  deriving DecidableEq, Repr

/-- The MP services protocol as the file uses it. -/
structure EFI_MP_SERVICES_PROTOCOL where
  /-- Status, `NumberOfProcessors` and `NumberOfEnabledProcessors`. -/
  GetNumberOfProcessors : EFI_STATUS × Nat × Nat
  /-- The buffer after `GetProcessorInfo (This, Index, Buffer)`; the caller drops
  the status. -/
  GetProcessorInfo : Nat → EFI_PROCESSOR_INFORMATION

/-- The file-scope variables of CpuSsdt.c. -/
structure CpuSsdtGlobals where
  /-- The array `mApicIdtoUidMap`; `none` is NULL. -/
  mApicIdtoUidMap : Option (List EFI_PROCESSOR_INFORMATION)
  mNumberOfCpus : Nat
  mNumberOfEnabledCPUs : Nat
  deriving DecidableEq, Repr

/-- What CpuSsdt.c gets from outside the file. -/
structure SsdtPlatform where
  cpuid : Cpuid
  PcdMaxCpuSocketCount : Nat
  /-- The result of `gBS->LocateProtocol (&gEfiMpServiceProtocolGuid, ...)`;
  `none` when it fails or yields NULL. -/
  MpService : Option EFI_MP_SERVICES_PROTOCOL
  /-- Whether `AllocateZeroPool` for the map returns a buffer. -/
  poolAvailable : Bool

namespace Ssdt

/-- The comparator `SortByCcd` of CpuSsdt.c: it reads the stored
`ExtendedInformation.Location2.Die`. -/
def SortByCcd (Left Right : EFI_PROCESSOR_INFORMATION) : Int :=
  compareCcdIndex (ccdIndex Left.ExtendedInformation.Location2.Die)
    (ccdIndex Right.ExtendedInformation.Location2.Die)

/-- One step of the first loop of `GenerateApicIdtoUidMap`: the record for
`Index` after `GetProcessorInfo` and the decoder call on `(UINT32)ProcessorId`. -/
def readProcessor (cpuid : Cpuid) (Mp : EFI_MP_SERVICES_PROTOCOL) (Index : Nat) :
    EFI_PROCESSOR_INFORMATION :=
  let Buffer := Mp.GetProcessorInfo Index
  { Buffer with
    ExtendedInformation :=
      { Location2 := decodeLocation2 cpuid (Buffer.ProcessorId % 2 ^ 32) } }

/-- The loop `mApicIdtoUidMap[Index].ProcessorId = Index`. -/
def assignProcessorId : List EFI_PROCESSOR_INFORMATION → Nat → List EFI_PROCESSOR_INFORMATION
  | [], _ => []
  | e :: rest, Index => { e with ProcessorId := Index } :: assignProcessorId rest (Index + 1)

/-- The map after the sort calls, before `ProcessorId` is overwritten. -/
def sortedMap (sort : SortFn) (P : SsdtPlatform) (Mp : EFI_MP_SERVICES_PROTOCOL)
    (NumberOfCpus : Nat) : List EFI_PROCESSOR_INFORMATION :=
  sortByCcdHalves sort P.PcdMaxCpuSocketCount SortByCcd
    ((List.range NumberOfCpus).map (readProcessor P.cpuid Mp))

/-- The function `GenerateApicIdtoUidMap`: the status and the file-scope
variables at return. -/
def GenerateApicIdtoUidMap (sort : SortFn) (P : SsdtPlatform) (G : CpuSsdtGlobals) :
    EFI_STATUS × CpuSsdtGlobals :=
  match P.MpService with
  | none => (.EFI_NOT_FOUND, G)
  | some Mp =>
    let n := Mp.GetNumberOfProcessors
    let G1 := { G with mNumberOfCpus := n.2.1, mNumberOfEnabledCPUs := n.2.2 }
    if EFI_ERROR n.1 then (n.1, G1)
    else if !P.poolAvailable then (.EFI_OUT_OF_RESOURCES, { G1 with mApicIdtoUidMap := none })
    else
      let Map := assignProcessorId (sortedMap sort P Mp G1.mNumberOfCpus) 0
      (.EFI_SUCCESS, { G1 with mApicIdtoUidMap := some Map })

/-- The value `DeviceStatus` computed in the loop of `InstallCpuAcpi`. -/
def deviceStatus (StatusFlag : Nat) : Nat :=
  let s0 := DEVICE_PRESENT_BIT ||| DEVICE_IN_UI_BIT
  let s1 := if StatusFlag &&& PROCESSOR_ENABLED_BIT ≠ 0 then s0 ||| DEVICE_ENABLED_BIT else s0
  if StatusFlag &&& PROCESSOR_HEALTH_STATUS_BIT ≠ 0 then s1 ||| DEVICE_HEALTH_BIT else s1

/-- A device node `Device (Cxxx)` with the objects `InstallCpuAcpi` puts in it. -/
structure CpuDevice where
  /-- The loop index printed by `"C%03X"`. -/
  NameIndex : Nat
  Hid : String
  Uid : Nat
  Sta : Nat
  Pack : Nat
  Ccd : Nat
  Ccx : Nat
  Core : Nat
  Thrd : Nat
  deriving DecidableEq, Repr

/-- The status each AmlLib call and `AppendExistingAcpiTable` returns; the calls
inside the loop are told apart by the loop index. -/
structure AmlLib where
  AmlCodeGenDefinitionBlock : EFI_STATUS
  AmlCodeGenScope : EFI_STATUS
  AmlCodeGenDevice : Nat → EFI_STATUS
  AmlCodeGenNameString : Nat → EFI_STATUS
  AmlCodeGenNameInteger : String → Nat → EFI_STATUS
  AmlCodeGenMethodRetInteger : Nat → EFI_STATUS
  AmlSerializeDefinitionBlock : EFI_STATUS
  AmlDeleteTree : EFI_STATUS
  AppendExistingAcpiTable : EFI_STATUS

/-- The body of the loop of `InstallCpuAcpi` for a record that is not skipped:
the calls in source order, the first failing status returned at once. -/
def cpuDevice (Aml : AmlLib) (Index : Nat) (p : EFI_PROCESSOR_INFORMATION) :
    Except EFI_STATUS CpuDevice :=
  if EFI_ERROR (Aml.AmlCodeGenDevice Index) then .error (Aml.AmlCodeGenDevice Index)
  else if EFI_ERROR (Aml.AmlCodeGenNameString Index) then .error (Aml.AmlCodeGenNameString Index)
  else if EFI_ERROR (Aml.AmlCodeGenNameInteger "_UID" Index) then
    .error (Aml.AmlCodeGenNameInteger "_UID" Index)
  else if EFI_ERROR (Aml.AmlCodeGenMethodRetInteger Index) then
    .error (Aml.AmlCodeGenMethodRetInteger Index)
  else if EFI_ERROR (Aml.AmlCodeGenNameInteger "PACK" Index) then
    .error (Aml.AmlCodeGenNameInteger "PACK" Index)
  else if EFI_ERROR (Aml.AmlCodeGenNameInteger "CCD_" Index) then
    .error (Aml.AmlCodeGenNameInteger "CCD_" Index)
  else if EFI_ERROR (Aml.AmlCodeGenNameInteger "CCX_" Index) then
    .error (Aml.AmlCodeGenNameInteger "CCX_" Index)
  else if EFI_ERROR (Aml.AmlCodeGenNameInteger "CORE" Index) then
    .error (Aml.AmlCodeGenNameInteger "CORE" Index)
  else if EFI_ERROR (Aml.AmlCodeGenNameInteger "THRD" Index) then
    .error (Aml.AmlCodeGenNameInteger "THRD" Index)
  else
    .ok
      { NameIndex := Index
        Hid := "ACPI0007"
        Uid := p.ProcessorId
        Sta := deviceStatus p.StatusFlag
        Pack := p.ExtendedInformation.Location2.Package
        Ccd := p.ExtendedInformation.Location2.Die
        Ccx := p.ExtendedInformation.Location2.Module
        Core := p.ExtendedInformation.Location2.Core
        Thrd := p.ExtendedInformation.Location2.Thread }

/-- The device node the loop body completes for the record `p` at `Index` when
none of its calls fails. -/
def deviceNode (Index : Nat) (p : EFI_PROCESSOR_INFORMATION) : CpuDevice :=
  { NameIndex := Index
    Hid := "ACPI0007"
    Uid := p.ProcessorId
    Sta := deviceStatus p.StatusFlag
    Pack := p.ExtendedInformation.Location2.Package
    Ccd := p.ExtendedInformation.Location2.Die
    Ccx := p.ExtendedInformation.Location2.Module
    Core := p.ExtendedInformation.Location2.Core
    Thrd := p.ExtendedInformation.Location2.Thread }

/-- The loop `for (Index = 0; Index < NumberOfLogicProcessors; Index++)` of
`InstallCpuAcpi` from `Index` on, over the records from `Index` on: the
device nodes completed, in the order they are added under the scope, and the
failing status if a call failed. -/
def cpuDevices (Aml : AmlLib) :
    List EFI_PROCESSOR_INFORMATION → Nat → List CpuDevice × Option EFI_STATUS
  | [], _ => ([], none)
  | p :: rest, Index =>
    if p.StatusFlag = 0 then cpuDevices Aml rest (Index + 1)
    else
      match cpuDevice Aml Index p with
      | .error e => ([], some e)
      | .ok d => (d :: (cpuDevices Aml rest (Index + 1)).1, (cpuDevices Aml rest (Index + 1)).2)

/-- What `InstallCpuAcpi` leaves behind. -/
structure InstallResult where
  Status : EFI_STATUS
  Globals : CpuSsdtGlobals
  /-- The device nodes completed under `\_SB_` when the function returns. -/
  Devices : List CpuDevice
  /-- Whether the serialized table was handed to `AppendExistingAcpiTable`. -/
  Appended : Bool

/-- The function `InstallCpuAcpi`. -/
def InstallCpuAcpi (sort : SortFn) (P : SsdtPlatform) (Aml : AmlLib) (G : CpuSsdtGlobals) :
    InstallResult :=
  match P.MpService with
  | none => { Status := .EFI_NOT_FOUND, Globals := G, Devices := [], Appended := false }
  | some MpServices =>
    let g := GenerateApicIdtoUidMap sort P G
    if EFI_ERROR g.1 then
      { Status := .EFI_NOT_FOUND, Globals := g.2, Devices := [], Appended := false }
    else if EFI_ERROR MpServices.GetNumberOfProcessors.1 then
      { Status := MpServices.GetNumberOfProcessors.1, Globals := g.2, Devices := [],
        Appended := false }
    else if EFI_ERROR Aml.AmlCodeGenDefinitionBlock then
      { Status := Aml.AmlCodeGenDefinitionBlock, Globals := g.2, Devices := [],
        Appended := false }
    else if EFI_ERROR Aml.AmlCodeGenScope then
      { Status := Aml.AmlCodeGenScope, Globals := g.2, Devices := [], Appended := false }
    else
      let NumberOfLogicProcessors := MpServices.GetNumberOfProcessors.2.1
      let r := cpuDevices Aml ((g.2.mApicIdtoUidMap.getD []).take NumberOfLogicProcessors) 0
      match r.2 with
      | some e => { Status := e, Globals := g.2, Devices := r.1, Appended := false }
      | none =>
        if EFI_ERROR Aml.AmlSerializeDefinitionBlock then
          { Status := Aml.AmlSerializeDefinitionBlock, Globals := g.2, Devices := r.1,
            Appended := false }
        else if EFI_ERROR Aml.AmlDeleteTree then
          { Status := Aml.AmlDeleteTree, Globals := g.2, Devices := r.1, Appended := false }
        else
          { Status := Aml.AppendExistingAcpiTable, Globals := g.2, Devices := r.1,
            Appended := true }

end Ssdt

/-! ## The copy of the decoder and of `mCcdOrder` in CpuSsdt.c

CpuSsdt.c carries its own text of `AmdGetProcessorLocation2ByApicId` (lines
52-146) and of `mCcdOrder` (line 29).  They are translated here on their own,
so that the two texts can be compared. -/

namespace CpuSsdt

/-- The table `mCcdOrder[16]` of CpuSsdt.c. -/
def mCcdOrder : List Nat := [0, 4, 8, 12, 2, 6, 10, 14, 3, 7, 11, 15, 1, 5, 9, 13]

/-- The CPUID loop of the copy: it stops at the first invalid level type and
otherwise stores the shift width at `Bits[LevelType]` (a write outside the
seven elements is dropped). -/
def readLevels (cpuid : Cpuid) : Nat → Nat → List Nat → List Nat
  | 0, _, Bits => Bits
  | count + 1, Index, Bits =>
    if (cpuid Index).LevelType = CPUID_EXTENDED_TOPOLOGY_LEVEL_TYPE_INVALID then
      Bits
    else
      readLevels cpuid count (Index + 1)
        (Bits.set (cpuid Index).LevelType (cpuid Index).ApicIdShift)

/-- The loop of the copy that lets a level with width 0 take the width of the
level below. -/
def inheritLevels (Bits : List Nat) : List Nat :=
  (List.range' CPUID_EXTENDED_TOPOLOGY_LEVEL_TYPE_CORE 5).foldl
    (fun B LevelType =>
      if B.getD LevelType 0 = 0 then B.set LevelType (B.getD (LevelType - 1) 0) else B)
    Bits

/-- The array `Bits` of the copy as it stands before the output loop. -/
def topologyBits (cpuid : Cpuid) : List Nat :=
  let Bits := inheritLevels (readLevels cpuid 7 0 [0, 0, 0, 0, 0, 0, 0])
  Bits.set (AMD_CPUID_V2_EXTENDED_TOPOLOGY_LEVEL_TYPE_DIE + 1)
    (Bits.getD AMD_CPUID_V2_EXTENDED_TOPOLOGY_LEVEL_TYPE_DIE 0 + 1)

/-- The expression
`(InitialApicId & ((1 << Bits[LevelType]) - 1)) >> Bits[LevelType - 1]`
of the copy, in 32-bit arithmetic. -/
def locationField (Bits : List Nat) (InitialApicId LevelType : Nat) : Nat :=
  (InitialApicId &&& ((((1 <<< Bits.getD LevelType 0) % 2 ^ 32) + 2 ^ 32 - 1) % 2 ^ 32))
    >>> Bits.getD (LevelType - 1) 0

/-- The function `AmdGetProcessorLocation2ByApicId` of CpuSsdt.c. -/
def AmdGetProcessorLocation2ByApicId (cpuid : Cpuid) (InitialApicId : Nat)
    (req : LocationRequest) : LocationOutput :=
  let Bits := topologyBits cpuid
  let out (wanted : Bool) (LevelType : Nat) : Option Nat :=
    if wanted then some (locationField Bits InitialApicId LevelType) else none
  { Package := out req.Package (AMD_CPUID_V2_EXTENDED_TOPOLOGY_LEVEL_TYPE_DIE + 1)
    Die := if req.Die then some 0 else none
    Ccd := out req.Ccd AMD_CPUID_V2_EXTENDED_TOPOLOGY_LEVEL_TYPE_CCD
    Complex := out req.Complex AMD_CPUID_V2_EXTENDED_TOPOLOGY_LEVEL_TYPE_CCX
    Core := out req.Core CPUID_EXTENDED_TOPOLOGY_LEVEL_TYPE_CORE
    Thread := out req.Thread CPUID_EXTENDED_TOPOLOGY_LEVEL_TYPE_SMT }

end CpuSsdt

/-! ## Platform library without IOAPIC information -/

namespace DxePlatformSocLibNull

/-- The function `GetIoApicInfo` of DxePlatformSocLibNull.c: it returns
`EFI_UNSUPPORTED` and writes through neither pointer, so the two variables of
the caller keep the values they had. -/
def GetIoApicInfo (IoApicInfo : Option (List EFI_ACPI_6_5_IO_APIC_STRUCTURE))
    (IoApicCount : Nat) :
    EFI_STATUS × Option (List EFI_ACPI_6_5_IO_APIC_STRUCTURE) × Nat :=
  (.EFI_UNSUPPORTED, IoApicInfo, IoApicCount)

/-- What `MadtAcpiTablePatch` has after `NbioIoApic = NULL; IoApicCount = 0;
GetIoApicInfo (&NbioIoApic, &IoApicCount);` with this library instance. -/
def platform (cpuid : Cpuid) (PcdMaxCpuSocketCount : Nat) : MadtPlatform :=
  { cpuid := cpuid, PcdMaxCpuSocketCount := PcdMaxCpuSocketCount,
    NbioIoApic := (GetIoApicInfo none 0).2.1, IoApicCount := (GetIoApicInfo none 0).2.2,
    poolAvailable := true, pastArrayOdd := false }

end DxePlatformSocLibNull

/-! ## Platform SoC library of the Turin board: DxePlatformSocLib.c -/

/-- What a function of DxePlatformSocLib.c or Type9SystemSlotInfoFunction.c
does outside its own variables: the library and protocol calls it makes, and
`Store` for a store through one of its pointer arguments. -/
inductive Action where
  | AllocateZeroPool
  | FreePool
  | LocateProtocol
  | PcieGetPcieDxe
  | PcieGetTopology
  | MmioWrite8
  | MmioRead32
  | SmnRegisterReadS
  | CxlGetRootPortInformation
  | GetTablePtr2
  | AddCommonSmbiosRecord
  | Store
  deriving DecidableEq, Repr

/-- Ways a run of these functions leaves what C defines. -/
inductive SocFault where
  /-- A store through a pointer argument that is NULL. -/
  | nullStore
  /-- A store or a read past the end of an array. -/
  | pastArray
  deriving DecidableEq, Repr

/-- The fields of `GNB_HANDLE` the library reads. -/
structure GNB_HANDLE where
  /-- The field `Header.DescriptorFlags`. -/
  DescriptorFlags : Nat
  /-- The field `Address.AddressValue`. -/
  AddressValue : Nat
  /-- The field `Address.Address.Segment`. -/
  Segment : Nat
  /-- The field `Address.Address.Bus`. -/
  Bus : Nat
  RBIndex : Nat
  deriving DecidableEq, Repr

/-- The bit-field `IoApicVersionRegister.Bits.MaximumRedirectionEntry`: bits
23:16 of the I/O APIC version register. -/
def MaximumRedirectionEntry (Uint32 : Nat) : Nat := (Uint32 / 2 ^ 16) % 256

/-- The bit-field `IoApicIdentificationRegister.Bits.Identification`: bits
27:24 of the I/O APIC identification register. -/
def Identification (Uint32 : Nat) : Nat := (Uint32 / 2 ^ 24) % 16

structure AMD_CXL_PORT_INFO where
  /-- The field `EndPointBDF.AddressValue`. -/
  EndPointBDF : Nat
  IsCxl2 : Bool
  deriving DecidableEq, Repr

structure AMD_CXL_PORT_INFO_STRUCT where
  /-- The field `EndPointBDF.AddressValue`. -/
  EndPointBDF : Nat
  DsRcrb : Nat
  deriving DecidableEq, Repr

/-- The protocol `AMD_NBIO_CXL_SERVICES_PROTOCOL` as the library uses it. -/
structure AMD_NBIO_CXL_SERVICES_PROTOCOL where
  CxlCount : Nat
  /-- Status and `NbioPortInfo` after `CxlGetRootPortInformation (This, Index,
  &NbioPortInfo)`. -/
  CxlGetRootPortInformation : Nat → EFI_STATUS × AMD_CXL_PORT_INFO_STRUCT

/-- What DxePlatformSocLib.c gets from outside the file: the constants of
headers that are not part of the sources, the PCDs, the hardware registers and
the protocols. -/
structure SocPlatform where
  /-- Whether `AllocateZeroPool` returns a buffer. -/
  poolAvailable : Bool
  PcdIoApicAddress : Nat
  PcdIoApicId : Nat
  IOAPIC_INDEX_OFFSET : Nat
  IOAPIC_DATA_OFFSET : Nat
  IO_APIC_IDENTIFICATION_REGISTER_INDEX : Nat
  IO_APIC_VERSION_REGISTER_INDEX : Nat
  IOAPIC_BASE_ADDR_LO_IOAPIC_BASE_ADDR_LO_MASK : Nat
  SMN_IOHUB0NBIO0_IOAPIC_BASE_ADDR_LO_ADDRESS : Nat
  SMN_IOHUB1NBIO0_IOAPIC_BASE_ADDR_LO_ADDRESS : Nat
  SILICON_CXL_CAPABLE : Nat
  /-- The macro `NBIO_SPACE (GnbHandle, Address)`. -/
  NBIO_SPACE : GNB_HANDLE → Nat → Nat
  /-- The value `MmioRead32 (DataAddress)` returns after `MmioWrite8
  (IndexAddress, Index)`. -/
  MmioRead32 : (IndexAddress Index DataAddress : Nat) → Nat
  /-- The value `SmnRegisterReadS (Segment, Bus, Address, &Value32)` stores. -/
  SmnRegisterReadS : (Segment Bus Address : Nat) → Nat
  /-- The chain of handles `NbioGetHandle` and `GnbGetNextHandle` walk over the
  topology `PcieGetTopology` returns; `none` when `LocateProtocol` of the NBIO
  PCIe services fails. -/
  NbioPcieServices : Option (List GNB_HANDLE)
  /-- What the stack slot of `LocalIoApicCount` holds when the function is
  entered; the variable has no initializer. -/
  LocalIoApicCountOnEntry : Nat
  /-- The status of `PcieGetPcieDxe (&Pcie)` and the chain of handles of the
  `Pcie` it returns. -/
  PcieGetPcieDxe : EFI_STATUS × List GNB_HANDLE
  /-- The CXL services protocol; `none` when `LocateProtocol` fails. -/
  NbioCxlServices : Option AMD_NBIO_CXL_SERVICES_PROTOCOL

namespace DxePlatformSocLib

/-- The constant `MAX_IOAPIC_NUM`. -/
def MAX_IOAPIC_NUM : Nat := 0x20

/-- An element of the buffer `AllocateZeroPool` returns. -/
def zeroIoApic : EFI_ACPI_6_5_IO_APIC_STRUCTURE :=
  { Type_ := 0, Length := 0, IoApicId := 0, Reserved := 0, IoApicAddress := 0,
    GlobalSystemInterruptBase := 0 }

/-- The caller's variables and the status at return of `GetIoApicInfo`; a
variable is `none` when the pointer argument for it is NULL. -/
structure IoApicOutcome where
  Status : EFI_STATUS
  /-- The variable `*IoApicInfo`; the inner `none` is a NULL buffer. -/
  IoApicInfo : Option (Option (List EFI_ACPI_6_5_IO_APIC_STRUCTURE))
  /-- The variable `*IoApicCount`. -/
  IoApicCount : Option Nat
  Trace : List Action
  deriving DecidableEq, Repr

/-- The register read `MmioWrite8 (Address + IOAPIC_INDEX_OFFSET, Index);
MmioRead32 (Address + IOAPIC_DATA_OFFSET)`. -/
def readIoApicRegister (S : SocPlatform) (Address Index : Nat) : Nat :=
  S.MmioRead32 (Address + S.IOAPIC_INDEX_OFFSET) Index (Address + S.IOAPIC_DATA_OFFSET)

/-- The value of `IoApic[LocalIoApicCount].IoApicAddress` for a handle. -/
def nbioIoApicAddress (S : SocPlatform) (GnbHandle : GNB_HANDLE) : Nat :=
  let Value32 :=
    if GnbHandle.RBIndex < 4 then
      S.SmnRegisterReadS GnbHandle.Segment GnbHandle.Bus
        (S.NBIO_SPACE GnbHandle S.SMN_IOHUB0NBIO0_IOAPIC_BASE_ADDR_LO_ADDRESS)
    else
      S.SmnRegisterReadS GnbHandle.Segment GnbHandle.Bus
        (S.NBIO_SPACE GnbHandle S.SMN_IOHUB1NBIO0_IOAPIC_BASE_ADDR_LO_ADDRESS)
  (Value32 % 2 ^ 32) &&& S.IOAPIC_BASE_ADDR_LO_IOAPIC_BASE_ADDR_LO_MASK

/-- The loop `while (GnbHandle != NULL)` of `GetIoApicInfo`: the elements it
stores for the handles left, `GlobalSystemInterruptBase` being the value of
the variable of that name when the loop reaches the first of them. -/
def nbioIoApics (S : SocPlatform) :
    List GNB_HANDLE → Nat → List EFI_ACPI_6_5_IO_APIC_STRUCTURE
  | [], _ => []
  | GnbHandle :: rest, GlobalSystemInterruptBase =>
    let Address := nbioIoApicAddress S GnbHandle
    let IoApicId :=
      Identification (readIoApicRegister S Address S.IO_APIC_IDENTIFICATION_REGISTER_INDEX)
        % 256
    let IoApicVersionRegister :=
      readIoApicRegister S Address S.IO_APIC_VERSION_REGISTER_INDEX
    { zeroIoApic with
      IoApicId := IoApicId, IoApicAddress := Address,
      GlobalSystemInterruptBase := GlobalSystemInterruptBase }
      :: nbioIoApics S rest
        ((GlobalSystemInterruptBase + (MaximumRedirectionEntry IoApicVersionRegister + 1))
          % 2 ^ 32)

/-- The calls the loop makes for one handle. -/
def nbioIoApicTrace : List Action :=
  [.SmnRegisterReadS, .MmioWrite8, .MmioRead32, .MmioWrite8, .MmioRead32]

/-- The function `GetIoApicInfo` of the Turin library.  The arguments are the
variables the two pointers point to, `none` for a NULL pointer.  More than 31
handles make the loop store past the `MAX_IOAPIC_NUM` elements of the
buffer. -/
def GetIoApicInfo (S : SocPlatform)
    (IoApicInfo : Option (Option (List EFI_ACPI_6_5_IO_APIC_STRUCTURE)))
    (IoApicCount : Option Nat) : Except SocFault IoApicOutcome :=
  match IoApicInfo, IoApicCount with
  | some _, some _ =>
    if !S.poolAvailable then
      .ok { Status := .EFI_OUT_OF_RESOURCES, IoApicInfo := IoApicInfo,
            IoApicCount := IoApicCount, Trace := [.AllocateZeroPool] }
    else
      let IoApicVersionRegister :=
        readIoApicRegister S S.PcdIoApicAddress S.IO_APIC_VERSION_REGISTER_INDEX
      let GlobalSystemInterruptBase :=
        (0 + (MaximumRedirectionEntry IoApicVersionRegister + 1)) % 2 ^ 32
      match S.NbioPcieServices with
      | none =>
        .ok { Status := .EFI_SUCCESS
              IoApicInfo := some (some (List.replicate MAX_IOAPIC_NUM zeroIoApic))
              IoApicCount := some (S.LocalIoApicCountOnEntry % 256)
              Trace := [.AllocateZeroPool, .MmioWrite8, .MmioRead32, .LocateProtocol, .Store,
                .Store] }
      | some handles =>
        if handles.length + 1 > MAX_IOAPIC_NUM then .error .pastArray
        else
          let IoApic :=
            { zeroIoApic with
              IoApicId := S.PcdIoApicId % 256, IoApicAddress := S.PcdIoApicAddress % 2 ^ 32,
              GlobalSystemInterruptBase := 0 }
              :: nbioIoApics S handles GlobalSystemInterruptBase
          .ok { Status := .EFI_SUCCESS
                IoApicInfo :=
                  some (some (IoApic ++ List.replicate (MAX_IOAPIC_NUM - IoApic.length)
                    zeroIoApic))
                IoApicCount := some (handles.length + 1)
                Trace := [.AllocateZeroPool, .MmioWrite8, .MmioRead32, .LocateProtocol,
                  .PcieGetTopology] ++ (handles.map (fun _ => nbioIoApicTrace)).flatten
                  ++ [.Store, .Store] }
  | _, _ =>
    .ok { Status := .EFI_INVALID_PARAMETER, IoApicInfo := IoApicInfo,
          IoApicCount := IoApicCount, Trace := [] }

end DxePlatformSocLib

namespace DxePlatformSocLib

/-- The caller's variables and the status at return of `GetPcieCxl2Info` and
of `GetPcieCxlInfo`; a variable is `none` when the pointer argument for it is
NULL. -/
structure CxlOutcome where
  Status : EFI_STATUS
  /-- The variable `*CxlPortInfo`; the inner `none` is a NULL buffer. -/
  CxlPortInfo : Option (Option (List AMD_CXL_PORT_INFO))
  /-- The variable `*CxlCount`. -/
  CxlCount : Option Nat
  Trace : List Action
  deriving DecidableEq, Repr

/-- The test `(GnbHandle->Header.DescriptorFlags & SILICON_CXL_CAPABLE) ==
SILICON_CXL_CAPABLE`. -/
def cxlCapable (S : SocPlatform) (GnbHandle : GNB_HANDLE) : Bool :=
  GnbHandle.DescriptorFlags &&& S.SILICON_CXL_CAPABLE == S.SILICON_CXL_CAPABLE

/-- The function `GetPcieCxl2Info`. -/
def GetPcieCxl2Info (S : SocPlatform) (CxlPortInfo : Option (Option (List AMD_CXL_PORT_INFO)))
    (CxlCount : Option Nat) : CxlOutcome :=
  match CxlPortInfo, CxlCount with
  | some _, some _ =>
    if EFI_ERROR S.PcieGetPcieDxe.1 then
      { Status := S.PcieGetPcieDxe.1, CxlPortInfo := CxlPortInfo, CxlCount := CxlCount,
        Trace := [.PcieGetPcieDxe] }
    else
      let capable := S.PcieGetPcieDxe.2.filter (cxlCapable S)
      let CxlRbSupportCount := capable.length
      if CxlRbSupportCount > 0 then
        if !S.poolAvailable then
          { Status := .EFI_OUT_OF_RESOURCES, CxlPortInfo := CxlPortInfo, CxlCount := CxlCount,
            Trace := [.PcieGetPcieDxe, .AllocateZeroPool] }
        else
          { Status := S.PcieGetPcieDxe.1
            CxlPortInfo :=
              some (some (capable.map
                (fun GnbHandle => { EndPointBDF := GnbHandle.AddressValue, IsCxl2 := true })))
            CxlCount := some CxlRbSupportCount
            Trace := [.PcieGetPcieDxe, .AllocateZeroPool, .Store, .Store] }
      else
        { Status := .EFI_NOT_FOUND, CxlPortInfo := some none, CxlCount := some CxlRbSupportCount,
          Trace := [.PcieGetPcieDxe, .Store, .Store] }
  | _, _ =>
    { Status := .EFI_INVALID_PARAMETER, CxlPortInfo := CxlPortInfo, CxlCount := CxlCount,
      Trace := [] }

/-- The loop of `GetPcieCxlInfo` over the root ports from `Index` on, `count`
of them left: the elements it fills, up to the first call that does not return
`EFI_SUCCESS`, and the number of calls made.  The elements it does not reach
stay zero. -/
def cxlRootPorts (Protocol : AMD_NBIO_CXL_SERVICES_PROTOCOL) :
    Nat → Nat → List AMD_CXL_PORT_INFO × Nat
  | 0, _ => ([], 0)
  | count + 1, Index =>
    if (Protocol.CxlGetRootPortInformation Index).1 ≠ .EFI_SUCCESS then
      (List.replicate (count + 1) { EndPointBDF := 0, IsCxl2 := false }, 1)
    else
      let NbioPortInfo := (Protocol.CxlGetRootPortInformation Index).2
      ({ EndPointBDF := NbioPortInfo.EndPointBDF, IsCxl2 := NbioPortInfo.DsRcrb == 0 }
          :: (cxlRootPorts Protocol count (Index + 1)).1,
        (cxlRootPorts Protocol count (Index + 1)).2 + 1)

/-- The function `GetPcieCxlInfo`.  It has no NULL test of its own: after
`GetPcieCxl2Info` it goes on whenever that call returned an error, and ends by
storing through both pointers. -/
def GetPcieCxlInfo (S : SocPlatform) (CxlPortInfo : Option (Option (List AMD_CXL_PORT_INFO)))
    (CxlCount : Option Nat) : Except SocFault CxlOutcome :=
  let r := GetPcieCxl2Info S CxlPortInfo CxlCount
  if !EFI_ERROR r.Status && decide (r.CxlCount.getD 0 > 0) then .ok r
  else
    match S.NbioCxlServices with
    | none =>
      .ok { Status := .EFI_SUCCESS, CxlPortInfo := r.CxlPortInfo, CxlCount := r.CxlCount,
            Trace := r.Trace ++ [.LocateProtocol] }
    | some Protocol =>
      if !S.poolAvailable then
        .ok { Status := .EFI_OUT_OF_RESOURCES, CxlPortInfo := r.CxlPortInfo,
              CxlCount := r.CxlCount, Trace := r.Trace ++ [.LocateProtocol, .AllocateZeroPool] }
      else
        let ports := cxlRootPorts Protocol Protocol.CxlCount 0
        match CxlPortInfo, CxlCount with
        | some _, some _ =>
          .ok { Status := .EFI_SUCCESS, CxlPortInfo := some (some ports.1)
                CxlCount := some Protocol.CxlCount
                Trace := r.Trace ++ [.LocateProtocol, .AllocateZeroPool]
                  ++ List.replicate ports.2 .CxlGetRootPortInformation ++ [.Store, .Store] }
        | _, _ => .error .nullStore

end DxePlatformSocLib

/-! ## SMBIOS type 9 records: Type9SystemSlotInfoFunction.c -/

/-- The fields of a port engine `SlotBdfInfo` reads: `Type.Port.PortData.SlotNum`
and the four parts of `Type.Port.Address.Address`. -/
structure PCIE_ENGINE_CONFIG where
  SlotNum : Nat
  Segment : Nat
  Bus : Nat
  Device : Nat
  Function : Nat
  deriving DecidableEq, Repr

/-- A wrapper with the engines `PcieConfigGetChildEngine` and
`PcieLibGetNextDescriptor` walk. -/
structure PCIE_WRAPPER_CONFIG where
  Engines : List PCIE_ENGINE_CONFIG
  deriving DecidableEq, Repr

structure PCIE_SILICON_CONFIG where
  Wrappers : List PCIE_WRAPPER_CONFIG
  deriving DecidableEq, Repr

structure PCIE_COMPLEX_CONFIG where
  Silicons : List PCIE_SILICON_CONFIG
  deriving DecidableEq, Repr

inductive DXIO_ENGINE_TYPE where
  | DxioPcieEngine
  /-- Any engine type the file does not name. -/
  | other (value : Nat)
  deriving DecidableEq, Repr

inductive DXIO_LINK_SPEED_CAP where
  | DxioGenMaxSupported
  | DxioGen1
  | DxioGen2
  | DxioGen3
  | DxioGen4
  | DxioGen5
  /-- Any value the file does not name. -/
  | other (value : Nat)
  deriving DecidableEq, Repr

inductive DXIO_ENDPOINT_STATUS where
  | EndpointDetect
  | EndpointNotPresent
  /-- Any value the file does not name. -/
  | other (value : Nat)
  deriving DecidableEq, Repr

/-- The fields of `DXIO_PORT_DESCRIPTOR` the file reads: `Flags`, three fields
of `EngineData` and four fields of `Port`.  The two lanes are 8-bit fields. -/
structure DXIO_PORT_DESCRIPTOR where
  Flags : Nat
  EngineType : DXIO_ENGINE_TYPE
  DxioStartLane : Nat
  DxioEndLane : Nat
  PortPresent : Nat
  SlotNum : Nat
  LinkSpeedCapability : DXIO_LINK_SPEED_CAP
  EndpointStatus : DXIO_ENDPOINT_STATUS
  deriving DecidableEq, Repr

inductive MISC_SLOT_TYPE where
  | SlotTypeOther
  | SlotTypePciExpress
  | SlotTypePciExpressGen2
  | SlotTypePciExpressGen3
  | SlotTypePciExpressGen4
  | SlotTypePCIExpressGen5
  deriving DecidableEq, Repr

inductive MISC_SLOT_DATA_BUS_WIDTH where
  | SlotDataBusWidth1X
  | SlotDataBusWidth2X
  | SlotDataBusWidth4X
  | SlotDataBusWidth8X
  | SlotDataBusWidth16X
  deriving DecidableEq, Repr

inductive MISC_SLOT_LENGTH where
  | SlotLengthUnknown
  deriving DecidableEq, Repr

inductive MISC_SLOT_HEIGHT where
  | SlotHeightUnknown
  deriving DecidableEq, Repr

inductive MISC_SLOT_USAGE where
  | SlotUsageAvailable
  | SlotUsageInUse
  | SlotUsageUnknown
  deriving DecidableEq, Repr

/-- The local `SmbiosRecordExtended`, copied behind the fixed part of the
record. -/
structure SMBIOS_TABLE_TYPE9_EXTENDED where
  /-- The field is never assigned: it holds what the stack held. -/
  SlotInformation : Nat
  SlotPhysicalWidth : MISC_SLOT_DATA_BUS_WIDTH
  SlotPitch : Nat
  SlotHeight : MISC_SLOT_HEIGHT
  deriving DecidableEq, Repr

/-- The record `CreateSmbiosSystemSlotRecord` builds: the fields of
`SMBIOS_TABLE_TYPE9` it assigns, the extended part copied at `PeerGroups` and
the string copied at offset `Hdr.Length`. -/
structure SMBIOS_TABLE_TYPE9 where
  HdrType : Nat
  HdrLength : Nat
  HdrHandle : Nat
  SlotDesignation : Nat
  SlotType : MISC_SLOT_TYPE
  SlotDataBusWidth : MISC_SLOT_DATA_BUS_WIDTH
  CurrentUsage : MISC_SLOT_USAGE
  SlotLength : MISC_SLOT_LENGTH
  SlotID : Nat
  SlotCharacteristics1 : Nat
  SlotCharacteristics2 : Nat
  SegmentGroupNum : Nat
  BusNum : Nat
  DevFuncNum : Nat
  DataBusWidth : Nat
  PeerGroupingCount : Nat
  Extended : SMBIOS_TABLE_TYPE9_EXTENDED
  SlotDesignationStr : String
  deriving DecidableEq, Repr

/-- What Type9SystemSlotInfoFunction.c gets from outside the file. -/
structure SmbiosPlatform where
  /-- Whether `AllocateZeroPool` returns a buffer. -/
  poolAvailable : Bool
  /-- The status of `PcieGetPcieDxe (&Pcie)` and the complexes of the `Pcie` it
  returns, up to the one flagged `DESCRIPTOR_TERMINATE_TOPOLOGY`. -/
  PcieGetPcieDxe : EFI_STATUS × List PCIE_COMPLEX_CONFIG
  PcdAmdSmbiosType9SlotCharacteristics1 : Nat
  PcdAmdSmbiosType9SlotCharacteristics2 : Nat
  /-- The value of `sizeof (SMBIOS_TABLE_TYPE9) + sizeof (SMBIOS_TABLE_TYPE9_EXTENDED)`. -/
  sizeofRecord : Nat
  SMBIOS_TYPE_SYSTEM_SLOTS : Nat
  /-- What the stack slot of `SmbiosRecordExtended.SlotInformation` holds. -/
  SlotInformationOnEntry : Nat
  /-- The two tables `GetTablePtr2` returns, each as its `Port` array; `none`
  for the whole when `LocateProtocol` of the CPM table protocol fails, with the
  status it returns. -/
  CpmTableProtocol :
    Except EFI_STATUS (Option (List DXIO_PORT_DESCRIPTOR) × Option (List DXIO_PORT_DESCRIPTOR))
  PcdAmdNumberOfPhysicalSocket : Nat
  AMD_DXIO_PORT_DESCRIPTOR_SIZE : Nat
  /-- The status `AddCommonSmbiosRecord` returns for a record. -/
  AddCommonSmbiosRecord : SMBIOS_TABLE_TYPE9 → EFI_STATUS

namespace SmbiosType9

/-- The four nested loops of `SlotBdfInfo`: the first engine, in walk order,
whose slot number is `SlotNum`. -/
def findEngine (SlotNum : Nat) (ComplexList : List PCIE_COMPLEX_CONFIG) :
    Option PCIE_ENGINE_CONFIG :=
  ComplexList.findSome? fun Complex =>
    Complex.Silicons.findSome? fun Silicon =>
      Silicon.Wrappers.findSome? fun Wrapper =>
        Wrapper.Engines.find? fun Engine => Engine.SlotNum == SlotNum

/-- The caller's variables and the status at return of `SlotBdfInfo`; a
variable is `none` when the pointer argument for it is NULL. -/
structure SlotBdfOutcome where
  Status : EFI_STATUS
  SegInfo : Option Nat
  BusInfo : Option Nat
  DevFunInfo : Option Nat
  Trace : List Action
  deriving DecidableEq, Repr

/-- The function `SlotBdfInfo`. -/
def SlotBdfInfo (S : SmbiosPlatform) (SlotNumInfo SegInfo BusInfo DevFunInfo : Option Nat) :
    SlotBdfOutcome :=
  match SlotNumInfo, SegInfo, BusInfo, DevFunInfo with
  | some SlotNum, some _, some _, some _ =>
    if EFI_ERROR S.PcieGetPcieDxe.1 then
      { Status := S.PcieGetPcieDxe.1, SegInfo := SegInfo, BusInfo := BusInfo,
        DevFunInfo := DevFunInfo, Trace := [.PcieGetPcieDxe] }
    else
      match findEngine SlotNum S.PcieGetPcieDxe.2 with
      | some Engine =>
        { Status := .EFI_SUCCESS
          SegInfo := some (Engine.Segment &&& 0xFFFF)
          BusInfo := some (Engine.Bus &&& 0xFF)
          DevFunInfo := some ((((Engine.Device &&& 0x1F) <<< 3) ||| (Engine.Function &&& 0x7)) % 256)
          Trace := [.PcieGetPcieDxe, .Store, .Store, .Store] }
      | none =>
        { Status := .EFI_NOT_FOUND, SegInfo := SegInfo, BusInfo := BusInfo,
          DevFunInfo := DevFunInfo, Trace := [.PcieGetPcieDxe] }
  | _, _, _, _ =>
    { Status := .EFI_INVALID_PARAMETER, SegInfo := SegInfo, BusInfo := BusInfo,
      DevFunInfo := DevFunInfo, Trace := [] }

/-- The `if` and the `switch` on `LinkSpeedCapability` that set `SlotType`. -/
def slotType (Port : DXIO_PORT_DESCRIPTOR) : MISC_SLOT_TYPE :=
  if Port.EngineType = .DxioPcieEngine then
    match Port.LinkSpeedCapability with
    | .DxioGenMaxSupported => .SlotTypePCIExpressGen5
    | .DxioGen1 => .SlotTypePciExpress
    | .DxioGen2 => .SlotTypePciExpressGen2
    | .DxioGen3 => .SlotTypePciExpressGen3
    | .DxioGen4 => .SlotTypePciExpressGen4
    | .DxioGen5 => .SlotTypePCIExpressGen5
    | .other _ => .SlotTypePCIExpressGen5
  else .SlotTypeOther

/-- The `switch (DxioEndLane - DxioStartLane)`: the values stored in
`SlotDataBusWidth` and in `DataBusWidth`.  The two 8-bit lanes are promoted to
`int`, so the difference can be negative. -/
def slotWidth (Port : DXIO_PORT_DESCRIPTOR) : MISC_SLOT_DATA_BUS_WIDTH × Nat :=
  let span : Int := (Port.DxioEndLane : Int) - (Port.DxioStartLane : Int)
  if span = 15 then (.SlotDataBusWidth16X, 16)
  else if span = 7 then (.SlotDataBusWidth8X, 8)
  else if span = 3 then (.SlotDataBusWidth4X, 4)
  else if span = 1 then (.SlotDataBusWidth2X, 2)
  else (.SlotDataBusWidth1X, 1)

/-- The chain of `if`s on `EndpointStatus` that sets `CurrentUsage`. -/
def currentUsage (Port : DXIO_PORT_DESCRIPTOR) : MISC_SLOT_USAGE :=
  if Port.EndpointStatus = .EndpointDetect then .SlotUsageInUse
  else if Port.EndpointStatus = .EndpointNotPresent then .SlotUsageAvailable
  else .SlotUsageUnknown

/-- The caller's variable and the status at return of
`CreateSmbiosSystemSlotRecord`. -/
structure SlotRecordOutcome where
  Status : EFI_STATUS
  /-- The variable `*SmbiosRecordPtr`: `none` for a NULL pointer argument, the
  inner `none` for a NULL record. -/
  SmbiosRecordPtr : Option (Option SMBIOS_TABLE_TYPE9)
  Trace : List Action
  deriving DecidableEq, Repr

/-- The function `CreateSmbiosSystemSlotRecord`.  The status returned with a
record is the one of `SlotBdfInfo`; the trace includes that of this call. -/
def CreateSmbiosSystemSlotRecord (S : SmbiosPlatform) (DxioPortPtr : Option DXIO_PORT_DESCRIPTOR)
    (SmbiosRecordPtr : Option (Option SMBIOS_TABLE_TYPE9)) : SlotRecordOutcome :=
  match DxioPortPtr, SmbiosRecordPtr with
  | some Port, some _ =>
    if !S.poolAvailable then
      { Status := .EFI_OUT_OF_RESOURCES, SmbiosRecordPtr := SmbiosRecordPtr,
        Trace := [.AllocateZeroPool] }
    else
      let bdf := SlotBdfInfo S (some Port.SlotNum) (some 0xFFFF) (some 0xFF) (some 0xFF)
      let SmbiosRecord : SMBIOS_TABLE_TYPE9 :=
        { HdrType := S.SMBIOS_TYPE_SYSTEM_SLOTS
          HdrLength := S.sizeofRecord
          HdrHandle := 0
          SlotDesignation := 1
          SlotType := slotType Port
          SlotDataBusWidth := (slotWidth Port).1
          CurrentUsage := currentUsage Port
          SlotLength := .SlotLengthUnknown
          SlotID := Port.SlotNum
          SlotCharacteristics1 := S.PcdAmdSmbiosType9SlotCharacteristics1
          SlotCharacteristics2 := S.PcdAmdSmbiosType9SlotCharacteristics2
          SegmentGroupNum := bdf.SegInfo.getD 0xFFFF
          BusNum := bdf.BusInfo.getD 0xFF
          DevFuncNum := bdf.DevFunInfo.getD 0xFF
          DataBusWidth := (slotWidth Port).2
          PeerGroupingCount := 0
          Extended :=
            { SlotInformation := S.SlotInformationOnEntry
              SlotPhysicalWidth := (slotWidth Port).1
              SlotPitch := 0
              SlotHeight := .SlotHeightUnknown }
          SlotDesignationStr := "PCIE-" ++ toString Port.SlotNum }
      { Status := bdf.Status, SmbiosRecordPtr := some (some SmbiosRecord),
        Trace := [.AllocateZeroPool] ++ bdf.Trace ++ [.Store] }
  | _, _ =>
    { Status := .EFI_INVALID_PARAMETER, SmbiosRecordPtr := SmbiosRecordPtr, Trace := [] }

end SmbiosType9

namespace SmbiosType9

/-- The status, the records handed to `AddCommonSmbiosRecord` and the calls
made. -/
structure SlotInfoOutcome where
  Status : EFI_STATUS
  Added : List SMBIOS_TABLE_TYPE9
  Trace : List Action
  deriving DecidableEq, Repr

/-- The body of the inner loop of `SystemSlotInfoFunction` for one port, up to
the test of the last-port flag: a present slot gets a record, which is added
when `CreateSmbiosSystemSlotRecord` returns no error and freed when it is not
NULL. -/
def addSlot (S : SmbiosPlatform) (Port : DXIO_PORT_DESCRIPTOR) (r : SlotInfoOutcome) :
    SlotInfoOutcome :=
  if Port.SlotNum > 0 ∧ Port.PortPresent = 1 then
    let c := CreateSmbiosSystemSlotRecord S (some Port) (some none)
    let free : List Action := if c.SmbiosRecordPtr = some none then [] else [.FreePool]
    if EFI_ERROR c.Status then
      { Status := c.Status, Added := r.Added, Trace := r.Trace ++ c.Trace ++ free }
    else
      match c.SmbiosRecordPtr with
      | some (some SmbiosRecord) =>
        { Status := S.AddCommonSmbiosRecord SmbiosRecord
          Added := r.Added ++ [SmbiosRecord]
          Trace := r.Trace ++ c.Trace ++ [.AddCommonSmbiosRecord] ++ free }
      | _ => { Status := c.Status, Added := r.Added, Trace := r.Trace ++ c.Trace ++ free }
  else r

/-- The inner loop over the ports of one table, with its `break` after the
port flagged as the last one. -/
def addSlots (S : SmbiosPlatform) : List DXIO_PORT_DESCRIPTOR → SlotInfoOutcome → SlotInfoOutcome
  | [], r => r
  | Port :: rest, r =>
    if Port.Flags &&& 0x80000000 ≠ 0 then addSlot S Port r
    else addSlots S rest (addSlot S Port r)

/-- The outer loop over the sockets from `SocketIdx` on, `count` of them left.
The array `DxioTopologyTablePtr2` has two elements. -/
def addSockets (S : SmbiosPlatform)
    (DxioTopologyTablePtr2 : Option (List DXIO_PORT_DESCRIPTOR) × Option (List DXIO_PORT_DESCRIPTOR)) :
    Nat → Nat → SlotInfoOutcome → Except SocFault SlotInfoOutcome
  | 0, _, r => .ok r
  | count + 1, SocketIdx, r =>
    if SocketIdx ≥ 2 then .error .pastArray
    else
      match (if SocketIdx = 0 then DxioTopologyTablePtr2.1 else DxioTopologyTablePtr2.2) with
      | none => addSockets S DxioTopologyTablePtr2 count (SocketIdx + 1) r
      | some Port =>
        addSockets S DxioTopologyTablePtr2 count (SocketIdx + 1)
          (addSlots S (Port.take S.AMD_DXIO_PORT_DESCRIPTOR_SIZE) r)

/-- The function `SystemSlotInfoFunction`; `Smbios` is `none` for a NULL
protocol pointer. -/
def SystemSlotInfoFunction (S : SmbiosPlatform) (Smbios : Option Unit) :
    Except SocFault SlotInfoOutcome :=
  match Smbios with
  | none => .ok { Status := .EFI_INVALID_PARAMETER, Added := [], Trace := [] }
  | some _ =>
    match S.CpmTableProtocol with
    | .error Status => .ok { Status := Status, Added := [], Trace := [.LocateProtocol] }
    | .ok DxioTopologyTablePtr2 =>
      addSockets S DxioTopologyTablePtr2 S.PcdAmdNumberOfPhysicalSocket 0
        { Status := .EFI_SUCCESS, Added := [],
          Trace := [.LocateProtocol, .GetTablePtr2, .GetTablePtr2] }

end SmbiosType9

/-- The number of interrupt inputs of the FCH IOAPIC as `GetIoApicInfo` reads
it: `MaximumRedirectionEntry + 1` of the version register at
`PcdIoApicAddress`. -/
def DxePlatformSocLib.fchInterruptCount (S : SocPlatform) : Nat :=
  MaximumRedirectionEntry
    (DxePlatformSocLib.readIoApicRegister S S.PcdIoApicAddress S.IO_APIC_VERSION_REGISTER_INDEX)
    + 1

/-- The number of interrupt inputs of the IOAPIC of an NBIO handle as
`GetIoApicInfo` reads it. -/
def DxePlatformSocLib.nbioInterruptCount (S : SocPlatform) (GnbHandle : GNB_HANDLE) : Nat :=
  MaximumRedirectionEntry
    (DxePlatformSocLib.readIoApicRegister S (DxePlatformSocLib.nbioIoApicAddress S GnbHandle)
      S.IO_APIC_VERSION_REGISTER_INDEX) + 1

/-- The numbers of interrupt inputs of the IOAPICs in the order of the list
`GetIoApicInfo` returns: the FCH IOAPIC, then the NBIO IOAPICs. -/
def DxePlatformSocLib.interruptCounts (S : SocPlatform) (handles : List GNB_HANDLE) : List Nat :=
  DxePlatformSocLib.fchInterruptCount S
    :: handles.map (DxePlatformSocLib.nbioInterruptCount S)

/-! ## The enumeration the decoder reads, and the widths and ranks of the claims -/

/-- The levels the CPUID loop of the decoder reads, in order, each as level
type and shift width: `count` iterations are left, the next sub-leaf is
`Index`, and the list ends at the first invalid level type. -/
def enumeratedLevels (cpuid : Cpuid) : Nat → Nat → List (Nat × Nat)
  | 0, _ => []
  | count + 1, Index =>
    if (cpuid Index).LevelType = CPUID_EXTENDED_TOPOLOGY_LEVEL_TYPE_INVALID then []
    else
      ((cpuid Index).LevelType, (cpuid Index).ApicIdShift)
        :: enumeratedLevels cpuid count (Index + 1)

/-- The width the enumeration reports for a level: that of the last sub-leaf
read with this level type; `none` when the level is never reported. -/
def reportedWidth (cpuid : Cpuid) (LevelType : Nat) : Option Nat :=
  (enumeratedLevels cpuid 7 0).foldl
    (fun w p => if p.1 = LevelType then some p.2 else w) none

/-- The width of a level as the specification words it: the reported width of
a reported level, the width of the next lower level for a level that is not
reported, the die width plus one for the package level (level 6), and 0 below
the SMT level. -/
def claimedWidth (cpuid : Cpuid) : Nat → Nat
  | 0 => 0
  | L + 1 =>
    if L = AMD_CPUID_V2_EXTENDED_TOPOLOGY_LEVEL_TYPE_DIE then claimedWidth cpuid L + 1
    else
      match reportedWidth cpuid (L + 1) with
      | some w => w
      | none => claimedWidth cpuid L

/-- The width of a level when a level reported with width 0 counts as not
reported. -/
def effectiveWidth (cpuid : Cpuid) : Nat → Nat
  | 0 => 0
  | L + 1 =>
    if L = AMD_CPUID_V2_EXTENDED_TOPOLOGY_LEVEL_TYPE_DIE then effectiveWidth cpuid L + 1
    else
      match reportedWidth cpuid (L + 1) with
      | some w => if w = 0 then effectiveWidth cpuid L else w
      | none => effectiveWidth cpuid L

/-- The expression `(apicId & ((1 << wL) - 1)) >> wBelow` of the specification
in 32-bit unsigned arithmetic: the left shift and the subtraction wrap modulo
2^32. -/
def maskShift32 (apicId wL wBelow : Nat) : Nat :=
  (apicId &&& ((((1 <<< wL) % 2 ^ 32) + 2 ^ 32 - 1) % 2 ^ 32)) >>> wBelow

/-- The sequence of CCD numbers the specification ranks by. -/
def ccdSequence : List Nat := [0, 4, 8, 12, 2, 6, 10, 14, 3, 7, 11, 15, 1, 5, 9, 13]

/-- The rank of a CCD number as the specification words it: its index in the
sequence, or the maximum 32-bit value when it is not in the sequence. -/
def claimedRank (ccd : Nat) : Nat :=
  if ccd ∈ ccdSequence then ccdSequence.indexOf ccd else 0xFFFFFFFF

/-- The outcome of the sort step as the specification words it, for the
buffer `original` of N records and the buffer `sorted` after the step: with
more than one socket the first N/2 records are a permutation of the original
first N/2 records in non-decreasing rank, the next N/2 records are a
permutation of the original next N/2 records in non-decreasing rank, and what
follows them (the last record when N is odd) is as it was; otherwise the whole
buffer is a permutation of the original in non-decreasing rank. -/
def SortedInHalvesByRank {α : Type} (PcdMaxCpuSocketCount : Nat) (rank : α → Nat)
    (original sorted : List α) : Prop :=
  if PcdMaxCpuSocketCount > 1 then
    ((sorted.take (original.length / 2)).Perm (original.take (original.length / 2)) ∧
      (sorted.take (original.length / 2)).Pairwise (fun a b => rank a ≤ rank b)) ∧
    (((sorted.drop (original.length / 2)).take (original.length / 2)).Perm
        ((original.drop (original.length / 2)).take (original.length / 2)) ∧
      ((sorted.drop (original.length / 2)).take (original.length / 2)).Pairwise
        (fun a b => rank a ≤ rank b)) ∧
    sorted.drop (original.length / 2 + original.length / 2)
      = original.drop (original.length / 2 + original.length / 2)
  else
    sorted.Perm original ∧ sorted.Pairwise (fun a b => rank a ≤ rank b)

/-! ## Sample platform and tables -/

namespace Sample

/-- CPUID answers of a part that reports an SMT level of width 1 and a CCD
level of width 5: the CCD number is bits 4:1 of the APIC id. -/
def cpuid : Cpuid := fun Index =>
  match Index with
  | 0 => { Eax := 1, Ecx := 0x100 }
  | 1 => { Eax := 5, Ecx := 0x401 }
  | _ => { Eax := 0, Ecx := 0 }

def header (Length : Nat) : EFI_ACPI_6_5_MULTIPLE_APIC_DESCRIPTION_TABLE_HEADER :=
  { Header :=
      { Signature := 0x43495041, Length := Length, Revision := 5, Checksum := 0, OemId := 0,
        OemTableId := 0, OemRevision := 0, CreatorId := 0, CreatorRevision := 0 }
    LocalApicAddress := 0xFEE00000
    Flags := 1 }

def x2apic (X2ApicId : Nat) : EFI_ACPI_6_5_PROCESSOR_LOCAL_X2APIC_STRUCTURE :=
  { Type_ := 9, Length := 16, Reserved := 0, X2ApicId := X2ApicId, Flags := 1,
    AcpiProcessorUid := 0xFF }

def ioApic (IoApicId : Nat) : MadtStructure :=
  .IoApic { Type_ := 1, Length := 12, IoApicId := IoApicId, Reserved := 0,
            IoApicAddress := 0xFEC00000, GlobalSystemInterruptBase := 0 }

/-- Three IOAPIC structures, an interrupt source override and a local-x2APIC
NMI structure, as they stand before the local-x2APIC entries of the samples. -/
def pre : List MadtStructure :=
  [ ioApic 0xF0, ioApic 0xF1, ioApic 0xF2,
    .InterruptSourceOverride
      { Type_ := 2, Length := 10, Bus := 0, Source := 9, GlobalSystemInterrupt := 9, Flags := 0 },
    .LocalX2ApicNmi
      { Type_ := 10, Length := 12, Flags := 0, AcpiProcessorUid := 0xFFFFFFFF,
        LocalX2ApicLint := 1 } ]

/-- A structure of a type the patch does not touch, after the entries. -/
def post : List MadtStructure := [.Other 0x0B 4 [0, 0]]

/-- The sample table around the local-x2APIC entries with the given ids. -/
def table (ids : List Nat) : MadtTable :=
  { Header := header (sizeofMadtHeader + 58 + 16 * ids.length + 4)
    Structures := pre ++ (ids.map x2apic).map MadtStructure.LocalX2Apic ++ post }

/-- The platform list: two IOAPICs. -/
def nbioIoApic : List EFI_ACPI_6_5_IO_APIC_STRUCTURE :=
  [ { Type_ := 0, Length := 0, IoApicId := 0x80, Reserved := 0, IoApicAddress := 0xFEC00000,
      GlobalSystemInterruptBase := 0 },
    { Type_ := 0, Length := 0, IoApicId := 0x81, Reserved := 0, IoApicAddress := 0xD0000000,
      GlobalSystemInterruptBase := 24 } ]

/-- CPUID answers of the 2 x 2 x 2 x 2 scenario: SMT width 1, core width 2, CCD
width 3, the socket bit above. -/
def cpuid16 : Cpuid := fun Index =>
  match Index with
  | 0 => { Eax := 1, Ecx := 0x100 }
  | 1 => { Eax := 2, Ecx := 0x201 }
  | 2 => { Eax := 3, Ecx := 0x402 }
  | _ => { Eax := 0, Ecx := 0 }

/-- A platform with the given CPUID answers and the sample IOAPIC list. -/
def platform (cpuid : Cpuid) (PcdMaxCpuSocketCount : Nat) (poolAvailable : Bool) :
    MadtPlatform :=
  { cpuid := cpuid, PcdMaxCpuSocketCount := PcdMaxCpuSocketCount,
    NbioIoApic := some nbioIoApic, IoApicCount := 2, poolAvailable := poolAvailable,
    pastArrayOdd := false }

/-- A processor record as `GetProcessorInfo` returns it. -/
def processor (ProcessorId StatusFlag : Nat) : EFI_PROCESSOR_INFORMATION :=
  { ProcessorId := ProcessorId, StatusFlag := StatusFlag,
    Location := { Package := 0, Core := 0, Thread := 0 },
    ExtendedInformation :=
      { Location2 := { Package := 0, Module := 0, Tile := 0, Die := 0, Core := 0, Thread := 0 } } }

/-- MP services that enumerate processors with the given ids, all enabled and
healthy. -/
def mpServices (ids : List Nat) : EFI_MP_SERVICES_PROTOCOL :=
  { GetNumberOfProcessors := (.EFI_SUCCESS, ids.length, ids.length)
    GetProcessorInfo := fun Index => processor (ids.getD Index 0) 0x06 }

/-- The SSDT side of the sample platform. -/
def ssdtPlatform (cpuid : Cpuid) (PcdMaxCpuSocketCount : Nat) (ids : List Nat) : SsdtPlatform :=
  { cpuid := cpuid, PcdMaxCpuSocketCount := PcdMaxCpuSocketCount,
    MpService := some (mpServices ids), poolAvailable := true }

/-- The SSDT side of the sample platform when `AllocateZeroPool` for the map
fails. -/
def ssdtPlatformNoPool (cpuid : Cpuid) (PcdMaxCpuSocketCount : Nat) (ids : List Nat) :
    SsdtPlatform :=
  { cpuid := cpuid, PcdMaxCpuSocketCount := PcdMaxCpuSocketCount,
    MpService := some (mpServices ids), poolAvailable := false }

/-- The file-scope variables before the first call. -/
def globals : CpuSsdtGlobals :=
  { mApicIdtoUidMap := none, mNumberOfCpus := 0, mNumberOfEnabledCPUs := 0 }

/-- CPUID answers that report an SMT level of width 1, a core level of width
0 and a complex level of width 3. -/
def cpuidCoreWidth0 : Cpuid := fun Index =>
  match Index with
  | 0 => { Eax := 1, Ecx := 0x100 }
  | 1 => { Eax := 0, Ecx := 0x201 }
  | 2 => { Eax := 3, Ecx := 0x302 }
  | _ => { Eax := 0, Ecx := 0 }

/-- CPUID answers that report an SMT level of width 1, a CCD level of width 4
and a die level of width 6. -/
def cpuidDie : Cpuid := fun Index =>
  match Index with
  | 0 => { Eax := 1, Ecx := 0x100 }
  | 1 => { Eax := 4, Ecx := 0x401 }
  | 2 => { Eax := 6, Ecx := 0x502 }
  | _ => { Eax := 0, Ecx := 0 }

/-- CPUID answers that report an SMT level of width 1 and a CCD level of
width 6: the CCD number is bits 5:1 of the APIC id and can exceed 15. -/
def cpuidWideCcd : Cpuid := fun Index =>
  match Index with
  | 0 => { Eax := 1, Ecx := 0x100 }
  | 1 => { Eax := 6, Ecx := 0x401 }
  | _ => { Eax := 0, Ecx := 0 }

/-- MP services that enumerate processors with the given ids and status
flags. -/
def mpServicesWithFlags (procs : List (Nat × Nat)) : EFI_MP_SERVICES_PROTOCOL :=
  { GetNumberOfProcessors :=
      (.EFI_SUCCESS, procs.length,
        procs.countP (fun p => p.2 &&& PROCESSOR_ENABLED_BIT != 0))
    GetProcessorInfo := fun Index =>
      processor (procs.getD Index (0, 0)).1 (procs.getD Index (0, 0)).2 }

/-- The SSDT side of a platform with the given processors and status flags. -/
def ssdtPlatformWithFlags (cpuid : Cpuid) (PcdMaxCpuSocketCount : Nat)
    (procs : List (Nat × Nat)) : SsdtPlatform :=
  { cpuid := cpuid, PcdMaxCpuSocketCount := PcdMaxCpuSocketCount,
    MpService := some (mpServicesWithFlags procs), poolAvailable := true }

/-- An AmlLib all of whose calls succeed. -/
def amlLib : Ssdt.AmlLib :=
  { AmlCodeGenDefinitionBlock := .EFI_SUCCESS
    AmlCodeGenScope := .EFI_SUCCESS
    AmlCodeGenDevice := fun _ => .EFI_SUCCESS
    AmlCodeGenNameString := fun _ => .EFI_SUCCESS
    AmlCodeGenNameInteger := fun _ _ => .EFI_SUCCESS
    AmlCodeGenMethodRetInteger := fun _ => .EFI_SUCCESS
    AmlSerializeDefinitionBlock := .EFI_SUCCESS
    AmlDeleteTree := .EFI_SUCCESS
    AppendExistingAcpiTable := .EFI_SUCCESS }

/-- An NBIO handle of the sample Turin platform. -/
def gnbHandle (RBIndex Bus : Nat) : GNB_HANDLE :=
  { DescriptorFlags := 0, AddressValue := Bus * 2 ^ 20, Segment := 0, Bus := Bus,
    RBIndex := RBIndex }

/-- A Turin platform: the FCH IOAPIC at 0xFEC00000 with 24 interrupt inputs,
an NBIO IOAPIC with 32 interrupt inputs at 0xD0000000 + Bus * 0x1000 for the
handle of each bus, no CXL services. -/
def soc (handles : Option (List GNB_HANDLE)) (LocalIoApicCountOnEntry : Nat) : SocPlatform :=
  { poolAvailable := true
    PcdIoApicAddress := 0xFEC00000
    PcdIoApicId := 0x80
    IOAPIC_INDEX_OFFSET := 0
    IOAPIC_DATA_OFFSET := 0x10
    IO_APIC_IDENTIFICATION_REGISTER_INDEX := 0
    IO_APIC_VERSION_REGISTER_INDEX := 1
    IOAPIC_BASE_ADDR_LO_IOAPIC_BASE_ADDR_LO_MASK := 0xFFFFFF00
    SMN_IOHUB0NBIO0_IOAPIC_BASE_ADDR_LO_ADDRESS := 0x13B102F0
    SMN_IOHUB1NBIO0_IOAPIC_BASE_ADDR_LO_ADDRESS := 0x1D4102F0
    SILICON_CXL_CAPABLE := 0x100
    NBIO_SPACE := fun GnbHandle Address => Address + GnbHandle.RBIndex * 2 ^ 20
    MmioRead32 := fun _ Index DataAddress =>
      if Index = 1 then (if DataAddress = 0xFEC00010 then 0x00170021 else 0x001F0021)
      else (DataAddress / 0x1000 % 16) * 2 ^ 24
    SmnRegisterReadS := fun _ Bus _ => 0xD0000000 + Bus * 0x1000 + 1
    NbioPcieServices := handles
    LocalIoApicCountOnEntry := LocalIoApicCountOnEntry
    PcieGetPcieDxe := (.EFI_SUCCESS, handles.getD [])
    NbioCxlServices := none }

/-- A port descriptor of a present PCIe slot with the given lanes. -/
def dxioPort (SlotNum DxioStartLane DxioEndLane : Nat) : DXIO_PORT_DESCRIPTOR :=
  { Flags := 0, EngineType := .DxioPcieEngine, DxioStartLane := DxioStartLane,
    DxioEndLane := DxioEndLane, PortPresent := 1, SlotNum := SlotNum,
    LinkSpeedCapability := .DxioGen5, EndpointStatus := .EndpointDetect }

/-- A platform for the SMBIOS records: one complex with an engine for slot 3
at segment 0, bus 0x41, device 1, function 2, and one table with the given
ports. -/
def smbiosPlatform (ports : List DXIO_PORT_DESCRIPTOR) : SmbiosPlatform :=
  { poolAvailable := true
    PcieGetPcieDxe :=
      (.EFI_SUCCESS,
        [{ Silicons := [{ Wrappers := [{ Engines :=
          [{ SlotNum := 3, Segment := 0, Bus := 0x41, Device := 1, Function := 2 }] }] }] }])
    PcdAmdSmbiosType9SlotCharacteristics1 := 0x0C
    PcdAmdSmbiosType9SlotCharacteristics2 := 0x01
    sizeofRecord := 0x18
    SMBIOS_TYPE_SYSTEM_SLOTS := 9
    SlotInformationOnEntry := 0
    CpmTableProtocol := .ok (some ports, none)
    PcdAmdNumberOfPhysicalSocket := 1
    AMD_DXIO_PORT_DESCRIPTOR_SIZE := 48
    AddCommonSmbiosRecord := fun _ => .EFI_SUCCESS }

end Sample

/-! ## Lemmas: the reference sort meets the contract -/

theorem orderedInsert_perm {α : Type} (cmp : α → α → Int) (a : α) :
    ∀ l : List α, (orderedInsert cmp a l).Perm (a :: l) := by
  intro l
  induction l with
  | nil => exact List.Perm.refl _
  | cons b l ih =>
    unfold orderedInsert
    split
    · exact List.Perm.refl _
    · exact (List.Perm.cons b ih).trans (List.Perm.swap a b l)

theorem referenceSort_perm {α : Type} (cmp : α → α → Int) :
    ∀ l : List α, (referenceSort α cmp l).Perm l := by
  intro l
  induction l with
  | nil => exact List.Perm.refl _
  | cons a l ih =>
    exact (orderedInsert_perm cmp a _).trans (List.Perm.cons a ih)

theorem orderedInsert_pairwise {α : Type} (cmp : α → α → Int)
    (htot : ∀ a b, cmp a b ≤ 0 ∨ cmp b a ≤ 0)
    (htrans : ∀ a b c, cmp a b ≤ 0 → cmp b c ≤ 0 → cmp a c ≤ 0) (a : α) :
    ∀ l : List α, l.Pairwise (fun x y => cmp x y ≤ 0) →
      (orderedInsert cmp a l).Pairwise (fun x y => cmp x y ≤ 0) := by
  intro l
  induction l with
  | nil => intro _; simp [orderedInsert]
  | cons b l ih =>
    intro h
    have hb := List.pairwise_cons.1 h
    unfold orderedInsert
    split
    · rename_i hab
      refine List.pairwise_cons.2 ⟨?_, h⟩
      intro y hy
      rcases List.mem_cons.1 hy with rfl | hy
      · exact hab
      · exact htrans _ _ _ hab (hb.1 y hy)
    · rename_i hab
      have hba : cmp b a ≤ 0 := (htot a b).resolve_left hab
      refine List.pairwise_cons.2 ⟨?_, ih hb.2⟩
      intro y hy
      rcases List.mem_cons.1 ((orderedInsert_perm cmp a l).subset hy) with rfl | hy
      · exact hba
      · exact hb.1 y hy

theorem referenceSort_pairwise {α : Type} (cmp : α → α → Int)
    (htot : ∀ a b, cmp a b ≤ 0 ∨ cmp b a ≤ 0)
    (htrans : ∀ a b c, cmp a b ≤ 0 → cmp b c ≤ 0 → cmp a c ≤ 0) :
    ∀ l : List α, (referenceSort α cmp l).Pairwise (fun x y => cmp x y ≤ 0) := by
  intro l
  induction l with
  | nil => simp [referenceSort]
  | cons a l ih => exact orderedInsert_pairwise cmp htot htrans a _ ih

theorem orderedInsert_map {α β : Type} (f : α → β) (cmpA : α → α → Int)
    (cmpB : β → β → Int) (a : α) :
    ∀ l : List α, (∀ b ∈ l, cmpB (f a) (f b) = cmpA a b) →
      orderedInsert cmpB (f a) (l.map f) = (orderedInsert cmpA a l).map f := by
  intro l
  induction l with
  | nil => intro _; rfl
  | cons b l ih =>
    intro h
    simp only [List.map_cons, orderedInsert, h b (List.mem_cons_self _ _)]
    split
    · rfl
    · rw [ih (fun x hx => h x (List.mem_cons_of_mem _ hx))]; rfl

theorem referenceSort_map {α β : Type} (f : α → β) (cmpA : α → α → Int)
    (cmpB : β → β → Int) :
    ∀ l : List α, (∀ a ∈ l, ∀ b ∈ l, cmpB (f a) (f b) = cmpA a b) →
      referenceSort β cmpB (l.map f) = (referenceSort α cmpA l).map f := by
  intro l
  induction l with
  | nil => intro _; rfl
  | cons a l ih =>
    intro h
    have ih2 := ih (fun x hx y hy =>
      h x (List.mem_cons_of_mem _ hx) y (List.mem_cons_of_mem _ hy))
    show orderedInsert cmpB (f a) (referenceSort β cmpB (l.map f)) = _
    rw [ih2]
    exact orderedInsert_map f cmpA cmpB a _ (fun b hb =>
      h a (List.mem_cons_self _ _) b
        (List.mem_cons_of_mem _ ((referenceSort_perm cmpA l).subset hb)))

theorem referenceSort_contract : SortContract referenceSort :=
  { perm := fun _ cmp l => referenceSort_perm cmp l
    sorted := fun _ cmp l htot htrans => referenceSort_pairwise cmp htot htrans l
    natural := fun _ _ f cmpA cmpB l h => referenceSort_map f cmpA cmpB l h }

theorem referenceSort_keepsOrdered : KeepsOrdered referenceSort := by
  intro α cmp l
  induction l with
  | nil => intro _; rfl
  | cons a l ih =>
    intro h
    have hp := List.pairwise_cons.1 h
    show orderedInsert cmp a (referenceSort α cmp l) = a :: l
    rw [ih hp.2]
    cases l with
    | nil => rfl
    | cons b l => simp [orderedInsert, hp.1 b (List.mem_cons_self _ _)]

theorem compareCcdIndex_le (x y : Nat) : compareCcdIndex x y ≤ 0 ↔ x ≤ y := by
  unfold compareCcdIndex
  by_cases h1 : x < y
  · simp [h1]; omega
  · by_cases h2 : x > y
    · simp [h1, h2]
    · simp [h1, h2]; omega

theorem map_eq_of_injOn {α β : Type} (f : α → β) :
    ∀ (L l : List α), (∀ a ∈ L, ∀ b ∈ l, f a = f b → a = b) → L.map f = l.map f → L = l := by
  intro L
  induction L with
  | nil => intro l _ h; cases l with
    | nil => rfl
    | cons b l => simp at h
  | cons a L ih =>
    intro l hinj h
    cases l with
    | nil => simp at h
    | cons b l =>
      simp only [List.map_cons, List.cons.injEq] at h
      have hab := hinj a (List.mem_cons_self _ _) b (List.mem_cons_self _ _) h.1
      rw [hab, ih l (fun x hx y hy => hinj x (List.mem_cons_of_mem _ hx) y
        (List.mem_cons_of_mem _ hy)) h.2]

/-- A buffer in strictly increasing rank order has one arrangement in
comparator order, so every sort meeting the contract leaves it as it is. -/
theorem sort_eq_self_of_strict (sort : SortFn) (hs : SortContract sort) {α : Type}
    (cmp : α → α → Int) (rank : α → Nat) (hcmp : ∀ a b, cmp a b ≤ 0 ↔ rank a ≤ rank b)
    (l : List α) (hl : l.Pairwise (fun a b => rank a < rank b)) : sort α cmp l = l := by
  have hperm := hs.perm α cmp l
  have hsorted := hs.sorted α cmp l
    (fun a b => by
      rcases Nat.le_total (rank a) (rank b) with h | h
      · exact Or.inl ((hcmp a b).2 h)
      · exact Or.inr ((hcmp b a).2 h))
    (fun a b c hab hbc => (hcmp a c).2 (Nat.le_trans ((hcmp a b).1 hab) ((hcmp b c).1 hbc)))
  have h1 : ((sort α cmp l).map rank).Sorted (· ≤ ·) := by
    apply List.Pairwise.map rank _ hsorted
    intro a b hab
    exact (hcmp a b).1 hab
  have h2 : (l.map rank).Sorted (· ≤ ·) := by
    apply List.Pairwise.map rank _ hl
    intro a b hab
    exact Nat.le_of_lt hab
  have h3 := List.eq_of_perm_of_sorted (hperm.map rank) h1 h2
  have hnd : (l.map rank).Nodup := by
    have : (l.map rank).Pairwise (· < ·) := List.Pairwise.map rank (fun _ _ h => h) hl
    exact this.imp (fun h => Nat.ne_of_lt h)
  have hinj := List.inj_on_of_nodup_map hnd
  exact map_eq_of_injOn rank _ _
    (fun a ha b hb hab => hinj (hperm.subset ha) hb hab) h3

/-! ## Lemmas: the two sort calls -/

theorem sortByCcdHalves_eq_self (sort : SortFn) (n : Nat) {α : Type}
    (cmp : α → α → Int) (buf : List α)
    (h : ∀ l : List α, l.Sublist buf → sort α cmp l = l) :
    sortByCcdHalves sort n cmp buf = buf := by
  unfold sortByCcdHalves
  split
  · rw [h _ (List.take_sublist _ _),
      h _ ((List.take_sublist _ _).trans (List.drop_sublist _ _)),
      List.append_assoc, ← List.drop_drop, List.take_append_drop, List.take_append_drop]
  · exact h _ (List.Sublist.refl _)

theorem sortByCcdHalves_eq_self_of_strict (sort : SortFn) (hs : SortContract sort) (n : Nat)
    {α : Type} (cmp : α → α → Int) (rank : α → Nat)
    (hcmp : ∀ a b, cmp a b ≤ 0 ↔ rank a ≤ rank b)
    (buf : List α) (hl : buf.Pairwise (fun a b => rank a < rank b)) :
    sortByCcdHalves sort n cmp buf = buf :=
  sortByCcdHalves_eq_self sort n cmp buf
    (fun l hsub => sort_eq_self_of_strict sort hs cmp rank hcmp l (hl.sublist hsub))

theorem sortByCcdHalves_eq_self_of_ordered (sort : SortFn) (hk : KeepsOrdered sort) (n : Nat)
    {α : Type} (cmp : α → α → Int) (buf : List α)
    (h1 : (buf.take (buf.length / 2)).Pairwise (fun a b => cmp a b ≤ 0))
    (h2 : ((buf.drop (buf.length / 2)).take (buf.length / 2)).Pairwise
      (fun a b => cmp a b ≤ 0))
    (h3 : buf.Pairwise (fun a b => cmp a b ≤ 0) ∨ 1 < n) :
    sortByCcdHalves sort n cmp buf = buf := by
  unfold sortByCcdHalves
  split
  · rw [hk _ _ _ h1, hk _ _ _ h2, List.append_assoc, ← List.drop_drop, List.take_append_drop,
      List.take_append_drop]
  · rename_i hn
    rcases h3 with h3 | h3
    · exact hk _ _ _ h3
    · exact absurd h3 hn

theorem sortByCcdHalves_perm (sort : SortFn) (hs : SortContract sort) (n : Nat) {α : Type}
    (cmp : α → α → Int) (buf : List α) : (sortByCcdHalves sort n cmp buf).Perm buf := by
  unfold sortByCcdHalves
  split
  · have h1 := hs.perm α cmp (buf.take (buf.length / 2))
    have h2 := hs.perm α cmp ((buf.drop (buf.length / 2)).take (buf.length / 2))
    have h3 : buf = buf.take (buf.length / 2)
        ++ (buf.drop (buf.length / 2)).take (buf.length / 2)
        ++ buf.drop (buf.length / 2 + buf.length / 2) := by
      rw [List.append_assoc, ← List.drop_drop, List.take_append_drop, List.take_append_drop]
    exact ((h1.append h2).append (List.Perm.refl _)).trans (by rw [← h3])
  · exact hs.perm α cmp buf

theorem sortByCcdHalves_length (sort : SortFn) (hs : SortContract sort) (n : Nat) {α : Type}
    (cmp : α → α → Int) (buf : List α) :
    (sortByCcdHalves sort n cmp buf).length = buf.length :=
  (sortByCcdHalves_perm sort hs n cmp buf).length_eq

theorem sortByCcdHalves_map (sort : SortFn) (hs : SortContract sort) (n : Nat) {α β : Type}
    (f : α → β) (cmpA : α → α → Int) (cmpB : β → β → Int) (l : List α)
    (h : ∀ a ∈ l, ∀ b ∈ l, cmpB (f a) (f b) = cmpA a b) :
    sortByCcdHalves sort n cmpB (l.map f) = (sortByCcdHalves sort n cmpA l).map f := by
  unfold sortByCcdHalves
  split
  · simp only [List.length_map, List.map_append, ← List.map_take, ← List.map_drop]
    rw [hs.natural α β f cmpA cmpB _ (fun a ha b hb =>
        h a (List.mem_of_mem_take ha) b (List.mem_of_mem_take hb)),
      hs.natural α β f cmpA cmpB _ (fun a ha b hb =>
        h a (List.mem_of_mem_drop (List.mem_of_mem_take ha)) b
          (List.mem_of_mem_drop (List.mem_of_mem_take hb)))]
  · exact hs.natural α β f cmpA cmpB l h

/-! ## Lemmas: the walk -/

namespace Madt

theorem patchIoApic_Length (N : List EFI_ACPI_6_5_IO_APIC_STRUCTURE) (c i : Nat)
    (s : MadtStructure) : (patchIoApic N c i s).1.Length = s.Length := by
  cases s with
  | IoApic a =>
    unfold patchIoApic
    by_cases h1 : a.Type_ = EFI_ACPI_6_5_IO_APIC
    · by_cases h2 : i ≥ c <;> simp [h1, h2, MadtStructure.Length]
    · simp [h1]
  | _ => rfl

theorem patchIoApic_isLapic (N : List EFI_ACPI_6_5_IO_APIC_STRUCTURE) (c i : Nat)
    (s : MadtStructure) : isLapic (patchIoApic N c i s).1 = isLapic s := by
  cases s with
  | IoApic a =>
    unfold patchIoApic
    by_cases h1 : a.Type_ = EFI_ACPI_6_5_IO_APIC
    · by_cases h2 : i ≥ c <;>
        simp [h1, h2, isLapic, MadtStructure.Type_, EFI_ACPI_6_5_IO_APIC,
          EFI_ACPI_6_5_PROCESSOR_LOCAL_X2APIC]
    · simp [h1]
  | _ => rfl

theorem patchInterruptSourceOverride_Length (s : MadtStructure) :
    (patchInterruptSourceOverride s).Length = s.Length := by
  cases s with
  | InterruptSourceOverride a =>
    unfold patchInterruptSourceOverride
    by_cases h1 : a.Type_ = EFI_ACPI_6_5_INTERRUPT_SOURCE_OVERRIDE <;>
      simp [h1, MadtStructure.Length]
  | _ => rfl

theorem patchInterruptSourceOverride_Type (s : MadtStructure) :
    (patchInterruptSourceOverride s).Type_ = s.Type_ := by
  cases s with
  | InterruptSourceOverride a =>
    unfold patchInterruptSourceOverride
    by_cases h1 : a.Type_ = EFI_ACPI_6_5_INTERRUPT_SOURCE_OVERRIDE <;>
      simp [h1, MadtStructure.Type_]
  | _ => rfl

theorem patchLocalX2ApicNmi_Length (s : MadtStructure) :
    (patchLocalX2ApicNmi s).Length = s.Length := by
  cases s with
  | LocalX2ApicNmi a =>
    unfold patchLocalX2ApicNmi
    by_cases h1 : a.Type_ = EFI_ACPI_6_5_LOCAL_X2APIC_NMI <;> simp [h1, MadtStructure.Length]
  | _ => rfl

theorem patchLocalX2ApicNmi_Type (s : MadtStructure) :
    (patchLocalX2ApicNmi s).Type_ = s.Type_ := by
  cases s with
  | LocalX2ApicNmi a =>
    unfold patchLocalX2ApicNmi
    by_cases h1 : a.Type_ = EFI_ACPI_6_5_LOCAL_X2APIC_NMI <;> simp [h1, MadtStructure.Type_]
  | _ => rfl

theorem patchOne_Length (N : List EFI_ACPI_6_5_IO_APIC_STRUCTURE) (c i : Nat)
    (s : MadtStructure) : (patchOne N c i s).Length = s.Length := by
  unfold patchOne
  rw [patchLocalX2ApicNmi_Length, patchInterruptSourceOverride_Length, patchIoApic_Length]

theorem patchOne_isLapic (N : List EFI_ACPI_6_5_IO_APIC_STRUCTURE) (c i : Nat)
    (s : MadtStructure) : isLapic (patchOne N c i s) = isLapic s := by
  unfold patchOne
  rw [← patchIoApic_isLapic N c i s]
  simp only [isLapic, patchLocalX2ApicNmi_Type, patchInterruptSourceOverride_Type]

theorem walk_complete (N : List EFI_ACPI_6_5_IO_APIC_STRUCTURE) (c H : Nat) :
    ∀ (l : List MadtStructure) (pos Length Index cnt : Nat) (ptr : Option Nat),
      l ≠ [] → (∀ s ∈ l, s.wellTyped = true ∧ 0 < s.Length) →
      Length + (l.map MadtStructure.Length).sum = H →
      walk N c H l pos Length Index cnt ptr =
        .ok { Structures := patchAll N c l Index
              LapicCount := cnt + l.countP isLapic
              LocalX2ApicPtr := firstLapic l pos cnt ptr } := by
  intro l
  induction l with
  | nil => intro _ _ _ _ _ h; exact absurd rfl h
  | cons s rest ih =>
    intro pos Length Index cnt ptr _ hall hsum
    have hs := hall s (List.mem_cons_self _ _)
    have hlen : (patchLocalX2ApicNmi (patchInterruptSourceOverride
        (patchIoApic N c Index s).1)).Length = s.Length := patchOne_Length N c Index s
    have hlap : ((patchLocalX2ApicNmi (patchInterruptSourceOverride
        (patchIoApic N c Index s).1)).Type_ == EFI_ACPI_6_5_PROCESSOR_LOCAL_X2APIC)
        = isLapic s := patchOne_isLapic N c Index s
    simp only [List.map_cons, List.sum_cons] at hsum
    unfold walk
    simp only [hs.1, Bool.not_true, Bool.false_eq_true, if_false, hlen, hlap]
    cases rest with
    | nil =>
      have : ¬ (Length + s.Length < H) := by simp at hsum; omega
      simp only [this, if_false, patchAll, firstLapic, List.countP_cons, List.countP_nil,
        patchOne]
      cases isLapic s <;> simp
    | cons t rest2 =>
      have hlt : Length + s.Length < H := by
        have ht := hall t (List.mem_cons_of_mem _ (List.mem_cons_self _ _))
        simp only [List.map_cons, List.sum_cons] at hsum
        omega
      have hne : ¬ (s.Length = 0) := by omega
      simp only [hlt, if_true, hne, if_false]
      rw [ih (pos + 1) (Length + s.Length) _ _ _ (List.cons_ne_nil _ _)
        (fun x hx => hall x (List.mem_cons_of_mem _ hx)) (by omega)]
      simp only [patchAll, firstLapic, List.countP_cons, patchOne]
      cases isLapic s <;> (simp; try omega)

theorem patchIoApic_snd (N : List EFI_ACPI_6_5_IO_APIC_STRUCTURE) (c i : Nat)
    (s : MadtStructure) :
    (patchIoApic N c i s).2 = i + (if countsAsIoApic s then 1 else 0) := by
  cases s with
  | IoApic a =>
    unfold patchIoApic countsAsIoApic
    by_cases h1 : a.Type_ = EFI_ACPI_6_5_IO_APIC
    · by_cases h2 : i ≥ c <;> simp [h1, h2]
    · simp [h1]
  | _ => rfl

theorem countsAsIoApic_of_wellTyped (s : MadtStructure) (h : s.wellTyped = true) :
    countsAsIoApic s = isIoApic s := by
  cases s <;>
    simp_all [MadtStructure.wellTyped, countsAsIoApic, isIoApic, MadtStructure.Type_,
      ignoredType, EFI_ACPI_6_5_IO_APIC, EFI_ACPI_6_5_INTERRUPT_SOURCE_OVERRIDE,
      EFI_ACPI_6_5_LOCAL_X2APIC_NMI, EFI_ACPI_6_5_PROCESSOR_LOCAL_X2APIC] <;>
    omega

theorem patchAll_length (N : List EFI_ACPI_6_5_IO_APIC_STRUCTURE) (c : Nat) :
    ∀ (l : List MadtStructure) (i : Nat), (patchAll N c l i).length = l.length := by
  intro l
  induction l with
  | nil => intro i; rfl
  | cons s rest ih => intro i; simp [patchAll, ih]

theorem patchAll_append (N : List EFI_ACPI_6_5_IO_APIC_STRUCTURE) (c : Nat) :
    ∀ (l1 l2 : List MadtStructure) (i : Nat),
      patchAll N c (l1 ++ l2) i
        = patchAll N c l1 i ++ patchAll N c l2 (i + l1.countP countsAsIoApic) := by
  intro l1
  induction l1 with
  | nil => intro l2 i; simp [patchAll]
  | cons s rest ih =>
    intro l2 i
    simp only [List.cons_append, patchAll, patchIoApic_snd, List.countP_cons, List.append_eq]
    rw [ih]
    cases countsAsIoApic s <;> simp [Nat.add_assoc, Nat.add_comm, Nat.add_left_comm]

theorem patchAll_getElem? (N : List EFI_ACPI_6_5_IO_APIC_STRUCTURE) (c : Nat) :
    ∀ (l : List MadtStructure) (i j : Nat),
      (patchAll N c l i)[j]?
        = (l[j]?).map (patchOne N c (i + (l.take j).countP countsAsIoApic)) := by
  intro l
  induction l with
  | nil => intro i j; simp [patchAll]
  | cons s rest ih =>
    intro i j
    cases j with
    | zero => simp [patchAll]
    | succ j =>
      simp only [patchAll, List.getElem?_cons_succ, patchIoApic_snd, List.take_succ_cons,
        List.countP_cons]
      rw [ih]
      cases countsAsIoApic s <;> simp [Nat.add_assoc, Nat.add_comm, Nat.add_left_comm]

theorem patchAll_localX2Apic (N : List EFI_ACPI_6_5_IO_APIC_STRUCTURE) (c : Nat) :
    ∀ (arr : List EFI_ACPI_6_5_PROCESSOR_LOCAL_X2APIC_STRUCTURE) (i : Nat),
      patchAll N c (arr.map MadtStructure.LocalX2Apic) i = arr.map MadtStructure.LocalX2Apic := by
  intro arr
  induction arr with
  | nil => intro i; rfl
  | cons a rest ih =>
    intro i
    simp only [List.map_cons, patchAll]
    rw [show (patchIoApic N c i (MadtStructure.LocalX2Apic a)).2 = i from rfl, ih]
    rfl

theorem countP_countsAsIoApic_localX2Apic
    (arr : List EFI_ACPI_6_5_PROCESSOR_LOCAL_X2APIC_STRUCTURE) :
    (arr.map MadtStructure.LocalX2Apic).countP countsAsIoApic = 0 := by
  induction arr with
  | nil => rfl
  | cons a rest ih => simp [List.countP_cons, ih, countsAsIoApic]

theorem firstLapic_counted :
    ∀ (l : List MadtStructure) (pos cnt : Nat) (ptr : Option Nat),
      cnt ≠ 0 → firstLapic l pos cnt ptr = ptr := by
  intro l
  induction l with
  | nil => intro _ _ _ _; rfl
  | cons s rest ih =>
    intro pos cnt ptr h
    unfold firstLapic
    rw [ih _ _ _ (by split <;> omega)]
    simp [h]

theorem firstLapic_skip :
    ∀ (l1 l2 : List MadtStructure) (pos cnt : Nat) (ptr : Option Nat),
      (∀ s ∈ l1, isLapic s = false) →
      firstLapic (l1 ++ l2) pos cnt ptr = firstLapic l2 (pos + l1.length) cnt ptr := by
  intro l1
  induction l1 with
  | nil => intro _ _ _ _ _; rfl
  | cons s rest ih =>
    intro l2 pos cnt ptr h
    have hs := h s (List.mem_cons_self _ _)
    simp only [List.cons_append, firstLapic, hs, Bool.false_and, Bool.false_eq_true, if_false,
      List.append_eq]
    rw [ih l2 _ _ _ (fun x hx => h x (List.mem_cons_of_mem _ hx))]
    simp [Nat.add_assoc, Nat.add_comm, Nat.add_left_comm]

theorem firstLapic_run (pre post : List MadtStructure)
    (arr : List EFI_ACPI_6_5_PROCESSOR_LOCAL_X2APIC_STRUCTURE)
    (hpre : ∀ s ∈ pre, isLapic s = false) (hpost : ∀ s ∈ post, isLapic s = false)
    (harr : ∀ a ∈ arr, a.Type_ = EFI_ACPI_6_5_PROCESSOR_LOCAL_X2APIC) :
    firstLapic (pre ++ arr.map MadtStructure.LocalX2Apic ++ post) 0 0 none
      = if arr = [] then none else some pre.length := by
  rw [List.append_assoc, firstLapic_skip _ _ _ _ _ hpre]
  cases arr with
  | nil =>
    simp only [List.map_nil, List.nil_append, if_true]
    have := firstLapic_skip post [] (0 + pre.length) 0 none hpost
    simp only [List.append_nil] at this
    rw [this]; rfl
  | cons a rest =>
    have ha : isLapic (MadtStructure.LocalX2Apic a) = true := by
      simp [isLapic, MadtStructure.Type_, harr a (List.mem_cons_self _ _)]
    simp only [List.map_cons, List.cons_append, firstLapic, ha]
    rw [firstLapic_counted _ _ _ _ (by simp)]
    simp

theorem countP_isLapic_run (pre post : List MadtStructure)
    (arr : List EFI_ACPI_6_5_PROCESSOR_LOCAL_X2APIC_STRUCTURE)
    (hpre : ∀ s ∈ pre, isLapic s = false) (hpost : ∀ s ∈ post, isLapic s = false)
    (harr : ∀ a ∈ arr, a.Type_ = EFI_ACPI_6_5_PROCESSOR_LOCAL_X2APIC) :
    (pre ++ arr.map MadtStructure.LocalX2Apic ++ post).countP isLapic = arr.length := by
  have h1 : pre.countP isLapic = 0 := by
    rw [List.countP_eq_zero]; intro s hs; simp [hpre s hs]
  have h2 : post.countP isLapic = 0 := by
    rw [List.countP_eq_zero]; intro s hs; simp [hpost s hs]
  have h3 : (arr.map MadtStructure.LocalX2Apic).countP isLapic = arr.length := by
    have h : (arr.map MadtStructure.LocalX2Apic).countP isLapic
        = (arr.map MadtStructure.LocalX2Apic).length := by
      rw [List.countP_eq_length]
      intro s hs
      obtain ⟨a, ha, rfl⟩ := List.mem_map.1 hs
      simp [isLapic, MadtStructure.Type_, harr a ha]
    simpa using h
  simp [List.countP_append, h1, h2, h3]

theorem asLocalX2ApicArray_map :
    ∀ (arr : List EFI_ACPI_6_5_PROCESSOR_LOCAL_X2APIC_STRUCTURE),
      (∀ a ∈ arr, a.Type_ = EFI_ACPI_6_5_PROCESSOR_LOCAL_X2APIC) →
      asLocalX2ApicArray (arr.map MadtStructure.LocalX2Apic) = some arr := by
  intro arr
  induction arr with
  | nil => intro _; rfl
  | cons a rest ih =>
    intro h
    simp only [List.map_cons, asLocalX2ApicArray, h a (List.mem_cons_self _ _), if_true,
      ih (fun x hx => h x (List.mem_cons_of_mem _ hx)), Option.map_some']

/-- The structures of the table after the patch, for a table whose
local-x2APIC entries are the run `arr` between `pre` and `post`. -/
theorem MadtAcpiTablePatch_eq (sort : SortFn) (P : MadtPlatform) (T : MadtTable)
    (N : List EFI_ACPI_6_5_IO_APIC_STRUCTURE) (pre post : List MadtStructure)
    (arr : List EFI_ACPI_6_5_PROCESSOR_LOCAL_X2APIC_STRUCTURE)
    (hwf : WellFormed T) (hrun : LocalX2ApicRun T pre arr post) (hio : IoApicInfo P N) :
    MadtAcpiTablePatch sort P T =
      .ok ((collateOrSkip sort P arr).1,
        { (setRevision T) with
          Structures := (patchAll N P.IoApicCount pre 0
              ++ (collateOrSkip sort P arr).2.map MadtStructure.LocalX2Apic
              ++ patchAll N P.IoApicCount post (pre.countP countsAsIoApic)) }) := by
  obtain ⟨hne, hall, hsum⟩ := hwf
  obtain ⟨hT, harr, hpre, hpost⟩ := hrun
  obtain ⟨hN, hc⟩ := hio
  have hw := walk_complete N P.IoApicCount T.Header.Header.Length T.Structures 0
    sizeofMadtHeader 0 0 none hne hall hsum
  have hpa : patchAll N P.IoApicCount T.Structures 0
      = patchAll N P.IoApicCount pre 0 ++ (arr.map MadtStructure.LocalX2Apic
          ++ patchAll N P.IoApicCount post (pre.countP countsAsIoApic)) := by
    rw [hT, List.append_assoc, patchAll_append, patchAll_append, patchAll_localX2Apic,
      countP_countsAsIoApic_localX2Apic]
    simp
  have hfl := firstLapic_run pre post arr hpre hpost harr
  have hcn := countP_isLapic_run pre post arr hpre hpost harr
  rw [← hT] at hfl hcn
  unfold MadtAcpiTablePatch
  simp only [hN, hc, if_false]
  have hw2 : walk N P.IoApicCount (setRevision T).Header.Header.Length (setRevision T).Structures
      0 sizeofMadtHeader 0 0 none = _ := hw
  rw [hw2]
  simp only [hfl, hcn, hpa, Nat.zero_add]
  by_cases he : arr = []
  · subst he
    simp [collateOrSkip]
  · simp only [he, if_false, collateOrSkip]
    have hlen : (patchAll N P.IoApicCount pre 0).length = pre.length := patchAll_length _ _ _ _
    rw [← hlen, List.drop_left, List.take_left' (by simp), asLocalX2ApicArray_map arr harr]
    simp only [ne_eq, not_true_eq_false, if_false, List.take_left]
    have hd : (patchAll N P.IoApicCount pre 0 ++ arr.map MadtStructure.LocalX2Apic).length
        = (patchAll N P.IoApicCount pre 0).length + arr.length := by simp
    rw [← List.append_assoc, List.drop_left' hd]

/-! ## Lemmas: the local-x2APIC array -/

theorem assignUid_length :
    ∀ (l : List EFI_ACPI_6_5_PROCESSOR_LOCAL_X2APIC_STRUCTURE) (i : Nat),
      (assignUid l i).length = l.length := by
  intro l
  induction l with
  | nil => intro _; rfl
  | cons e rest ih => intro i; simp [assignUid, ih]

theorem assignUid_getElem? :
    ∀ (l : List EFI_ACPI_6_5_PROCESSOR_LOCAL_X2APIC_STRUCTURE) (i j : Nat),
      (assignUid l i)[j]? = (l[j]?).map (fun e => { e with AcpiProcessorUid := i + j }) := by
  intro l
  induction l with
  | nil => intro _ _; simp [assignUid]
  | cons e rest ih =>
    intro i j
    cases j with
    | zero => simp [assignUid]
    | succ j =>
      simp only [assignUid, List.getElem?_cons_succ, ih]
      rw [show i + 1 + j = i + (j + 1) by omega]

theorem assignUid_map_uid :
    ∀ (l : List EFI_ACPI_6_5_PROCESSOR_LOCAL_X2APIC_STRUCTURE) (i : Nat),
      (assignUid l i).map (fun e => e.AcpiProcessorUid) = List.range' i l.length := by
  intro l
  induction l with
  | nil => intro _; rfl
  | cons e rest ih => intro i; simp [assignUid, ih, List.range'_succ]

theorem assignUid_map_X2ApicId :
    ∀ (l : List EFI_ACPI_6_5_PROCESSOR_LOCAL_X2APIC_STRUCTURE) (i : Nat),
      (assignUid l i).map (fun e => e.X2ApicId) = l.map (fun e => e.X2ApicId) := by
  intro l
  induction l with
  | nil => intro _; rfl
  | cons e rest ih => intro i; simp [assignUid, ih]

theorem mem_assignUid :
    ∀ (l : List EFI_ACPI_6_5_PROCESSOR_LOCAL_X2APIC_STRUCTURE) (i : Nat)
      (e : EFI_ACPI_6_5_PROCESSOR_LOCAL_X2APIC_STRUCTURE),
      e ∈ assignUid l i → ∃ e0 ∈ l, e = { e0 with AcpiProcessorUid := e.AcpiProcessorUid } := by
  intro l
  induction l with
  | nil => intro _ _ h; simp [assignUid] at h
  | cons a rest ih =>
    intro i e h
    simp only [assignUid, List.mem_cons] at h
    rcases h with rfl | h
    · exact ⟨a, List.mem_cons_self _ _, rfl⟩
    · obtain ⟨e0, he0, heq⟩ := ih _ _ h
      exact ⟨e0, List.mem_cons_of_mem _ he0, heq⟩

theorem separateThreads_perm (l : List EFI_ACPI_6_5_PROCESSOR_LOCAL_X2APIC_STRUCTURE) :
    (separateThreads l).Perm l := by
  unfold separateThreads
  have h : (fun e : EFI_ACPI_6_5_PROCESSOR_LOCAL_X2APIC_STRUCTURE => e.X2ApicId &&& 1 == 1)
      = (fun e => !(e.X2ApicId &&& 1 == 0)) := by
    funext e
    have := Nat.mod_two_eq_zero_or_one e.X2ApicId
    rcases this with h | h <;> simp [Nat.and_one_is_mod, h]
  rw [h]
  exact List.filter_append_perm _ l

theorem collateLocalX2Apic_perm (sort : SortFn) (P : MadtPlatform)
    (arr : List EFI_ACPI_6_5_PROCESSOR_LOCAL_X2APIC_STRUCTURE) :
    (collateLocalX2Apic sort P arr).2.Perm (sortedWithUid sort P arr) := by
  unfold collateLocalX2Apic
  simp only
  split
  · split
    · exact separateThreads_perm _
    · exact List.Perm.refl _
  · exact List.Perm.refl _

theorem sortedWithUid_length (sort : SortFn) (hs : SortContract sort) (P : MadtPlatform)
    (arr : List EFI_ACPI_6_5_PROCESSOR_LOCAL_X2APIC_STRUCTURE) :
    (sortedWithUid sort P arr).length = arr.length := by
  unfold sortedWithUid
  rw [assignUid_length, sortByCcdHalves_length sort hs]

theorem mem_sortedWithUid (sort : SortFn) (hs : SortContract sort) (P : MadtPlatform)
    (arr : List EFI_ACPI_6_5_PROCESSOR_LOCAL_X2APIC_STRUCTURE)
    (e : EFI_ACPI_6_5_PROCESSOR_LOCAL_X2APIC_STRUCTURE) (h : e ∈ sortedWithUid sort P arr) :
    ∃ e0 ∈ arr, e = { e0 with AcpiProcessorUid := e.AcpiProcessorUid } := by
  obtain ⟨e0, he0, heq⟩ := mem_assignUid _ _ _ h
  exact ⟨e0, (sortByCcdHalves_perm sort hs _ _ arr).subset he0, heq⟩

theorem collateOrSkip_perm (sort : SortFn) (hs : SortContract sort) (P : MadtPlatform)
    (arr : List EFI_ACPI_6_5_PROCESSOR_LOCAL_X2APIC_STRUCTURE) :
    (collateOrSkip sort P arr).2.Perm (sortedWithUid sort P arr) := by
  unfold collateOrSkip
  split
  · rename_i h
    subst h
    have := sortedWithUid_length sort hs P []
    rw [List.length_nil, List.length_eq_zero] at this
    rw [this]
  · exact collateLocalX2Apic_perm sort P arr

theorem mem_collateOrSkip (sort : SortFn) (hs : SortContract sort) (P : MadtPlatform)
    (arr : List EFI_ACPI_6_5_PROCESSOR_LOCAL_X2APIC_STRUCTURE)
    (e : EFI_ACPI_6_5_PROCESSOR_LOCAL_X2APIC_STRUCTURE)
    (h : e ∈ (collateOrSkip sort P arr).2) :
    ∃ e0 ∈ arr, e = { e0 with AcpiProcessorUid := e.AcpiProcessorUid } :=
  mem_sortedWithUid sort hs P arr e ((collateOrSkip_perm sort hs P arr).subset h)

theorem collateOrSkip_length (sort : SortFn) (hs : SortContract sort) (P : MadtPlatform)
    (arr : List EFI_ACPI_6_5_PROCESSOR_LOCAL_X2APIC_STRUCTURE) :
    (collateOrSkip sort P arr).2.length = arr.length := by
  rw [(collateOrSkip_perm sort hs P arr).length_eq, sortedWithUid_length sort hs]

theorem filterMap_asLocalX2ApicEntry_none (l : List MadtStructure)
    (h : ∀ s ∈ l, isLapic s = false) : l.filterMap asLocalX2ApicEntry = [] := by
  induction l with
  | nil => rfl
  | cons s rest ih =>
    have hs := h s (List.mem_cons_self _ _)
    have : asLocalX2ApicEntry s = none := by
      cases s <;> simp_all [asLocalX2ApicEntry, isLapic, MadtStructure.Type_]
    rw [List.filterMap_cons_none this]
    exact ih (fun x hx => h x (List.mem_cons_of_mem _ hx))

theorem filterMap_asLocalX2ApicEntry_map
    (l : List EFI_ACPI_6_5_PROCESSOR_LOCAL_X2APIC_STRUCTURE)
    (h : ∀ a ∈ l, a.Type_ = EFI_ACPI_6_5_PROCESSOR_LOCAL_X2APIC) :
    (l.map MadtStructure.LocalX2Apic).filterMap asLocalX2ApicEntry = l := by
  induction l with
  | nil => rfl
  | cons a rest ih =>
    have ha := h a (List.mem_cons_self _ _)
    have : asLocalX2ApicEntry (MadtStructure.LocalX2Apic a) = some a := by
      simp [asLocalX2ApicEntry, ha]
    rw [List.map_cons, List.filterMap_cons_some this,
      ih (fun x hx => h x (List.mem_cons_of_mem _ hx))]

theorem isLapic_patchAll (N : List EFI_ACPI_6_5_IO_APIC_STRUCTURE) (c : Nat) :
    ∀ (l : List MadtStructure) (i : Nat), (∀ s ∈ l, isLapic s = false) →
      ∀ s ∈ patchAll N c l i, isLapic s = false := by
  intro l
  induction l with
  | nil => intro _ _ s hs; simp [patchAll] at hs
  | cons a rest ih =>
    intro i h s hs
    simp only [patchAll, List.mem_cons] at hs
    rcases hs with rfl | hs
    · rw [patchOne_isLapic]; exact h a (List.mem_cons_self _ _)
    · exact ih _ (fun x hx => h x (List.mem_cons_of_mem _ hx)) s hs

/-! ## Lemmas: the table after the patch -/

theorem patchAll_map_Length (N : List EFI_ACPI_6_5_IO_APIC_STRUCTURE) (c : Nat) :
    ∀ (l : List MadtStructure) (i : Nat),
      (patchAll N c l i).map MadtStructure.Length = l.map MadtStructure.Length := by
  intro l
  induction l with
  | nil => intro _; rfl
  | cons s rest ih => intro i; simp [patchAll, ih, patchOne_Length]

theorem mem_patchAll (N : List EFI_ACPI_6_5_IO_APIC_STRUCTURE) (c : Nat) :
    ∀ (l : List MadtStructure) (i : Nat) (x : MadtStructure),
      x ∈ patchAll N c l i → ∃ s ∈ l, ∃ k, x = patchOne N c k s := by
  intro l
  induction l with
  | nil => intro _ _ h; simp [patchAll] at h
  | cons a rest ih =>
    intro i x h
    simp only [patchAll, List.mem_cons] at h
    rcases h with rfl | h
    · exact ⟨a, List.mem_cons_self _ _, i, rfl⟩
    · obtain ⟨s, hs, k, hk⟩ := ih _ _ h
      exact ⟨s, List.mem_cons_of_mem _ hs, k, hk⟩

theorem getElem?_outside_middle {α : Type} (A R R2 B : List α) (h : R.length = R2.length)
    (j : Nat) (hj : j < A.length ∨ A.length + R.length ≤ j) :
    (A ++ R ++ B)[j]? = (A ++ R2 ++ B)[j]? := by
  rcases hj with hj | hj
  · rw [List.getElem?_append_left (by simp; omega), List.getElem?_append_left hj,
      List.getElem?_append_left (by simp; omega), List.getElem?_append_left hj]
  · rw [List.getElem?_append_right (by simp; omega),
      List.getElem?_append_right (by simp; omega)]
    simp [h]

theorem localX2Apic_Length_of_wellFormed (T : MadtTable) (pre post : List MadtStructure)
    (arr : List EFI_ACPI_6_5_PROCESSOR_LOCAL_X2APIC_STRUCTURE)
    (hwf : WellFormed T) (hrun : LocalX2ApicRun T pre arr post) :
    ∀ a ∈ arr, a.Length = sizeofLocalX2Apic := by
  intro a ha
  have hm : MadtStructure.LocalX2Apic a ∈ T.Structures := by
    rw [hrun.1]; simp [ha]
  have hw := (hwf.2.1 _ hm).1
  have ht := hrun.2.1 a ha
  simp [MadtStructure.wellTyped, ht, ignoredType, EFI_ACPI_6_5_PROCESSOR_LOCAL_X2APIC] at hw
  exact hw

/-- The structure the patch leaves at a position that held no local-x2APIC
entry: the walk's patch of the structure that was there, with the IOAPIC index
the walk had reached. -/
theorem MadtAcpiTablePatch_getElem? (sort : SortFn) (hs : SortContract sort)
    (P : MadtPlatform) (T : MadtTable)
    (N : List EFI_ACPI_6_5_IO_APIC_STRUCTURE) (pre post : List MadtStructure)
    (arr : List EFI_ACPI_6_5_PROCESSOR_LOCAL_X2APIC_STRUCTURE)
    (hwf : WellFormed T) (hrun : LocalX2ApicRun T pre arr post) (hio : IoApicInfo P N) :
    ∃ st T2, MadtAcpiTablePatch sort P T = .ok (st, T2) ∧
      T2.Header = (setRevision T).Header ∧
      T2.Structures.length = T.Structures.length ∧
      localX2ApicEntries T2 = (collateOrSkip sort P arr).2 ∧
      st = (collateOrSkip sort P arr).1 ∧
      ∀ j s, T.Structures[j]? = some s → isLapic s = false →
        T2.Structures[j]? = some (patchOne N P.IoApicCount (ioApicIndex T j) s) := by
  refine ⟨_, _, MadtAcpiTablePatch_eq sort P T N pre post arr hwf hrun hio, rfl, ?_, ?_, rfl, ?_⟩
  · simp [hrun.1, patchAll_length, collateOrSkip_length sort hs]
  · have hR : ∀ a ∈ (collateOrSkip sort P arr).2,
        a.Type_ = EFI_ACPI_6_5_PROCESSOR_LOCAL_X2APIC := by
      intro a ha
      obtain ⟨e0, he0, heq⟩ := mem_collateOrSkip sort hs P arr a ha
      rw [heq]; exact hrun.2.1 e0 he0
    simp only [localX2ApicEntries, List.filterMap_append,
      filterMap_asLocalX2ApicEntry_none _ (isLapic_patchAll N _ pre 0 hrun.2.2.1),
      filterMap_asLocalX2ApicEntry_none _ (isLapic_patchAll N _ post _ hrun.2.2.2),
      filterMap_asLocalX2ApicEntry_map _ hR, List.nil_append, List.append_nil]
  · intro j s hj hl
    have hlenR : ((collateOrSkip sort P arr).2.map MadtStructure.LocalX2Apic).length
        = (arr.map MadtStructure.LocalX2Apic).length := by
      simp [collateOrSkip_length sort hs]
    have hout : j < (patchAll N P.IoApicCount pre 0).length ∨
        (patchAll N P.IoApicCount pre 0).length
          + ((collateOrSkip sort P arr).2.map MadtStructure.LocalX2Apic).length ≤ j := by
      rw [hlenR, patchAll_length, List.length_map]
      by_contra hcon
      have h1 : pre.length ≤ j := by omega
      have h2 : j - pre.length < arr.length := by omega
      rw [hrun.1, List.append_assoc, List.getElem?_append_right h1,
        List.getElem?_append_left (by simpa using h2)] at hj
      rw [List.getElem?_map] at hj
      cases hq : arr[j - pre.length]? with
      | none => simp [hq] at hj
      | some a =>
        simp only [hq, Option.map_some', Option.some.injEq] at hj
        have ha : a ∈ arr := List.getElem?_mem hq
        rw [← hj] at hl
        simp [isLapic, MadtStructure.Type_, hrun.2.1 a ha] at hl
    show (patchAll N P.IoApicCount pre 0
      ++ (collateOrSkip sort P arr).2.map MadtStructure.LocalX2Apic
      ++ patchAll N P.IoApicCount post (pre.countP countsAsIoApic))[j]? = _
    rw [getElem?_outside_middle _ _ (arr.map MadtStructure.LocalX2Apic) _ hlenR j hout]
    have hpa : patchAll N P.IoApicCount T.Structures 0
        = patchAll N P.IoApicCount pre 0 ++ arr.map MadtStructure.LocalX2Apic
            ++ patchAll N P.IoApicCount post (pre.countP countsAsIoApic) := by
      rw [hrun.1, patchAll_append, patchAll_append, patchAll_localX2Apic,
        List.countP_append, countP_countsAsIoApic_localX2Apic]
      simp
    rw [← hpa, patchAll_getElem?, hj, Option.map_some', Nat.zero_add]
    have hcnt : (T.Structures.take j).countP countsAsIoApic = ioApicIndex T j := by
      unfold ioApicIndex
      apply List.countP_congr
      intro x hx
      rw [countsAsIoApic_of_wellTyped x (hwf.2.1 x (List.mem_of_mem_take hx)).1]
    rw [hcnt]

theorem patchOne_ioApic (N : List EFI_ACPI_6_5_IO_APIC_STRUCTURE) (c k : Nat)
    (a : EFI_ACPI_6_5_IO_APIC_STRUCTURE) (h : a.Type_ = EFI_ACPI_6_5_IO_APIC) :
    patchOne N c k (.IoApic a) =
      if k ≥ c then .IoApic { a with Type_ := 0x7F }
      else .IoApic { a with
        IoApicId := (N.getD k zeroIoApic).IoApicId
        IoApicAddress := (N.getD k zeroIoApic).IoApicAddress
        GlobalSystemInterruptBase := (N.getD k zeroIoApic).GlobalSystemInterruptBase } := by
  unfold patchOne patchIoApic
  by_cases hk : k ≥ c <;>
    simp [h, hk, patchInterruptSourceOverride, patchLocalX2ApicNmi]

theorem eq_ioApic_of_isIoApic (s : MadtStructure) (hw : s.wellTyped = true)
    (h : isIoApic s = true) : ∃ a, s = .IoApic a ∧ a.Type_ = EFI_ACPI_6_5_IO_APIC := by
  cases s <;>
    simp_all [MadtStructure.wellTyped, isIoApic, MadtStructure.Type_, ignoredType,
      EFI_ACPI_6_5_IO_APIC, EFI_ACPI_6_5_INTERRUPT_SOURCE_OVERRIDE,
      EFI_ACPI_6_5_LOCAL_X2APIC_NMI, EFI_ACPI_6_5_PROCESSOR_LOCAL_X2APIC]

theorem isLapic_of_isIoApic (s : MadtStructure) (h : isIoApic s = true) :
    isLapic s = false := by
  simp_all [isLapic, isIoApic, EFI_ACPI_6_5_IO_APIC, EFI_ACPI_6_5_PROCESSOR_LOCAL_X2APIC]

theorem patchOne_interruptSourceOverride (N : List EFI_ACPI_6_5_IO_APIC_STRUCTURE)
    (c k : Nat) (a : EFI_ACPI_6_5_INTERRUPT_SOURCE_OVERRIDE_STRUCTURE)
    (h : a.Type_ = EFI_ACPI_6_5_INTERRUPT_SOURCE_OVERRIDE) :
    patchOne N c k (.InterruptSourceOverride a)
      = .InterruptSourceOverride { a with Flags := 0xF } := by
  simp [patchOne, patchIoApic, patchInterruptSourceOverride, patchLocalX2ApicNmi, h]

theorem patchOne_localX2ApicNmi (N : List EFI_ACPI_6_5_IO_APIC_STRUCTURE)
    (c k : Nat) (a : EFI_ACPI_6_5_LOCAL_X2APIC_NMI_STRUCTURE)
    (h : a.Type_ = EFI_ACPI_6_5_LOCAL_X2APIC_NMI) :
    patchOne N c k (.LocalX2ApicNmi a) = .LocalX2ApicNmi { a with Flags := 0x0005 } := by
  simp [patchOne, patchIoApic, patchInterruptSourceOverride, patchLocalX2ApicNmi, h]

theorem patchOne_eq_interruptSourceOverride (N : List EFI_ACPI_6_5_IO_APIC_STRUCTURE)
    (c k : Nat) (s : MadtStructure) (a : EFI_ACPI_6_5_INTERRUPT_SOURCE_OVERRIDE_STRUCTURE)
    (h : patchOne N c k s = .InterruptSourceOverride a)
    (ht : a.Type_ = EFI_ACPI_6_5_INTERRUPT_SOURCE_OVERRIDE) : a.Flags = 0xF := by
  cases s with
  | IoApic b =>
    unfold patchOne patchIoApic at h
    by_cases h1 : b.Type_ = EFI_ACPI_6_5_IO_APIC
    · by_cases h2 : k ≥ c <;>
        simp [h1, h2, patchInterruptSourceOverride, patchLocalX2ApicNmi] at h
    · simp [h1, patchInterruptSourceOverride, patchLocalX2ApicNmi] at h
  | InterruptSourceOverride b =>
    by_cases h1 : b.Type_ = EFI_ACPI_6_5_INTERRUPT_SOURCE_OVERRIDE
    · rw [patchOne_interruptSourceOverride N c k b h1] at h
      injection h with h
      rw [← h]
    · simp [patchOne, patchIoApic, patchInterruptSourceOverride, patchLocalX2ApicNmi, h1] at h
      rw [h] at h1
      exact absurd ht h1
  | LocalX2ApicNmi b =>
    by_cases h1 : b.Type_ = EFI_ACPI_6_5_LOCAL_X2APIC_NMI <;>
      simp [patchOne, patchIoApic, patchInterruptSourceOverride, patchLocalX2ApicNmi, h1] at h
  | LocalX2Apic b =>
    simp [patchOne, patchIoApic, patchInterruptSourceOverride, patchLocalX2ApicNmi] at h
  | Other t l d =>
    simp [patchOne, patchIoApic, patchInterruptSourceOverride, patchLocalX2ApicNmi] at h

theorem patchOne_eq_localX2ApicNmi (N : List EFI_ACPI_6_5_IO_APIC_STRUCTURE)
    (c k : Nat) (s : MadtStructure) (a : EFI_ACPI_6_5_LOCAL_X2APIC_NMI_STRUCTURE)
    (h : patchOne N c k s = .LocalX2ApicNmi a)
    (ht : a.Type_ = EFI_ACPI_6_5_LOCAL_X2APIC_NMI) : a.Flags = 0x0005 := by
  cases s with
  | IoApic b =>
    unfold patchOne patchIoApic at h
    by_cases h1 : b.Type_ = EFI_ACPI_6_5_IO_APIC
    · by_cases h2 : k ≥ c <;>
        simp [h1, h2, patchInterruptSourceOverride, patchLocalX2ApicNmi] at h
    · simp [h1, patchInterruptSourceOverride, patchLocalX2ApicNmi] at h
  | InterruptSourceOverride b =>
    by_cases h1 : b.Type_ = EFI_ACPI_6_5_INTERRUPT_SOURCE_OVERRIDE <;>
      simp [patchOne, patchIoApic, patchInterruptSourceOverride, patchLocalX2ApicNmi, h1] at h
  | LocalX2ApicNmi b =>
    by_cases h1 : b.Type_ = EFI_ACPI_6_5_LOCAL_X2APIC_NMI
    · rw [patchOne_localX2ApicNmi N c k b h1] at h
      injection h with h
      rw [← h]
    · simp [patchOne, patchIoApic, patchInterruptSourceOverride, patchLocalX2ApicNmi, h1] at h
      rw [h] at h1
      exact absurd ht h1
  | LocalX2Apic b =>
    simp [patchOne, patchIoApic, patchInterruptSourceOverride, patchLocalX2ApicNmi] at h
  | Other t l d =>
    simp [patchOne, patchIoApic, patchInterruptSourceOverride, patchLocalX2ApicNmi] at h

/-- Every structure of the patched table outside the local-x2APIC array is the
walk's patch of a structure of the table. -/
theorem mem_patched_structures (sort : SortFn) (P : MadtPlatform)
    (N : List EFI_ACPI_6_5_IO_APIC_STRUCTURE) (pre post : List MadtStructure)
    (arr : List EFI_ACPI_6_5_PROCESSOR_LOCAL_X2APIC_STRUCTURE) (x : MadtStructure)
    (h : x ∈ patchAll N P.IoApicCount pre 0
        ++ (collateOrSkip sort P arr).2.map MadtStructure.LocalX2Apic
        ++ patchAll N P.IoApicCount post (pre.countP countsAsIoApic)) :
    (∃ a, x = .LocalX2Apic a) ∨ ∃ s k, x = patchOne N P.IoApicCount k s := by
  simp only [List.mem_append, List.mem_map] at h
  rcases h with (h | ⟨a, _, rfl⟩) | h
  · obtain ⟨s, _, k, hk⟩ := mem_patchAll _ _ _ _ _ h
    exact Or.inr ⟨s, k, hk⟩
  · exact Or.inl ⟨a, rfl⟩
  · obtain ⟨s, _, k, hk⟩ := mem_patchAll _ _ _ _ _ h
    exact Or.inr ⟨s, k, hk⟩

theorem map_Length_collateOrSkip (sort : SortFn) (hs : SortContract sort) (P : MadtPlatform)
    (arr : List EFI_ACPI_6_5_PROCESSOR_LOCAL_X2APIC_STRUCTURE)
    (h : ∀ a ∈ arr, a.Length = sizeofLocalX2Apic) :
    ((collateOrSkip sort P arr).2.map MadtStructure.LocalX2Apic).map MadtStructure.Length
      = (arr.map MadtStructure.LocalX2Apic).map MadtStructure.Length := by
  have h1 : ((collateOrSkip sort P arr).2.map MadtStructure.LocalX2Apic).map
      MadtStructure.Length = List.replicate arr.length sizeofLocalX2Apic := by
    rw [List.eq_replicate_iff]
    refine ⟨by simp [collateOrSkip_length sort hs], ?_⟩
    intro b hb
    simp only [List.map_map, List.mem_map, Function.comp] at hb
    obtain ⟨a, ha, rfl⟩ := hb
    obtain ⟨e0, he0, heq⟩ := mem_collateOrSkip sort hs P arr a ha
    rw [heq]
    exact h e0 he0
  have h2 : (arr.map MadtStructure.LocalX2Apic).map MadtStructure.Length
      = List.replicate arr.length sizeofLocalX2Apic := by
    rw [List.eq_replicate_iff]
    refine ⟨by simp, ?_⟩
    intro b hb
    simp only [List.map_map, List.mem_map, Function.comp] at hb
    obtain ⟨a, ha, rfl⟩ := hb
    exact h a ha
  rw [h1, h2]

theorem Sample.wellFormed_table (ids : List Nat) : WellFormed (Sample.table ids) := by
  refine ⟨by simp [Sample.table, Sample.pre], ?_, ?_⟩
  · intro s hs
    simp only [Sample.table, List.mem_append, List.mem_map] at hs
    rcases hs with (hs | ⟨a, ⟨i, _, rfl⟩, rfl⟩) | hs
    · revert s; decide
    · exact ⟨rfl, by simp [MadtStructure.Length, Sample.x2apic]⟩
    · revert s; decide
  · have h : ∀ l : List Nat,
        (((l.map Sample.x2apic).map MadtStructure.LocalX2Apic).map MadtStructure.Length).sum
          = 16 * l.length := by
      intro l
      induction l with
      | nil => rfl
      | cons a l ih =>
        simp only [List.map_cons, List.sum_cons, ih, List.length_cons]
        simp only [MadtStructure.Length, Sample.x2apic]
        omega
    simp only [Sample.table, List.map_append, List.sum_append, h, Sample.header]
    simp [Sample.pre, Sample.post, Sample.ioApic, MadtStructure.Length, sizeofMadtHeader]
    omega

theorem Sample.run_table (ids : List Nat) :
    LocalX2ApicRun (Sample.table ids) Sample.pre (ids.map Sample.x2apic) Sample.post := by
  refine ⟨rfl, ?_, by decide, by decide⟩
  intro a ha
  obtain ⟨i, _, rfl⟩ := List.mem_map.1 ha
  rfl

theorem Sample.ioApicInfo (c : Cpuid) (n : Nat) (b : Bool) :
    IoApicInfo (Sample.platform c n b) Sample.nbioIoApic := ⟨rfl, by simp [Sample.platform]⟩

theorem localX2ApicEntries_of_run (T : MadtTable) (pre post : List MadtStructure)
    (arr : List EFI_ACPI_6_5_PROCESSOR_LOCAL_X2APIC_STRUCTURE)
    (hrun : LocalX2ApicRun T pre arr post) : localX2ApicEntries T = arr := by
  simp only [localX2ApicEntries, hrun.1, List.filterMap_append,
    filterMap_asLocalX2ApicEntry_none _ hrun.2.2.1,
    filterMap_asLocalX2ApicEntry_none _ hrun.2.2.2,
    filterMap_asLocalX2ApicEntry_map _ hrun.2.1, List.nil_append, List.append_nil]

theorem separateThreads_eq (l : List EFI_ACPI_6_5_PROCESSOR_LOCAL_X2APIC_STRUCTURE) :
    separateThreads l
      = l.filter (fun x => x.X2ApicId % 2 = 0) ++ l.filter (fun x => x.X2ApicId % 2 = 1) := by
  unfold separateThreads
  congr 1 <;>
    · apply List.filter_congr
      intro x _
      rcases Nat.mod_two_eq_zero_or_one x.X2ApicId with h | h <;>
        simp [Nat.and_one_is_mod, h]

theorem secondEntryOdd_eq (b : Bool) (l : List EFI_ACPI_6_5_PROCESSOR_LOCAL_X2APIC_STRUCTURE)
    (e : EFI_ACPI_6_5_PROCESSOR_LOCAL_X2APIC_STRUCTURE) (h : l[1]? = some e) :
    secondEntryOdd b l = decide (e.X2ApicId % 2 = 1) := by
  match l, h with
  | _ :: x :: _, h =>
    simp only [List.getElem?_cons_succ, List.getElem?_cons_zero, Option.some.injEq] at h
    subst h
    rcases Nat.mod_two_eq_zero_or_one x.X2ApicId with h | h <;>
      simp [secondEntryOdd, Nat.and_one_is_mod, h]

theorem ne_nil_of_getElem?_sortedWithUid (sort : SortFn) (hs : SortContract sort)
    (P : MadtPlatform) (arr : List EFI_ACPI_6_5_PROCESSOR_LOCAL_X2APIC_STRUCTURE) (i : Nat)
    (e : EFI_ACPI_6_5_PROCESSOR_LOCAL_X2APIC_STRUCTURE)
    (h : (sortedWithUid sort P arr)[i]? = some e) : arr ≠ [] := by
  intro hnil
  have hl := sortedWithUid_length sort hs P arr
  rw [hnil, List.length_nil, List.length_eq_zero] at hl
  rw [hnil, hl] at h
  simp at h

/-- The array block by the low bit of the second entry after the sort: with an
odd second entry the array is partitioned if the buffer is allocated and the
block fails otherwise; with an even second entry the array stays as it is. -/
theorem collateOrSkip_of_second (sort : SortFn) (hs : SortContract sort) (P : MadtPlatform)
    (arr : List EFI_ACPI_6_5_PROCESSOR_LOCAL_X2APIC_STRUCTURE)
    (e : EFI_ACPI_6_5_PROCESSOR_LOCAL_X2APIC_STRUCTURE)
    (h : (sortedWithUid sort P arr)[1]? = some e) :
    (e.X2ApicId % 2 = 1 →
      collateOrSkip sort P arr =
        if P.poolAvailable then (.EFI_SUCCESS, separateThreads (sortedWithUid sort P arr))
        else (.EFI_OUT_OF_RESOURCES, sortedWithUid sort P arr)) ∧
    (e.X2ApicId % 2 = 0 →
      collateOrSkip sort P arr = (.EFI_SUCCESS, sortedWithUid sort P arr)) := by
  have hne := ne_nil_of_getElem?_sortedWithUid sort hs P arr 1 e h
  have hso := secondEntryOdd_eq P.pastArrayOdd _ e h
  constructor
  · intro hodd
    simp [collateOrSkip, hne, collateLocalX2Apic, hso, hodd]
  · intro heven
    simp [collateOrSkip, hne, collateLocalX2Apic, hso, heven]

theorem collateOrSkip_of_pool (sort : SortFn) (hs : SortContract sort) (P : MadtPlatform)
    (arr : List EFI_ACPI_6_5_PROCESSOR_LOCAL_X2APIC_STRUCTURE)
    (e : EFI_ACPI_6_5_PROCESSOR_LOCAL_X2APIC_STRUCTURE)
    (h : (sortedWithUid sort P arr)[1]? = some e) :
    (e.X2ApicId % 2 = 1 → P.poolAvailable = true →
      collateOrSkip sort P arr = (.EFI_SUCCESS, separateThreads (sortedWithUid sort P arr))) ∧
    (e.X2ApicId % 2 = 0 →
      collateOrSkip sort P arr = (.EFI_SUCCESS, sortedWithUid sort P arr)) := by
  refine ⟨fun hodd hpool => ?_, (collateOrSkip_of_second sort hs P arr e h).2⟩
  rw [(collateOrSkip_of_second sort hs P arr e h).1 hodd, hpool]
  rfl

theorem collateOrSkip_status_of_pool (sort : SortFn) (P : MadtPlatform)
    (arr : List EFI_ACPI_6_5_PROCESSOR_LOCAL_X2APIC_STRUCTURE)
    (hpool : P.poolAvailable = true) : (collateOrSkip sort P arr).1 = .EFI_SUCCESS := by
  unfold collateOrSkip collateLocalX2Apic
  simp only [hpool, if_true]
  by_cases h1 : arr = []
  · simp [h1]
  · by_cases h2 : secondEntryOdd P.pastArrayOdd (sortedWithUid sort P arr) = true <;>
      simp [h1, h2]

theorem sortedWithUid_getElem? (sort : SortFn) (P : MadtPlatform)
    (arr : List EFI_ACPI_6_5_PROCESSOR_LOCAL_X2APIC_STRUCTURE) (i : Nat) :
    (sortedWithUid sort P arr)[i]?
      = ((sortByCcdHalves sort P.PcdMaxCpuSocketCount (SortByCcd P.cpuid) arr)[i]?).map
          (fun e => { e with AcpiProcessorUid := i }) := by
  unfold sortedWithUid
  rw [assignUid_getElem?, Nat.zero_add]

theorem uid_of_getElem?_sortedWithUid (sort : SortFn) (P : MadtPlatform)
    (arr : List EFI_ACPI_6_5_PROCESSOR_LOCAL_X2APIC_STRUCTURE) (i : Nat)
    (e : EFI_ACPI_6_5_PROCESSOR_LOCAL_X2APIC_STRUCTURE)
    (h : (sortedWithUid sort P arr)[i]? = some e) : e.AcpiProcessorUid = i := by
  rw [sortedWithUid_getElem?] at h
  cases hq : (sortByCcdHalves sort P.PcdMaxCpuSocketCount (SortByCcd P.cpuid) arr)[i]? with
  | none => simp [hq] at h
  | some e0 =>
    simp only [hq, Option.map_some', Option.some.injEq] at h
    rw [← h]

theorem sortedWithUid_map_uid (sort : SortFn) (hs : SortContract sort) (P : MadtPlatform)
    (arr : List EFI_ACPI_6_5_PROCESSOR_LOCAL_X2APIC_STRUCTURE) :
    (sortedWithUid sort P arr).map (fun e => e.AcpiProcessorUid) = List.range arr.length := by
  unfold sortedWithUid
  rw [assignUid_map_uid, sortByCcdHalves_length sort hs, List.range_eq_range']

theorem SortByCcd_le (cpuid : Cpuid)
    (a b : EFI_ACPI_6_5_PROCESSOR_LOCAL_X2APIC_STRUCTURE) :
    SortByCcd cpuid a b ≤ 0 ↔ ccdRank cpuid a ≤ ccdRank cpuid b :=
  compareCcdIndex_le _ _

/-- The array block depends on the sort only through the two sort calls. -/
theorem collateOrSkip_congr (sort sort2 : SortFn) (P : MadtPlatform)
    (arr : List EFI_ACPI_6_5_PROCESSOR_LOCAL_X2APIC_STRUCTURE)
    (h : sortByCcdHalves sort P.PcdMaxCpuSocketCount (SortByCcd P.cpuid) arr
      = sortByCcdHalves sort2 P.PcdMaxCpuSocketCount (SortByCcd P.cpuid) arr) :
    collateOrSkip sort P arr = collateOrSkip sort2 P arr := by
  unfold collateOrSkip collateLocalX2Apic sortedWithUid
  rw [h]

/-- On an array in strictly increasing CCD rank every sort meeting the contract
gives what the reference sort gives. -/
theorem collateOrSkip_of_strict (sort : SortFn) (hs : SortContract sort) (P : MadtPlatform)
    (arr : List EFI_ACPI_6_5_PROCESSOR_LOCAL_X2APIC_STRUCTURE)
    (hl : arr.Pairwise (fun a b => ccdRank P.cpuid a < ccdRank P.cpuid b)) :
    collateOrSkip sort P arr = collateOrSkip referenceSort P arr := by
  apply collateOrSkip_congr
  rw [sortByCcdHalves_eq_self_of_strict sort hs _ _ (ccdRank P.cpuid) (SortByCcd_le P.cpuid)
      arr hl,
    sortByCcdHalves_eq_self_of_strict referenceSort referenceSort_contract _ _
      (ccdRank P.cpuid) (SortByCcd_le P.cpuid) arr hl]

theorem countP_even_sortedWithUid (sort : SortFn) (hs : SortContract sort) (P : MadtPlatform)
    (arr : List EFI_ACPI_6_5_PROCESSOR_LOCAL_X2APIC_STRUCTURE) :
    (sortedWithUid sort P arr).countP (fun x => x.X2ApicId % 2 = 0)
      = arr.countP (fun x => x.X2ApicId % 2 = 0) := by
  have h1 : ∀ l : List EFI_ACPI_6_5_PROCESSOR_LOCAL_X2APIC_STRUCTURE,
      l.countP (fun x => x.X2ApicId % 2 = 0)
        = (l.map (fun x => x.X2ApicId)).countP (fun n => n % 2 = 0) := by
    intro l
    rw [List.countP_map]
    rfl
  rw [h1, h1]
  unfold sortedWithUid
  rw [assignUid_map_X2ApicId]
  exact ((sortByCcdHalves_perm sort hs _ _ arr).map _).countP_eq _

theorem sortedWithUid_at_uid (sort : SortFn) (P : MadtPlatform)
    (arr : List EFI_ACPI_6_5_PROCESSOR_LOCAL_X2APIC_STRUCTURE)
    (x : EFI_ACPI_6_5_PROCESSOR_LOCAL_X2APIC_STRUCTURE) (h : x ∈ sortedWithUid sort P arr) :
    (sortedWithUid sort P arr)[x.AcpiProcessorUid]? = some x := by
  obtain ⟨k, hk⟩ := List.getElem?_of_mem h
  rw [uid_of_getElem?_sortedWithUid sort P arr k x hk]
  exact hk

end Madt

/-! ## Lemmas: the processor map of the SSDT -/

namespace Ssdt

theorem assignProcessorId_map :
    ∀ (l : List EFI_PROCESSOR_INFORMATION) (i : Nat),
      (assignProcessorId l i).map (fun e => e.ProcessorId) = List.range' i l.length := by
  intro l
  induction l with
  | nil => intro _; rfl
  | cons e rest ih => intro i; simp [assignProcessorId, ih, List.range'_succ]

theorem assignProcessorId_length :
    ∀ (l : List EFI_PROCESSOR_INFORMATION) (i : Nat),
      (assignProcessorId l i).length = l.length := by
  intro l
  induction l with
  | nil => intro _; rfl
  | cons e rest ih => intro i; simp [assignProcessorId, ih]

theorem assignProcessorId_getElem? :
    ∀ (l : List EFI_PROCESSOR_INFORMATION) (i j : Nat),
      (assignProcessorId l i)[j]? = (l[j]?).map (fun e => { e with ProcessorId := i + j }) := by
  intro l
  induction l with
  | nil => intro _ _; simp [assignProcessorId]
  | cons e rest ih =>
    intro i j
    cases j with
    | zero => simp [assignProcessorId]
    | succ j =>
      simp only [assignProcessorId, List.getElem?_cons_succ, ih]
      rw [show i + 1 + j = i + (j + 1) by omega]

theorem sortedMap_length (sort : SortFn) (hs : SortContract sort) (P : SsdtPlatform)
    (Mp : EFI_MP_SERVICES_PROTOCOL) (n : Nat) : (sortedMap sort P Mp n).length = n := by
  unfold sortedMap
  rw [sortByCcdHalves_length sort hs]
  simp

/-- The outcome of `GenerateApicIdtoUidMap` when the MP services answer and the
map is allocated. -/
theorem GenerateApicIdtoUidMap_eq (sort : SortFn) (P : SsdtPlatform) (G : CpuSsdtGlobals)
    (Mp : EFI_MP_SERVICES_PROTOCOL) (n m : Nat) (hMp : P.MpService = some Mp)
    (hn : Mp.GetNumberOfProcessors = (.EFI_SUCCESS, n, m)) (hpool : P.poolAvailable = true) :
    GenerateApicIdtoUidMap sort P G =
      (.EFI_SUCCESS,
        { mApicIdtoUidMap := some (assignProcessorId (sortedMap sort P Mp n) 0)
          mNumberOfCpus := n
          mNumberOfEnabledCPUs := m }) := by
  simp [GenerateApicIdtoUidMap, hMp, hn, hpool, EFI_ERROR]

theorem cpuDevice_ok (Aml : AmlLib) (i : Nat) (p : EFI_PROCESSOR_INFORMATION)
    (d : CpuDevice) (h : cpuDevice Aml i p = .ok d) :
    d.NameIndex = i ∧ d.Uid = p.ProcessorId := by
  unfold cpuDevice at h
  split_ifs at h
  injection h with h
  rw [← h]
  exact ⟨rfl, rfl⟩

theorem mem_cpuDevices (Aml : AmlLib) :
    ∀ (l : List EFI_PROCESSOR_INFORMATION) (i : Nat) (d : CpuDevice),
      d ∈ (cpuDevices Aml l i).1 →
      ∃ j p, l[j]? = some p ∧ d.NameIndex = i + j ∧ d.Uid = p.ProcessorId := by
  intro l
  induction l with
  | nil => intro i d h; simp [cpuDevices] at h
  | cons q rest ih =>
    intro i d h
    unfold cpuDevices at h
    by_cases hq : q.StatusFlag = 0
    · simp only [hq, if_true] at h
      obtain ⟨j, p, hj, hn, hu⟩ := ih (i + 1) d h
      exact ⟨j + 1, p, by simpa using hj, by omega, hu⟩
    · simp only [hq, if_false] at h
      cases hc : cpuDevice Aml i q with
      | error e => simp [hc] at h
      | ok d0 =>
        simp only [hc, List.mem_cons] at h
        rcases h with rfl | h
        · obtain ⟨h1, h2⟩ := cpuDevice_ok Aml i q d hc
          exact ⟨0, q, by simp, h1, h2⟩
        · obtain ⟨j, p, hj, hn, hu⟩ := ih (i + 1) d h
          exact ⟨j + 1, p, by simpa using hj, by omega, hu⟩

/-- Every device node `InstallCpuAcpi` completes comes from the loop over the
map `GenerateApicIdtoUidMap` has built. -/
theorem mem_InstallCpuAcpi_Devices (sort : SortFn) (P : SsdtPlatform) (Aml : AmlLib)
    (G : CpuSsdtGlobals) (Mp : EFI_MP_SERVICES_PROTOCOL) (n m : Nat)
    (hMp : P.MpService = some Mp)
    (hn : Mp.GetNumberOfProcessors = (.EFI_SUCCESS, n, m)) (hpool : P.poolAvailable = true)
    (d : CpuDevice) (h : d ∈ (InstallCpuAcpi sort P Aml G).Devices) :
    d ∈ (cpuDevices Aml ((assignProcessorId (sortedMap sort P Mp n) 0).take n) 0).1 := by
  have e1 : EFI_ERROR EFI_STATUS.EFI_SUCCESS = false := rfl
  unfold InstallCpuAcpi at h
  simp only [hMp, GenerateApicIdtoUidMap_eq sort P G Mp n m hMp hn hpool, hn, e1,
    Bool.false_eq_true, if_false, Option.getD_some] at h
  repeat' split at h
  all_goals first
    | exact h
    | simp at h

/-- The `_UID` of every device node `InstallCpuAcpi` completes is the position
of its processor record in the map, which is also the index in its name. -/
theorem InstallCpuAcpi_Uid (sort : SortFn) (hs : SortContract sort) (P : SsdtPlatform)
    (Aml : AmlLib) (G : CpuSsdtGlobals) (Mp : EFI_MP_SERVICES_PROTOCOL) (n m : Nat)
    (hMp : P.MpService = some Mp)
    (hn : Mp.GetNumberOfProcessors = (.EFI_SUCCESS, n, m)) (hpool : P.poolAvailable = true)
    (d : CpuDevice) (h : d ∈ (InstallCpuAcpi sort P Aml G).Devices) :
    d.Uid = d.NameIndex ∧ d.NameIndex < n := by
  obtain ⟨j, p, hj, hname, hu⟩ := mem_cpuDevices Aml _ 0 d
    (mem_InstallCpuAcpi_Devices sort P Aml G Mp n m hMp hn hpool d h)
  have hj2 : (assignProcessorId (sortedMap sort P Mp n) 0)[j]? = some p := by
    rw [List.getElem?_take] at hj
    split at hj
    · exact hj
    · simp at hj
  have hlt : j < n := by
    have := (List.getElem?_eq_some_iff.1 hj2).1
    rwa [assignProcessorId_length, sortedMap_length sort hs] at this
  rw [assignProcessorId_getElem?] at hj2
  cases hq : (sortedMap sort P Mp n)[j]? with
  | none => simp [hq] at hj2
  | some q =>
    simp only [hq, Option.map_some', Option.some.injEq, Nat.zero_add] at hj2
    rw [hu, hname, ← hj2]
    simp [hlt]

end Ssdt

/-! ## Claims about the MADT walk -/

namespace Madt

/-- C7: for a well-formed MADT (at least one sub-structure, lengths positive
and adding up with the fixed header to `Header.Length`, the local-x2APIC
entries stored as one array) the patch returns, and it changes neither
`Header.Length` nor the `Length` field of any sub-structure, so the lengths
still add up to the declared `Header.Length`. -/
theorem MadtAcpiTablePatch_keeps_lengths (sort : SortFn) (hs : SortContract sort)
    (P : MadtPlatform) (T : MadtTable)
    (N : List EFI_ACPI_6_5_IO_APIC_STRUCTURE) (pre post : List MadtStructure)
    (arr : List EFI_ACPI_6_5_PROCESSOR_LOCAL_X2APIC_STRUCTURE)
    (hwf : WellFormed T) (hrun : LocalX2ApicRun T pre arr post) (hio : IoApicInfo P N) :
    ∃ st T2, MadtAcpiTablePatch sort P T = .ok (st, T2) ∧
      T2.Header.Header.Length = T.Header.Header.Length ∧
      T2.Structures.map MadtStructure.Length = T.Structures.map MadtStructure.Length ∧
      sizeofMadtHeader + (T2.Structures.map MadtStructure.Length).sum
        = T2.Header.Header.Length := by
  have hmap : (patchAll N P.IoApicCount pre 0
        ++ (collateOrSkip sort P arr).2.map MadtStructure.LocalX2Apic
        ++ patchAll N P.IoApicCount post (pre.countP countsAsIoApic)).map MadtStructure.Length
      = T.Structures.map MadtStructure.Length := by
    rw [hrun.1]
    simp only [List.map_append, patchAll_map_Length]
    rw [map_Length_collateOrSkip sort hs P arr
      (localX2Apic_Length_of_wellFormed T pre post arr hwf hrun)]
  refine ⟨_, _, MadtAcpiTablePatch_eq sort P T N pre post arr hwf hrun hio, rfl, hmap, ?_⟩
  show sizeofMadtHeader + (List.map MadtStructure.Length (patchAll N P.IoApicCount pre 0
        ++ (collateOrSkip sort P arr).2.map MadtStructure.LocalX2Apic
        ++ patchAll N P.IoApicCount post (pre.countP countsAsIoApic))).sum
      = T.Header.Header.Length
  rw [hmap]
  exact hwf.2.2

/-- Witness for C7 on the sample table with entries 1, 9, 4. -/
theorem MadtAcpiTablePatch_keeps_lengths_witness :
    ∃ st T2, MadtAcpiTablePatch referenceSort (Sample.platform Sample.cpuid 1 true) (Sample.table [1, 9, 4])
        = .ok (st, T2) ∧
      T2.Header.Header.Length = (Sample.table [1, 9, 4]).Header.Header.Length ∧
      T2.Structures.map MadtStructure.Length
        = (Sample.table [1, 9, 4]).Structures.map MadtStructure.Length ∧
      sizeofMadtHeader + (T2.Structures.map MadtStructure.Length).sum
        = T2.Header.Header.Length :=
  MadtAcpiTablePatch_keeps_lengths referenceSort referenceSort_contract (Sample.platform Sample.cpuid 1 true)
    (Sample.table [1, 9, 4]) Sample.nbioIoApic Sample.pre Sample.post
    ([1, 9, 4].map Sample.x2apic) (Sample.wellFormed_table _) (Sample.run_table _)
    (Sample.ioApicInfo _ _ _)

/-- C8: after the patch with IOAPIC information available, every IOAPIC
sub-structure of the table whose enumeration index is at or beyond
`IoApicCount` has type byte 0x7F, and every IOAPIC sub-structure with a
smaller index keeps its type byte. -/
theorem MadtAcpiTablePatch_surplus_ioApic_reserved (sort : SortFn) (hs : SortContract sort)
    (P : MadtPlatform) (T : MadtTable)
    (N : List EFI_ACPI_6_5_IO_APIC_STRUCTURE) (pre post : List MadtStructure)
    (arr : List EFI_ACPI_6_5_PROCESSOR_LOCAL_X2APIC_STRUCTURE)
    (hwf : WellFormed T) (hrun : LocalX2ApicRun T pre arr post) (hio : IoApicInfo P N) :
    ∃ st T2, MadtAcpiTablePatch sort P T = .ok (st, T2) ∧
      ∀ j s, T.Structures[j]? = some s → isIoApic s = true →
        ∃ s2, T2.Structures[j]? = some s2 ∧
          (P.IoApicCount ≤ ioApicIndex T j → s2.Type_ = 0x7F) ∧
          (ioApicIndex T j < P.IoApicCount → s2.Type_ = s.Type_) := by
  obtain ⟨st, T2, h, _, _, _, _, hpos⟩ :=
    MadtAcpiTablePatch_getElem? sort hs P T N pre post arr hwf hrun hio
  refine ⟨st, T2, h, ?_⟩
  intro j s hj hs1
  obtain ⟨a, rfl, ha⟩ := eq_ioApic_of_isIoApic s (hwf.2.1 s (List.getElem?_mem hj)).1 hs1
  refine ⟨_, hpos j _ hj (isLapic_of_isIoApic _ hs1), ?_, ?_⟩
  · intro hge
    rw [patchOne_ioApic N _ _ a ha, if_pos hge]
    rfl
  · intro hlt
    rw [patchOne_ioApic N _ _ a ha, if_neg (by omega)]
    rfl

/-- Witness for C8 on the sample table: three IOAPIC structures, two IOAPICs
on the platform list. -/
theorem MadtAcpiTablePatch_surplus_ioApic_reserved_witness :
    ∃ st T2, MadtAcpiTablePatch referenceSort (Sample.platform Sample.cpuid 1 true) (Sample.table [1, 9, 4])
        = .ok (st, T2) ∧
      ∀ j s, (Sample.table [1, 9, 4]).Structures[j]? = some s → isIoApic s = true →
        ∃ s2, T2.Structures[j]? = some s2 ∧
          ((Sample.platform Sample.cpuid 1 true).IoApicCount ≤ ioApicIndex (Sample.table [1, 9, 4]) j →
            s2.Type_ = 0x7F) ∧
          (ioApicIndex (Sample.table [1, 9, 4]) j < (Sample.platform Sample.cpuid 1 true).IoApicCount →
            s2.Type_ = s.Type_) :=
  MadtAcpiTablePatch_surplus_ioApic_reserved referenceSort referenceSort_contract
    (Sample.platform Sample.cpuid 1 true) (Sample.table [1, 9, 4]) Sample.nbioIoApic Sample.pre Sample.post
    ([1, 9, 4].map Sample.x2apic) (Sample.wellFormed_table _) (Sample.run_table _)
    (Sample.ioApicInfo _ _ _)

/-- C9: after the patch, the IOAPIC sub-structure with enumeration index
`i < IoApicCount` carries the `IoApicId`, `IoApicAddress` and
`GlobalSystemInterruptBase` of entry `i` of the platform list. -/
theorem MadtAcpiTablePatch_ioApic_from_platform (sort : SortFn) (hs : SortContract sort)
    (P : MadtPlatform) (T : MadtTable)
    (N : List EFI_ACPI_6_5_IO_APIC_STRUCTURE) (pre post : List MadtStructure)
    (arr : List EFI_ACPI_6_5_PROCESSOR_LOCAL_X2APIC_STRUCTURE)
    (hwf : WellFormed T) (hrun : LocalX2ApicRun T pre arr post) (hio : IoApicInfo P N) :
    ∃ st T2, MadtAcpiTablePatch sort P T = .ok (st, T2) ∧
      ∀ j s b, T.Structures[j]? = some s → isIoApic s = true →
        ioApicIndex T j < P.IoApicCount → N[ioApicIndex T j]? = some b →
        ∃ a2, T2.Structures[j]? = some (.IoApic a2) ∧
          a2.IoApicId = b.IoApicId ∧ a2.IoApicAddress = b.IoApicAddress ∧
          a2.GlobalSystemInterruptBase = b.GlobalSystemInterruptBase := by
  obtain ⟨st, T2, h, _, _, _, _, hpos⟩ :=
    MadtAcpiTablePatch_getElem? sort hs P T N pre post arr hwf hrun hio
  refine ⟨st, T2, h, ?_⟩
  intro j s b hj hs1 hlt hb
  obtain ⟨a, rfl, ha⟩ := eq_ioApic_of_isIoApic s (hwf.2.1 s (List.getElem?_mem hj)).1 hs1
  have hp := hpos j _ hj (isLapic_of_isIoApic _ hs1)
  rw [patchOne_ioApic N _ _ a ha, if_neg (by omega)] at hp
  have hd : N.getD (ioApicIndex T j) zeroIoApic = b := by
    simp [List.getD_eq_getElem?_getD, hb]
  rw [hd] at hp
  exact ⟨_, hp, rfl, rfl, rfl⟩

/-- Witness for C9 on the sample table. -/
theorem MadtAcpiTablePatch_ioApic_from_platform_witness :
    ∃ st T2, MadtAcpiTablePatch referenceSort (Sample.platform Sample.cpuid 1 true) (Sample.table [1, 9, 4])
        = .ok (st, T2) ∧
      ∀ j s b, (Sample.table [1, 9, 4]).Structures[j]? = some s → isIoApic s = true →
        ioApicIndex (Sample.table [1, 9, 4]) j < (Sample.platform Sample.cpuid 1 true).IoApicCount →
        Sample.nbioIoApic[ioApicIndex (Sample.table [1, 9, 4]) j]? = some b →
        ∃ a2, T2.Structures[j]? = some (.IoApic a2) ∧
          a2.IoApicId = b.IoApicId ∧ a2.IoApicAddress = b.IoApicAddress ∧
          a2.GlobalSystemInterruptBase = b.GlobalSystemInterruptBase :=
  MadtAcpiTablePatch_ioApic_from_platform referenceSort referenceSort_contract
    (Sample.platform Sample.cpuid 1 true) (Sample.table [1, 9, 4]) Sample.nbioIoApic Sample.pre Sample.post
    ([1, 9, 4].map Sample.x2apic) (Sample.wellFormed_table _) (Sample.run_table _)
    (Sample.ioApicInfo _ _ _)

/-- C10: after the patch with IOAPIC information available, every interrupt
source override structure of the table is still in its place with `Flags`
0xF and every local-x2APIC NMI structure with `Flags` 0x0005, whatever the
flags were, and the patched table holds no structure of either type with
other flags. -/
theorem MadtAcpiTablePatch_forces_flags (sort : SortFn) (hs : SortContract sort)
    (P : MadtPlatform) (T : MadtTable)
    (N : List EFI_ACPI_6_5_IO_APIC_STRUCTURE) (pre post : List MadtStructure)
    (arr : List EFI_ACPI_6_5_PROCESSOR_LOCAL_X2APIC_STRUCTURE)
    (hwf : WellFormed T) (hrun : LocalX2ApicRun T pre arr post) (hio : IoApicInfo P N) :
    ∃ st T2, MadtAcpiTablePatch sort P T = .ok (st, T2) ∧
      (∀ (j : Nat) (a : EFI_ACPI_6_5_INTERRUPT_SOURCE_OVERRIDE_STRUCTURE),
        T.Structures[j]? = some (MadtStructure.InterruptSourceOverride a) →
        a.Type_ = EFI_ACPI_6_5_INTERRUPT_SOURCE_OVERRIDE →
        T2.Structures[j]? = some (MadtStructure.InterruptSourceOverride { a with Flags := 0xF })) ∧
      (∀ (j : Nat) (a : EFI_ACPI_6_5_LOCAL_X2APIC_NMI_STRUCTURE),
        T.Structures[j]? = some (MadtStructure.LocalX2ApicNmi a) →
        a.Type_ = EFI_ACPI_6_5_LOCAL_X2APIC_NMI →
        T2.Structures[j]? = some (MadtStructure.LocalX2ApicNmi { a with Flags := 0x0005 })) ∧
      (∀ a, MadtStructure.InterruptSourceOverride a ∈ T2.Structures →
        a.Type_ = EFI_ACPI_6_5_INTERRUPT_SOURCE_OVERRIDE → a.Flags = 0xF) ∧
      (∀ a, MadtStructure.LocalX2ApicNmi a ∈ T2.Structures →
        a.Type_ = EFI_ACPI_6_5_LOCAL_X2APIC_NMI → a.Flags = 0x0005) := by
  obtain ⟨st, T2, h, _, _, _, _, hpos⟩ :=
    MadtAcpiTablePatch_getElem? sort hs P T N pre post arr hwf hrun hio
  have heq := MadtAcpiTablePatch_eq sort P T N pre post arr hwf hrun hio
  rw [h] at heq
  injection heq with heq
  have hT2 : T2.Structures = patchAll N P.IoApicCount pre 0
        ++ (collateOrSkip sort P arr).2.map MadtStructure.LocalX2Apic
        ++ patchAll N P.IoApicCount post (pre.countP countsAsIoApic) := by
    rw [(Prod.mk.inj heq).2]
  refine ⟨st, T2, h, ?_, ?_, ?_, ?_⟩
  · intro j a hj ha
    have := hpos j _ hj (by
      simp [isLapic, MadtStructure.Type_, ha, EFI_ACPI_6_5_INTERRUPT_SOURCE_OVERRIDE,
        EFI_ACPI_6_5_PROCESSOR_LOCAL_X2APIC])
    rw [this, patchOne_interruptSourceOverride N _ _ a ha]
  · intro j a hj ha
    have := hpos j _ hj (by
      simp [isLapic, MadtStructure.Type_, ha, EFI_ACPI_6_5_LOCAL_X2APIC_NMI,
        EFI_ACPI_6_5_PROCESSOR_LOCAL_X2APIC])
    rw [this, patchOne_localX2ApicNmi N _ _ a ha]
  · intro a hmem ha
    rw [hT2] at hmem
    rcases mem_patched_structures sort P N pre post arr _ hmem with ⟨b, hb⟩ | ⟨s, k, hk⟩
    · cases hb
    · exact patchOne_eq_interruptSourceOverride N _ k s a hk.symm ha
  · intro a hmem ha
    rw [hT2] at hmem
    rcases mem_patched_structures sort P N pre post arr _ hmem with ⟨b, hb⟩ | ⟨s, k, hk⟩
    · cases hb
    · exact patchOne_eq_localX2ApicNmi N _ k s a hk.symm ha

/-- Witness for C10 on the sample table. -/
theorem MadtAcpiTablePatch_forces_flags_witness :
    ∃ st T2, MadtAcpiTablePatch referenceSort (Sample.platform Sample.cpuid 1 true) (Sample.table [1, 9, 4])
        = .ok (st, T2) ∧
      (∀ (j : Nat) (a : EFI_ACPI_6_5_INTERRUPT_SOURCE_OVERRIDE_STRUCTURE),
        (Sample.table [1, 9, 4]).Structures[j]? = some (MadtStructure.InterruptSourceOverride a) →
        a.Type_ = EFI_ACPI_6_5_INTERRUPT_SOURCE_OVERRIDE →
        T2.Structures[j]? = some (MadtStructure.InterruptSourceOverride { a with Flags := 0xF })) ∧
      (∀ (j : Nat) (a : EFI_ACPI_6_5_LOCAL_X2APIC_NMI_STRUCTURE),
        (Sample.table [1, 9, 4]).Structures[j]? = some (MadtStructure.LocalX2ApicNmi a) →
        a.Type_ = EFI_ACPI_6_5_LOCAL_X2APIC_NMI →
        T2.Structures[j]? = some (MadtStructure.LocalX2ApicNmi { a with Flags := 0x0005 })) ∧
      (∀ a, MadtStructure.InterruptSourceOverride a ∈ T2.Structures →
        a.Type_ = EFI_ACPI_6_5_INTERRUPT_SOURCE_OVERRIDE → a.Flags = 0xF) ∧
      (∀ a, MadtStructure.LocalX2ApicNmi a ∈ T2.Structures →
        a.Type_ = EFI_ACPI_6_5_LOCAL_X2APIC_NMI → a.Flags = 0x0005) :=
  MadtAcpiTablePatch_forces_flags referenceSort referenceSort_contract
    (Sample.platform Sample.cpuid 1 true) (Sample.table [1, 9, 4]) Sample.nbioIoApic Sample.pre Sample.post
    ([1, 9, 4].map Sample.x2apic) (Sample.wellFormed_table _) (Sample.run_table _)
    (Sample.ioApicInfo _ _ _)

end Madt

/-! ## Lemmas: the two tables order the processors alike -/

theorem map_getD_range {α : Type} (l : List α) (z : α) :
    (List.range l.length).map (fun i => l.getD i z) = l := by
  apply List.ext_getElem?
  intro i
  by_cases hi : i < l.length
  · simp [List.getElem?_map, List.getElem?_range hi, List.getD_eq_getElem?_getD,
      List.getElem?_eq_getElem hi]
  · have hle := Nat.le_of_not_lt hi
    simp [List.getElem?_eq_none, hle]

/-- The two sorts put the same processors at the same positions: the original
`ProcessorId` values in map order are the `X2ApicId` values in the order of the
array after the sort calls. -/
theorem sortedMap_ids (sort : SortFn) (hs : SortContract sort) (PM : MadtPlatform)
    (PS : SsdtPlatform) (Mp : EFI_MP_SERVICES_PROTOCOL)
    (arr : List EFI_ACPI_6_5_PROCESSOR_LOCAL_X2APIC_STRUCTURE)
    (hcpuid : PS.cpuid = PM.cpuid)
    (hsock : PS.PcdMaxCpuSocketCount = PM.PcdMaxCpuSocketCount)
    (hsame : ∀ (i : Nat) (a : EFI_ACPI_6_5_PROCESSOR_LOCAL_X2APIC_STRUCTURE),
      arr[i]? = some a → (Mp.GetProcessorInfo i).ProcessorId = a.X2ApicId)
    (h32 : ∀ a ∈ arr, a.X2ApicId < 2 ^ 32) :
    (Ssdt.sortedMap sort PS Mp arr.length).map (fun p => p.ProcessorId)
      = (sortByCcdHalves sort PM.PcdMaxCpuSocketCount (Madt.SortByCcd PM.cpuid) arr).map
          (fun e => e.X2ApicId) := by
  let z : EFI_ACPI_6_5_PROCESSOR_LOCAL_X2APIC_STRUCTURE :=
    { Type_ := 0, Length := 0, Reserved := 0, X2ApicId := 0, Flags := 0, AcpiProcessorUid := 0 }
  let g : Nat → EFI_ACPI_6_5_PROCESSOR_LOCAL_X2APIC_STRUCTURE := fun i => arr.getD i z
  let cmpIdx : Nat → Nat → Int := fun i j => Madt.SortByCcd PM.cpuid (g i) (g j)
  have hkey : ∀ i, i < arr.length →
      (Mp.GetProcessorInfo i).ProcessorId = (g i).X2ApicId ∧ (g i).X2ApicId < 2 ^ 32 := by
    intro i hi
    have hg : g i = arr[i] := by
      simp [g, List.getD_eq_getElem?_getD, List.getElem?_eq_getElem hi]
    rw [hg]
    exact ⟨hsame i _ (List.getElem?_eq_getElem hi), h32 _ (List.getElem_mem _)⟩
  have harr : arr = (List.range arr.length).map g := (map_getD_range arr z).symm
  have h1 : sortByCcdHalves sort PM.PcdMaxCpuSocketCount (Madt.SortByCcd PM.cpuid) arr
      = (sortByCcdHalves sort PM.PcdMaxCpuSocketCount cmpIdx (List.range arr.length)).map g := by
    conv => lhs; rw [harr]
    exact sortByCcdHalves_map sort hs _ g cmpIdx _ _ (fun _ _ _ _ => rfl)
  have h2 : Ssdt.sortedMap sort PS Mp arr.length
      = (sortByCcdHalves sort PM.PcdMaxCpuSocketCount cmpIdx (List.range arr.length)).map
          (Ssdt.readProcessor PM.cpuid Mp) := by
    unfold Ssdt.sortedMap
    rw [hsock, hcpuid]
    apply sortByCcdHalves_map sort hs
    intro a ha b hb
    have ha2 := hkey a (List.mem_range.1 ha)
    have hb2 := hkey b (List.mem_range.1 hb)
    simp only [Ssdt.SortByCcd, Ssdt.readProcessor, cmpIdx, Madt.SortByCcd]
    rw [ha2.1, hb2.1, Nat.mod_eq_of_lt ha2.2, Nat.mod_eq_of_lt hb2.2]
  have hmem : ∀ i ∈ sortByCcdHalves sort PM.PcdMaxCpuSocketCount cmpIdx
      (List.range arr.length), i < arr.length := fun i hi =>
    List.mem_range.1
      ((sortByCcdHalves_perm sort hs PM.PcdMaxCpuSocketCount cmpIdx _).subset hi)
  rw [h1, h2, List.map_map, List.map_map]
  apply List.map_congr_left
  intro i hi
  simp only [Function.comp, Ssdt.readProcessor]
  exact (hkey i (hmem i hi)).1

theorem Sample.same_ids (ids : List Nat) (i : Nat)
    (a : EFI_ACPI_6_5_PROCESSOR_LOCAL_X2APIC_STRUCTURE)
    (h : (ids.map Sample.x2apic)[i]? = some a) :
    ((Sample.mpServices ids).GetProcessorInfo i).ProcessorId = a.X2ApicId := by
  rw [List.getElem?_map] at h
  cases hq : ids[i]? with
  | none => simp [hq] at h
  | some x =>
    simp only [hq, Option.map_some', Option.some.injEq] at h
    rw [← h]
    simp [Sample.mpServices, Sample.processor, Sample.x2apic, List.getD_eq_getElem?_getD, hq]

/-! ## Claims about the processor order and the UIDs -/

/-- C1: for the same processors in the same order (the `X2ApicId` values of
the local-x2APIC entries are the `ProcessorId` values the MP services report,
index by index, all different), the same CPUID answers and the same
socket-count setting, the `AcpiProcessorUid` the patch leaves in the entry
with `X2ApicId` x is the position, in the map of `GenerateApicIdtoUidMap`, of
the processor whose original `ProcessorId` is x, which is the `ProcessorId`
written there and the `_UID` of the device node `InstallCpuAcpi` emits for
it. -/
theorem madt_uid_eq_ssdt_uid (sort : SortFn) (hs : SortContract sort)
    (PM : MadtPlatform) (T : MadtTable)
    (N : List EFI_ACPI_6_5_IO_APIC_STRUCTURE) (pre post : List MadtStructure)
    (arr : List EFI_ACPI_6_5_PROCESSOR_LOCAL_X2APIC_STRUCTURE)
    (hwf : Madt.WellFormed T) (hrun : Madt.LocalX2ApicRun T pre arr post)
    (hio : Madt.IoApicInfo PM N)
    (PS : SsdtPlatform) (G : CpuSsdtGlobals) (Mp : EFI_MP_SERVICES_PROTOCOL) (m : Nat)
    (Aml : Ssdt.AmlLib)
    (hcpuid : PS.cpuid = PM.cpuid)
    (hsock : PS.PcdMaxCpuSocketCount = PM.PcdMaxCpuSocketCount)
    (hMp : PS.MpService = some Mp)
    (hn : Mp.GetNumberOfProcessors = (.EFI_SUCCESS, arr.length, m))
    (hpool : PS.poolAvailable = true)
    (hsame : ∀ (i : Nat) (a : EFI_ACPI_6_5_PROCESSOR_LOCAL_X2APIC_STRUCTURE),
      arr[i]? = some a → (Mp.GetProcessorInfo i).ProcessorId = a.X2ApicId)
    (h32 : ∀ a ∈ arr, a.X2ApicId < 2 ^ 32)
    (hnodup : (arr.map (fun a => a.X2ApicId)).Nodup) :
    ∃ st T2 G2 M, Madt.MadtAcpiTablePatch sort PM T = .ok (st, T2) ∧
      Ssdt.GenerateApicIdtoUidMap sort PS G = (.EFI_SUCCESS, G2) ∧
      G2.mApicIdtoUidMap = some M ∧
      (∀ e ∈ Madt.localX2ApicEntries T2, ∃ p q,
        (Ssdt.sortedMap sort PS Mp arr.length)[e.AcpiProcessorUid]? = some p ∧
        p.ProcessorId = e.X2ApicId ∧
        M[e.AcpiProcessorUid]? = some q ∧ q.ProcessorId = e.AcpiProcessorUid) ∧
      (∀ e ∈ Madt.localX2ApicEntries T2,
        ∀ d ∈ (Ssdt.InstallCpuAcpi sort PS Aml G).Devices,
        ∀ p, (Ssdt.sortedMap sort PS Mp arr.length)[d.NameIndex]? = some p →
          p.ProcessorId = e.X2ApicId → d.Uid = e.AcpiProcessorUid) := by
  obtain ⟨st, T2, h, _, _, hent, _, _⟩ :=
    Madt.MadtAcpiTablePatch_getElem? sort hs PM T N pre post arr hwf hrun hio
  have hids := sortedMap_ids sort hs PM PS Mp arr hcpuid hsock hsame h32
  have hA : ∀ e ∈ Madt.localX2ApicEntries T2, ∃ p,
      (Ssdt.sortedMap sort PS Mp arr.length)[e.AcpiProcessorUid]? = some p ∧
      p.ProcessorId = e.X2ApicId := by
    intro e he
    rw [hent] at he
    have hS := Madt.sortedWithUid_at_uid sort PM arr e
      ((Madt.collateOrSkip_perm sort hs PM arr).subset he)
    rw [Madt.sortedWithUid_getElem?] at hS
    cases hq : (sortByCcdHalves sort PM.PcdMaxCpuSocketCount (Madt.SortByCcd PM.cpuid)
        arr)[e.AcpiProcessorUid]? with
    | none => simp [hq] at hS
    | some e0 =>
      simp only [hq, Option.map_some', Option.some.injEq] at hS
      have h1 : ((sortByCcdHalves sort PM.PcdMaxCpuSocketCount (Madt.SortByCcd PM.cpuid)
          arr).map (fun e => e.X2ApicId))[e.AcpiProcessorUid]? = some e.X2ApicId := by
        rw [List.getElem?_map, hq, ← hS]
        rfl
      rw [← hids, List.getElem?_map] at h1
      cases hp : (Ssdt.sortedMap sort PS Mp arr.length)[e.AcpiProcessorUid]? with
      | none => simp [hp] at h1
      | some p =>
        simp only [hp, Option.map_some', Option.some.injEq] at h1
        exact ⟨p, rfl, h1⟩
  refine ⟨st, T2, _, _, h,
    Ssdt.GenerateApicIdtoUidMap_eq sort PS G Mp arr.length m hMp hn hpool, rfl, ?_, ?_⟩
  · intro e he
    obtain ⟨p, hp, hpid⟩ := hA e he
    refine ⟨p, { p with ProcessorId := e.AcpiProcessorUid }, hp, hpid, ?_, rfl⟩
    rw [Ssdt.assignProcessorId_getElem?, hp, Option.map_some', Nat.zero_add]
  · intro e he d hd p hp hpid
    obtain ⟨p2, hp2, hpid2⟩ := hA e he
    obtain ⟨hu, hlt⟩ := Ssdt.InstallCpuAcpi_Uid sort hs PS Aml G Mp arr.length m hMp hn hpool d hd
    have hnd : ((Ssdt.sortedMap sort PS Mp arr.length).map (fun p => p.ProcessorId)).Nodup := by
      rw [hids]
      exact ((sortByCcdHalves_perm sort hs _ _ arr).map _).nodup_iff.2 hnodup
    have hi : d.NameIndex
        < ((Ssdt.sortedMap sort PS Mp arr.length).map (fun p => p.ProcessorId)).length := by
      rw [List.length_map, Ssdt.sortedMap_length sort hs]
      exact hlt
    have heq : ((Ssdt.sortedMap sort PS Mp arr.length).map (fun p => p.ProcessorId))[d.NameIndex]?
        = ((Ssdt.sortedMap sort PS Mp arr.length).map
            (fun p => p.ProcessorId))[e.AcpiProcessorUid]? := by
      rw [List.getElem?_map, List.getElem?_map, hp, hp2]
      simp [hpid, hpid2]
    rw [hu]
    exact List.getElem?_inj hi hnd heq

/-- Witness for C1: the sample table with entries 1, 9, 4 and MP services that
report processors 1, 9, 4. -/
theorem madt_uid_eq_ssdt_uid_witness :
    ∃ st T2 G2 M, Madt.MadtAcpiTablePatch referenceSort (Sample.platform Sample.cpuid 1 true)
        (Sample.table [1, 9, 4]) = .ok (st, T2) ∧
      Ssdt.GenerateApicIdtoUidMap referenceSort (Sample.ssdtPlatform Sample.cpuid 1 [1, 9, 4])
        Sample.globals = (.EFI_SUCCESS, G2) ∧
      G2.mApicIdtoUidMap = some M ∧
      (∀ e ∈ Madt.localX2ApicEntries T2, ∃ p q,
        (Ssdt.sortedMap referenceSort (Sample.ssdtPlatform Sample.cpuid 1 [1, 9, 4])
          (Sample.mpServices [1, 9, 4])
          ([1, 9, 4].map Sample.x2apic).length)[e.AcpiProcessorUid]? = some p ∧
        p.ProcessorId = e.X2ApicId ∧
        M[e.AcpiProcessorUid]? = some q ∧ q.ProcessorId = e.AcpiProcessorUid) ∧
      (∀ e ∈ Madt.localX2ApicEntries T2,
        ∀ d ∈ (Ssdt.InstallCpuAcpi referenceSort (Sample.ssdtPlatform Sample.cpuid 1 [1, 9, 4])
          Sample.amlLib Sample.globals).Devices,
        ∀ p, (Ssdt.sortedMap referenceSort (Sample.ssdtPlatform Sample.cpuid 1 [1, 9, 4])
          (Sample.mpServices [1, 9, 4])
          ([1, 9, 4].map Sample.x2apic).length)[d.NameIndex]? = some p →
          p.ProcessorId = e.X2ApicId → d.Uid = e.AcpiProcessorUid) :=
  madt_uid_eq_ssdt_uid referenceSort referenceSort_contract
    (Sample.platform Sample.cpuid 1 true) (Sample.table [1, 9, 4]) Sample.nbioIoApic
    Sample.pre Sample.post ([1, 9, 4].map Sample.x2apic) (Madt.Sample.wellFormed_table _)
    (Madt.Sample.run_table _) (Madt.Sample.ioApicInfo _ _ _)
    (Sample.ssdtPlatform Sample.cpuid 1 [1, 9, 4]) Sample.globals (Sample.mpServices [1, 9, 4])
    3 Sample.amlLib rfl rfl rfl rfl rfl (Sample.same_ids _) (by decide) (by decide)

/-- C2: after collation the assigned UIDs are exactly 0, ..., N-1, each once:
the `AcpiProcessorUid` values of the N local-x2APIC entries after
`MadtAcpiTablePatch` are a rearrangement of 0, ..., N-1 whether or not the
partition runs, and the `ProcessorId` values `GenerateApicIdtoUidMap` writes
are 0, ..., N-1 in map order. -/
theorem assigned_uids_are_zero_to_N (sort : SortFn) (hs : SortContract sort)
    (PM : MadtPlatform) (T : MadtTable)
    (N : List EFI_ACPI_6_5_IO_APIC_STRUCTURE) (pre post : List MadtStructure)
    (arr : List EFI_ACPI_6_5_PROCESSOR_LOCAL_X2APIC_STRUCTURE)
    (hwf : Madt.WellFormed T) (hrun : Madt.LocalX2ApicRun T pre arr post)
    (hio : Madt.IoApicInfo PM N)
    (PS : SsdtPlatform) (G : CpuSsdtGlobals) (Mp : EFI_MP_SERVICES_PROTOCOL) (n m : Nat)
    (hMp : PS.MpService = some Mp) (hn : Mp.GetNumberOfProcessors = (.EFI_SUCCESS, n, m))
    (hpool : PS.poolAvailable = true) :
    (∃ st T2, Madt.MadtAcpiTablePatch sort PM T = .ok (st, T2) ∧
      (Madt.localX2ApicEntries T2).length = (Madt.localX2ApicEntries T).length ∧
      ((Madt.localX2ApicEntries T2).map (fun e => e.AcpiProcessorUid)).Perm
        (List.range (Madt.localX2ApicEntries T).length)) ∧
    (∃ G2 M, Ssdt.GenerateApicIdtoUidMap sort PS G = (.EFI_SUCCESS, G2) ∧
      G2.mApicIdtoUidMap = some M ∧ M.length = n ∧
      M.map (fun e => e.ProcessorId) = List.range n) := by
  constructor
  · obtain ⟨st, T2, h, _, _, hent, _, _⟩ :=
      Madt.MadtAcpiTablePatch_getElem? sort hs PM T N pre post arr hwf hrun hio
    refine ⟨st, T2, h, ?_, ?_⟩
    · rw [hent, Madt.localX2ApicEntries_of_run T pre post arr hrun,
        Madt.collateOrSkip_length sort hs]
    · rw [hent, Madt.localX2ApicEntries_of_run T pre post arr hrun,
        ← Madt.sortedWithUid_map_uid sort hs PM arr]
      exact (Madt.collateOrSkip_perm sort hs PM arr).map _
  · refine ⟨_, _, Ssdt.GenerateApicIdtoUidMap_eq sort PS G Mp n m hMp hn hpool, rfl, ?_, ?_⟩
    · rw [Ssdt.assignProcessorId_length, Ssdt.sortedMap_length sort hs]
    · rw [Ssdt.assignProcessorId_map, Ssdt.sortedMap_length sort hs, List.range_eq_range']

/-- Witness for C2: the sample table and MP services with processors 1, 9, 4. -/
theorem assigned_uids_are_zero_to_N_witness :
    (∃ st T2, Madt.MadtAcpiTablePatch referenceSort (Sample.platform Sample.cpuid 1 true)
        (Sample.table [1, 9, 4]) = .ok (st, T2) ∧
      (Madt.localX2ApicEntries T2).length
        = (Madt.localX2ApicEntries (Sample.table [1, 9, 4])).length ∧
      ((Madt.localX2ApicEntries T2).map (fun e => e.AcpiProcessorUid)).Perm
        (List.range (Madt.localX2ApicEntries (Sample.table [1, 9, 4])).length)) ∧
    (∃ G2 M, Ssdt.GenerateApicIdtoUidMap referenceSort
        (Sample.ssdtPlatform Sample.cpuid 1 [1, 9, 4]) Sample.globals = (.EFI_SUCCESS, G2) ∧
      G2.mApicIdtoUidMap = some M ∧ M.length = 3 ∧
      M.map (fun e => e.ProcessorId) = List.range 3) :=
  assigned_uids_are_zero_to_N referenceSort referenceSort_contract
    (Sample.platform Sample.cpuid 1 true) (Sample.table [1, 9, 4]) Sample.nbioIoApic
    Sample.pre Sample.post ([1, 9, 4].map Sample.x2apic) (Madt.Sample.wellFormed_table _)
    (Madt.Sample.run_table _) (Madt.Sample.ioApicInfo _ _ _)
    (Sample.ssdtPlatform Sample.cpuid 1 [1, 9, 4]) Sample.globals (Sample.mpServices [1, 9, 4])
    3 3 rfl rfl rfl

namespace Madt

/-- C6: in a call of `MadtAcpiTablePatch` that returns success (as it does
whenever the partition buffer can be allocated), when the second local-x2APIC
entry after the sort has an odd `X2ApicId` the final entry sequence is every
entry with even `X2ApicId`, in the order they had after the sort, followed by
every entry with odd `X2ApicId`, in the order they had after the sort; when
that entry's `X2ApicId` is even the sequence after the sort is left as it is. -/
theorem MadtAcpiTablePatch_stable_partition (sort : SortFn) (hs : SortContract sort)
    (P : MadtPlatform) (T : MadtTable)
    (N : List EFI_ACPI_6_5_IO_APIC_STRUCTURE) (pre post : List MadtStructure)
    (arr : List EFI_ACPI_6_5_PROCESSOR_LOCAL_X2APIC_STRUCTURE)
    (hwf : WellFormed T) (hrun : LocalX2ApicRun T pre arr post) (hio : IoApicInfo P N) :
    ∃ st T2, MadtAcpiTablePatch sort P T = .ok (st, T2) ∧
      (P.poolAvailable = true → st = .EFI_SUCCESS) ∧
      (st = .EFI_SUCCESS →
        (∀ e, (sortedWithUid sort P arr)[1]? = some e → e.X2ApicId % 2 = 1 →
          localX2ApicEntries T2
            = (sortedWithUid sort P arr).filter (fun x => x.X2ApicId % 2 = 0)
              ++ (sortedWithUid sort P arr).filter (fun x => x.X2ApicId % 2 = 1)) ∧
        (∀ e, (sortedWithUid sort P arr)[1]? = some e → e.X2ApicId % 2 = 0 →
          localX2ApicEntries T2 = sortedWithUid sort P arr)) := by
  obtain ⟨st, T2, h, _, _, hent, hst, _⟩ :=
    MadtAcpiTablePatch_getElem? sort hs P T N pre post arr hwf hrun hio
  refine ⟨st, T2, h, ?_, ?_⟩
  · intro hpool
    rw [hst]
    exact collateOrSkip_status_of_pool sort P arr hpool
  · intro hsucc
    refine ⟨?_, ?_⟩
    · intro e he hodd
      have hc := (collateOrSkip_of_second sort hs P arr e he).1 hodd
      rw [hc] at hst hent
      by_cases hpool : P.poolAvailable = true
      · simp only [hpool, if_true] at hent
        rw [hent, separateThreads_eq]
      · simp only [hpool, Bool.false_eq_true, if_false] at hst
        rw [hst] at hsucc
        cases hsucc
    · intro e he heven
      rw [hent, ((collateOrSkip_of_second sort hs P arr e he).2 heven)]

/-- Witness for C6 on the sample table with entries 1, 9, 4. -/
theorem MadtAcpiTablePatch_stable_partition_witness :
    ∃ st T2, MadtAcpiTablePatch referenceSort (Sample.platform Sample.cpuid 1 true)
        (Sample.table [1, 9, 4]) = .ok (st, T2) ∧
      ((Sample.platform Sample.cpuid 1 true).poolAvailable = true → st = .EFI_SUCCESS) ∧
      (st = .EFI_SUCCESS →
        (∀ e, (sortedWithUid referenceSort (Sample.platform Sample.cpuid 1 true)
              ([1, 9, 4].map Sample.x2apic))[1]? = some e → e.X2ApicId % 2 = 1 →
          localX2ApicEntries T2
            = (sortedWithUid referenceSort (Sample.platform Sample.cpuid 1 true)
                  ([1, 9, 4].map Sample.x2apic)).filter (fun x => x.X2ApicId % 2 = 0)
              ++ (sortedWithUid referenceSort (Sample.platform Sample.cpuid 1 true)
                  ([1, 9, 4].map Sample.x2apic)).filter (fun x => x.X2ApicId % 2 = 1)) ∧
        (∀ e, (sortedWithUid referenceSort (Sample.platform Sample.cpuid 1 true)
              ([1, 9, 4].map Sample.x2apic))[1]? = some e → e.X2ApicId % 2 = 0 →
          localX2ApicEntries T2
            = sortedWithUid referenceSort (Sample.platform Sample.cpuid 1 true)
                ([1, 9, 4].map Sample.x2apic))) :=
  MadtAcpiTablePatch_stable_partition referenceSort referenceSort_contract
    (Sample.platform Sample.cpuid 1 true) (Sample.table [1, 9, 4]) Sample.nbioIoApic
    Sample.pre Sample.post ([1, 9, 4].map Sample.x2apic) (Sample.wellFormed_table _)
    (Sample.run_table _) (Sample.ioApicInfo _ _ _)

/-- C3, counterexample.  Sample table with local-x2APIC entries 1, 9, 4 in that
order (CCD numbers 0, 4, 2, of ranks 0, 1, 4: already in CCD order, no two of
equal rank), one socket, partition buffer available.  Whatever sort meeting
the contract is used, the patch returns success with the entries 4, 1, 9 in
table order carrying the UIDs 2, 0, 1: the second entry after the sort is odd,
the partition runs after the UIDs are stored, and entry 4 moves to the front
with UID 2.  So no such sort makes every entry's UID its final position. -/
theorem MadtAcpiTablePatch_uid_not_final_position :
    ¬ ∃ sort : SortFn, SortContract sort ∧
      ∀ st T2, MadtAcpiTablePatch sort (Sample.platform Sample.cpuid 1 true)
          (Sample.table [1, 9, 4]) = .ok (st, T2) → st = .EFI_SUCCESS →
        ∀ (i : Nat) (e : EFI_ACPI_6_5_PROCESSOR_LOCAL_X2APIC_STRUCTURE),
          (localX2ApicEntries T2)[i]? = some e → e.AcpiProcessorUid = i := by
  rintro ⟨sort, hs, hc⟩
  obtain ⟨st, T2, h, _, _, hent, hst, _⟩ :=
    MadtAcpiTablePatch_getElem? sort hs (Sample.platform Sample.cpuid 1 true)
      (Sample.table [1, 9, 4]) Sample.nbioIoApic Sample.pre Sample.post
      ([1, 9, 4].map Sample.x2apic) (Sample.wellFormed_table _) (Sample.run_table _)
      (Sample.ioApicInfo _ _ _)
  have hcol := collateOrSkip_of_strict sort hs (Sample.platform Sample.cpuid 1 true)
    ([1, 9, 4].map Sample.x2apic) (by decide)
  have hval : collateOrSkip referenceSort (Sample.platform Sample.cpuid 1 true)
      ([1, 9, 4].map Sample.x2apic)
      = (.EFI_SUCCESS,
          [{ Sample.x2apic 4 with AcpiProcessorUid := 2 },
           { Sample.x2apic 1 with AcpiProcessorUid := 0 },
           { Sample.x2apic 9 with AcpiProcessorUid := 1 }]) := by decide
  rw [hcol, hval] at hent hst
  have := hc st T2 h hst 0 { Sample.x2apic 4 with AcpiProcessorUid := 2 } (by rw [hent]; rfl)
  exact absurd this (by decide)

/-- C3, amended: after the patch, the entry that is i-th in the array after
the sort calls has `AcpiProcessorUid` i; the partition moves the entries
together with these UIDs, so the final entries are a rearrangement of the
array after the sort with its UIDs, and the i-th entry in final table order
has UID i when the partition does not run (the second entry after the sort has
an even `X2ApicId`). -/
theorem MadtAcpiTablePatch_uid_is_sorted_position (sort : SortFn) (hs : SortContract sort)
    (P : MadtPlatform) (T : MadtTable)
    (N : List EFI_ACPI_6_5_IO_APIC_STRUCTURE) (pre post : List MadtStructure)
    (arr : List EFI_ACPI_6_5_PROCESSOR_LOCAL_X2APIC_STRUCTURE)
    (hwf : WellFormed T) (hrun : LocalX2ApicRun T pre arr post) (hio : IoApicInfo P N) :
    ∃ st T2, MadtAcpiTablePatch sort P T = .ok (st, T2) ∧
      (∀ (i : Nat) (e0 : EFI_ACPI_6_5_PROCESSOR_LOCAL_X2APIC_STRUCTURE),
        (sortByCcdHalves sort P.PcdMaxCpuSocketCount (SortByCcd P.cpuid) arr)[i]? = some e0 →
        (sortedWithUid sort P arr)[i]? = some { e0 with AcpiProcessorUid := i }) ∧
      (localX2ApicEntries T2).Perm (sortedWithUid sort P arr) ∧
      (∀ e, (sortedWithUid sort P arr)[1]? = some e → e.X2ApicId % 2 = 0 →
        ∀ (i : Nat) (x : EFI_ACPI_6_5_PROCESSOR_LOCAL_X2APIC_STRUCTURE),
          (localX2ApicEntries T2)[i]? = some x → x.AcpiProcessorUid = i) := by
  obtain ⟨st, T2, h, _, _, hent, _, _⟩ :=
    MadtAcpiTablePatch_getElem? sort hs P T N pre post arr hwf hrun hio
  refine ⟨st, T2, h, ?_, ?_, ?_⟩
  · intro i e0 he0
    rw [sortedWithUid_getElem?, he0]
    rfl
  · rw [hent]
    exact collateOrSkip_perm sort hs P arr
  · intro e he heven i x hx
    rw [hent, (collateOrSkip_of_second sort hs P arr e he).2 heven] at hx
    exact uid_of_getElem?_sortedWithUid sort P arr i x hx

/-- Witness for the amended C3 on the sample table with entries 1, 9, 4. -/
theorem MadtAcpiTablePatch_uid_is_sorted_position_witness :
    ∃ st T2, MadtAcpiTablePatch referenceSort (Sample.platform Sample.cpuid 1 true)
        (Sample.table [1, 9, 4]) = .ok (st, T2) ∧
      (∀ (i : Nat) (e0 : EFI_ACPI_6_5_PROCESSOR_LOCAL_X2APIC_STRUCTURE), (sortByCcdHalves referenceSort
            (Sample.platform Sample.cpuid 1 true).PcdMaxCpuSocketCount
            (SortByCcd (Sample.platform Sample.cpuid 1 true).cpuid)
            ([1, 9, 4].map Sample.x2apic))[i]? = some e0 →
        (sortedWithUid referenceSort (Sample.platform Sample.cpuid 1 true)
          ([1, 9, 4].map Sample.x2apic))[i]? = some { e0 with AcpiProcessorUid := i }) ∧
      (localX2ApicEntries T2).Perm
        (sortedWithUid referenceSort (Sample.platform Sample.cpuid 1 true)
          ([1, 9, 4].map Sample.x2apic)) ∧
      (∀ e, (sortedWithUid referenceSort (Sample.platform Sample.cpuid 1 true)
            ([1, 9, 4].map Sample.x2apic))[1]? = some e → e.X2ApicId % 2 = 0 →
        ∀ (i : Nat) (x : EFI_ACPI_6_5_PROCESSOR_LOCAL_X2APIC_STRUCTURE),
          (localX2ApicEntries T2)[i]? = some x → x.AcpiProcessorUid = i) :=
  MadtAcpiTablePatch_uid_is_sorted_position referenceSort referenceSort_contract
    (Sample.platform Sample.cpuid 1 true) (Sample.table [1, 9, 4]) Sample.nbioIoApic
    Sample.pre Sample.post ([1, 9, 4].map Sample.x2apic) (Sample.wellFormed_table _)
    (Sample.run_table _) (Sample.ioApicInfo _ _ _)

/-- C4, counterexample.  Sample table with local-x2APIC entries 0, 9, 16, 25 in
that order (CCD numbers 0, 4, 8, 12 of ranks 0, 1, 2, 3: already in CCD order,
no two of equal rank; two even and two odd ids), one socket, partition buffer
available.  Whatever sort meeting the contract is used, the UIDs 0, 1, 2, 3
are stored in this order, the second entry is odd, the partition runs and
leaves the entries 0, 16, 9, 25 with UIDs 0, 2, 1, 3: the primary-thread entry
16 has UID 2, outside the first half of the UID space. -/
theorem MadtAcpiTablePatch_primary_uid_not_in_first_half :
    ¬ ∃ sort : SortFn, SortContract sort ∧
      ∀ st T2, MadtAcpiTablePatch sort (Sample.platform Sample.cpuid 1 true)
          (Sample.table [0, 9, 16, 25]) = .ok (st, T2) →
        ∀ e ∈ localX2ApicEntries T2,
          (e.X2ApicId % 2 = 0 → e.AcpiProcessorUid < 4 / 2) ∧
          (e.X2ApicId % 2 = 1 → 4 / 2 ≤ e.AcpiProcessorUid ∧ e.AcpiProcessorUid < 4) := by
  rintro ⟨sort, hs, hc⟩
  obtain ⟨st, T2, h, _, _, hent, _, _⟩ :=
    MadtAcpiTablePatch_getElem? sort hs (Sample.platform Sample.cpuid 1 true)
      (Sample.table [0, 9, 16, 25]) Sample.nbioIoApic Sample.pre Sample.post
      ([0, 9, 16, 25].map Sample.x2apic) (Sample.wellFormed_table _) (Sample.run_table _)
      (Sample.ioApicInfo _ _ _)
  have hcol := collateOrSkip_of_strict sort hs (Sample.platform Sample.cpuid 1 true)
    ([0, 9, 16, 25].map Sample.x2apic) (by decide)
  have hval : collateOrSkip referenceSort (Sample.platform Sample.cpuid 1 true)
      ([0, 9, 16, 25].map Sample.x2apic)
      = (.EFI_SUCCESS,
          [{ Sample.x2apic 0 with AcpiProcessorUid := 0 },
           { Sample.x2apic 16 with AcpiProcessorUid := 2 },
           { Sample.x2apic 9 with AcpiProcessorUid := 1 },
           { Sample.x2apic 25 with AcpiProcessorUid := 3 }]) := by decide
  rw [hcol, hval] at hent
  have := (hc st T2 h { Sample.x2apic 16 with AcpiProcessorUid := 2 }
    (by rw [hent]; decide)).1 (by decide)
  exact absurd this (by decide)

/-- C4, amended: when the partition runs (the second entry after the sort has
an odd `X2ApicId` and the buffer is allocated) over N local-x2APIC entries,
half with even and half with odd `X2ApicId`, then after the patch every
primary-thread entry is at a position in [0, N/2) of the local-x2APIC entries
and every secondary-thread entry at a position in [N/2, N), and each entry
carries as UID the position it had in the array after the sort. -/
theorem MadtAcpiTablePatch_primary_threads_first (sort : SortFn) (hs : SortContract sort)
    (P : MadtPlatform) (T : MadtTable)
    (N : List EFI_ACPI_6_5_IO_APIC_STRUCTURE) (pre post : List MadtStructure)
    (arr : List EFI_ACPI_6_5_PROCESSOR_LOCAL_X2APIC_STRUCTURE)
    (hwf : WellFormed T) (hrun : LocalX2ApicRun T pre arr post) (hio : IoApicInfo P N)
    (hpool : P.poolAvailable = true)
    (e : EFI_ACPI_6_5_PROCESSOR_LOCAL_X2APIC_STRUCTURE)
    (hsecond : (sortedWithUid sort P arr)[1]? = some e) (hodd : e.X2ApicId % 2 = 1)
    (hhalf : 2 * arr.countP (fun x => x.X2ApicId % 2 = 0) = arr.length) :
    ∃ T2, MadtAcpiTablePatch sort P T = .ok (.EFI_SUCCESS, T2) ∧
      (localX2ApicEntries T2).length = arr.length ∧
      ∀ (i : Nat) (x : EFI_ACPI_6_5_PROCESSOR_LOCAL_X2APIC_STRUCTURE),
        (localX2ApicEntries T2)[i]? = some x →
          (x.X2ApicId % 2 = 0 → i < arr.length / 2) ∧
          (x.X2ApicId % 2 = 1 → arr.length / 2 ≤ i ∧ i < arr.length) ∧
          (sortedWithUid sort P arr)[x.AcpiProcessorUid]? = some x := by
  obtain ⟨st, T2, h, _, _, hent, hst, _⟩ :=
    MadtAcpiTablePatch_getElem? sort hs P T N pre post arr hwf hrun hio
  have hcol := (collateOrSkip_of_pool sort hs P arr e hsecond).1 hodd hpool
  rw [hcol] at hent hst
  simp only at hent hst
  subst hst
  have hlen : (localX2ApicEntries T2).length = arr.length := by
    rw [hent, (separateThreads_perm _).length_eq, sortedWithUid_length sort hs]
  refine ⟨T2, h, hlen, ?_⟩
  intro i x hx
  have hi : i < arr.length := by
    rw [← hlen]
    exact (List.getElem?_eq_some_iff.1 hx).1
  have hmem : x ∈ sortedWithUid sort P arr := by
    have : x ∈ localX2ApicEntries T2 := List.getElem?_mem hx
    rw [hent] at this
    exact (separateThreads_perm _).subset this
  have hFe : ((sortedWithUid sort P arr).filter (fun x => x.X2ApicId % 2 = 0)).length
      = arr.length / 2 := by
    rw [← List.countP_eq_length_filter, countP_even_sortedWithUid sort hs]
    omega
  rw [hent, separateThreads_eq] at hx
  refine ⟨?_, ?_, sortedWithUid_at_uid sort P arr x hmem⟩
  · intro heven
    by_contra hge
    rw [List.getElem?_append_right (by rw [hFe]; omega)] at hx
    have := List.of_mem_filter (List.getElem?_mem hx)
    simp only [decide_eq_true_eq] at this
    omega
  · intro hodd2
    refine ⟨?_, hi⟩
    by_contra hlt
    rw [List.getElem?_append_left (by rw [hFe]; omega)] at hx
    have := List.of_mem_filter (List.getElem?_mem hx)
    simp only [decide_eq_true_eq] at this
    omega

/-- Witness for the amended C4 on the sample table with entries 0, 9, 16, 25. -/
theorem MadtAcpiTablePatch_primary_threads_first_witness :
    ∃ T2, MadtAcpiTablePatch referenceSort (Sample.platform Sample.cpuid 1 true)
        (Sample.table [0, 9, 16, 25]) = .ok (.EFI_SUCCESS, T2) ∧
      (localX2ApicEntries T2).length = ([0, 9, 16, 25].map Sample.x2apic).length ∧
      ∀ (i : Nat) (x : EFI_ACPI_6_5_PROCESSOR_LOCAL_X2APIC_STRUCTURE),
        (localX2ApicEntries T2)[i]? = some x →
          (x.X2ApicId % 2 = 0 → i < ([0, 9, 16, 25].map Sample.x2apic).length / 2) ∧
          (x.X2ApicId % 2 = 1 → ([0, 9, 16, 25].map Sample.x2apic).length / 2 ≤ i ∧
            i < ([0, 9, 16, 25].map Sample.x2apic).length) ∧
          (sortedWithUid referenceSort (Sample.platform Sample.cpuid 1 true)
            ([0, 9, 16, 25].map Sample.x2apic))[x.AcpiProcessorUid]? = some x :=
  MadtAcpiTablePatch_primary_threads_first referenceSort referenceSort_contract
    (Sample.platform Sample.cpuid 1 true) (Sample.table [0, 9, 16, 25]) Sample.nbioIoApic
    Sample.pre Sample.post ([0, 9, 16, 25].map Sample.x2apic) (Sample.wellFormed_table _)
    (Sample.run_table _) (Sample.ioApicInfo _ _ _) rfl
    { Sample.x2apic 9 with AcpiProcessorUid := 1 } (by decide) (by decide) (by decide)

theorem sortByCcdHalves_first_half (sort : SortFn) (hs : SortContract sort) (n : Nat)
    {α : Type} (cmp : α → α → Int) (buf : List α) (hn : 1 < n) (a : α)
    (ha : a ∈ buf.take (buf.length / 2)) :
    ∃ k, k < buf.length / 2 ∧ (sortByCcdHalves sort n cmp buf)[k]? = some a := by
  have hp := hs.perm α cmp (buf.take (buf.length / 2))
  obtain ⟨k, hk⟩ := List.getElem?_of_mem (hp.symm.subset ha)
  have hlt : k < (sort α cmp (buf.take (buf.length / 2))).length :=
    (List.getElem?_eq_some_iff.1 hk).1
  refine ⟨k, ?_, ?_⟩
  · rw [hp.length_eq, List.length_take] at hlt
    omega
  · unfold sortByCcdHalves
    rw [if_pos hn, List.append_assoc, List.getElem?_append_left hlt]
    exact hk

/-- C5, counterexample.  The 2 x 2 x 2 x 2 scenario: sixteen local-x2APIC
entries with ids 0..15 in this order, widths SMT 1, core 2, CCD 3, two sockets
configured, partition buffer available.  Whatever sort meeting the contract is
used, entry 1 (the second thread of the first CCD-0 core, an odd id) lies in
the first half of the array, which is sorted on its own, so it gets one of the
UIDs 0..7 and keeps it through the partition: it does not get UID 8 and odd
ids are not confined to UIDs 8..15. -/
theorem MadtAcpiTablePatch_scenario_uid_not_split :
    ¬ ∃ sort : SortFn, SortContract sort ∧
      ∀ st T2, MadtAcpiTablePatch sort (Sample.platform Sample.cpuid16 2 true)
          (Sample.table (List.range 16)) = .ok (st, T2) →
        ∀ e ∈ localX2ApicEntries T2,
          (e.X2ApicId = 0 → e.AcpiProcessorUid = 0) ∧
          (e.X2ApicId = 1 → e.AcpiProcessorUid = 8) ∧
          (e.X2ApicId % 2 = 0 → e.AcpiProcessorUid < 8) ∧
          (e.X2ApicId % 2 = 1 → 8 ≤ e.AcpiProcessorUid ∧ e.AcpiProcessorUid < 16) := by
  rintro ⟨sort, hs, hc⟩
  obtain ⟨st, T2, h, _, _, hent, _, _⟩ :=
    MadtAcpiTablePatch_getElem? sort hs (Sample.platform Sample.cpuid16 2 true)
      (Sample.table (List.range 16)) Sample.nbioIoApic Sample.pre Sample.post
      ((List.range 16).map Sample.x2apic) (Sample.wellFormed_table _) (Sample.run_table _)
      (Sample.ioApicInfo _ _ _)
  obtain ⟨k, hk, hget⟩ := sortByCcdHalves_first_half sort hs
    (Sample.platform Sample.cpuid16 2 true).PcdMaxCpuSocketCount
    (SortByCcd (Sample.platform Sample.cpuid16 2 true).cpuid)
    ((List.range 16).map Sample.x2apic) (by decide) (Sample.x2apic 1) (by decide)
  have hS : (sortedWithUid sort (Sample.platform Sample.cpuid16 2 true)
      ((List.range 16).map Sample.x2apic))[k]?
      = some { Sample.x2apic 1 with AcpiProcessorUid := k } := by
    rw [sortedWithUid_getElem?, hget]
    rfl
  have hmem : { Sample.x2apic 1 with AcpiProcessorUid := k } ∈ localX2ApicEntries T2 := by
    rw [hent]
    exact (collateOrSkip_perm sort hs _ _).symm.subset (List.getElem?_mem hS)
  have := ((hc st T2 h _ hmem).2.2.2 rfl).1
  have hk8 : k < 8 := by simpa using hk
  exact absurd this (by simp only; omega)

/-- C5, amended: in the 2 x 2 x 2 x 2 scenario, with a sort that leaves a buffer
already in CCD order as it is, every entry gets its identifier as UID (the two
halves are already in CCD order), so the two threads of the first CCD-0 core
get UIDs 0 and 1; the partition then puts every even-identifier entry at a
position in [0,8) and every odd-identifier entry at a position in [8,16), the
two threads of the first CCD-0 core at positions 0 and 8.  The pairs are
(X2ApicId, AcpiProcessorUid) in final table order. -/
theorem MadtAcpiTablePatch_scenario_entries (sort : SortFn) (hs : SortContract sort)
    (hk : KeepsOrdered sort) :
    ∃ T2, MadtAcpiTablePatch sort (Sample.platform Sample.cpuid16 2 true)
        (Sample.table (List.range 16)) = .ok (.EFI_SUCCESS, T2) ∧
      (localX2ApicEntries T2).map (fun e => (e.X2ApicId, e.AcpiProcessorUid))
        = [(0, 0), (2, 2), (4, 4), (6, 6), (8, 8), (10, 10), (12, 12), (14, 14),
           (1, 1), (3, 3), (5, 5), (7, 7), (9, 9), (11, 11), (13, 13), (15, 15)] := by
  obtain ⟨st, T2, h, _, _, hent, hst, _⟩ :=
    MadtAcpiTablePatch_getElem? sort hs (Sample.platform Sample.cpuid16 2 true)
      (Sample.table (List.range 16)) Sample.nbioIoApic Sample.pre Sample.post
      ((List.range 16).map Sample.x2apic) (Sample.wellFormed_table _) (Sample.run_table _)
      (Sample.ioApicInfo _ _ _)
  have hcol : collateOrSkip sort (Sample.platform Sample.cpuid16 2 true)
      ((List.range 16).map Sample.x2apic)
      = collateOrSkip referenceSort (Sample.platform Sample.cpuid16 2 true)
          ((List.range 16).map Sample.x2apic) := by
    apply collateOrSkip_congr
    rw [sortByCcdHalves_eq_self_of_ordered sort hk _ _ _ (by decide) (by decide)
        (Or.inr (by decide)),
      sortByCcdHalves_eq_self_of_ordered referenceSort referenceSort_keepsOrdered _ _ _
        (by decide) (by decide) (Or.inr (by decide))]
  rw [hcol] at hent hst
  have hst2 : st = .EFI_SUCCESS := by rw [hst]; decide
  subst hst2
  refine ⟨T2, h, ?_⟩
  rw [hent]
  decide

/-- Witness for the amended C5 with the reference sort. -/
theorem MadtAcpiTablePatch_scenario_entries_witness :
    ∃ T2, MadtAcpiTablePatch referenceSort (Sample.platform Sample.cpuid16 2 true)
        (Sample.table (List.range 16)) = .ok (.EFI_SUCCESS, T2) ∧
      (localX2ApicEntries T2).map (fun e => (e.X2ApicId, e.AcpiProcessorUid))
        = [(0, 0), (2, 2), (4, 4), (6, 6), (8, 8), (10, 10), (12, 12), (14, 14),
           (1, 1), (3, 3), (5, 5), (7, 7), (9, 9), (11, 11), (13, 13), (15, 15)] :=
  MadtAcpiTablePatch_scenario_entries referenceSort referenceSort_contract
    referenceSort_keepsOrdered

end Madt

/-! ## Lemmas: the widths the decoder uses -/

theorem readLevels_eq_foldl (cpuid : Cpuid) :
    ∀ (count Index : Nat) (Bits : List Nat),
      readLevels cpuid count Index Bits =
        (enumeratedLevels cpuid count Index).foldl (fun B p => B.set p.1 p.2) Bits := by
  intro count
  induction count with
  | zero => intro _ _; rfl
  | succ n ih =>
    intro Index Bits
    unfold readLevels enumeratedLevels
    split
    · rfl
    · rw [ih]; rfl

theorem enumeratedLevels_ne_invalid (cpuid : Cpuid) :
    ∀ (count Index : Nat), ∀ p ∈ enumeratedLevels cpuid count Index,
      p.1 ≠ 0 ∧ p.2 < 32 := by
  intro count
  induction count with
  | zero => intro _ p h; simp [enumeratedLevels] at h
  | succ n ih =>
    intro Index p h
    unfold enumeratedLevels at h
    split at h
    · simp at h
    · rename_i hne
      rcases List.mem_cons.1 h with rfl | h
      · exact ⟨hne, Nat.mod_lt _ (by decide)⟩
      · exact ih _ p h

theorem foldl_set_length (levels : List (Nat × Nat)) :
    ∀ B : List Nat, (levels.foldl (fun B p => B.set p.1 p.2) B).length = B.length := by
  induction levels with
  | nil => intro _; rfl
  | cons p rest ih => intro B; simp [ih]

theorem foldl_set_getD (L : Nat) (levels : List (Nat × Nat)) :
    ∀ (B : List Nat) (w : Option Nat), L < B.length → B.getD L 0 = w.getD 0 →
      (levels.foldl (fun B p => B.set p.1 p.2) B).getD L 0 =
        ((levels.foldl (fun w p => if p.1 = L then some p.2 else w) w)).getD 0 := by
  induction levels with
  | nil => intro B w _ h; simpa using h
  | cons p rest ih =>
    intro B w hL h
    simp only [List.foldl_cons]
    apply ih
    · simpa using hL
    · by_cases hp : p.1 = L
      · subst hp
        simp [List.getD_eq_getElem?_getD, List.getElem?_set, hL]
      · simp only [hp, if_false]
        rw [← h]
        simp [List.getD_eq_getElem?_getD, List.getElem?_set, hp]

theorem foldl_width_lt (L : Nat) (levels : List (Nat × Nat)) (h : ∀ p ∈ levels, p.2 < 32) :
    ∀ w : Option Nat, w.getD 0 < 32 →
      ((levels.foldl (fun w p => if p.1 = L then some p.2 else w) w)).getD 0 < 32 := by
  induction levels with
  | nil => intro w hw; simpa using hw
  | cons p rest ih =>
    intro w hw
    simp only [List.foldl_cons]
    apply ih (fun q hq => h q (List.mem_cons_of_mem _ hq))
    by_cases hp : p.1 = L
    · simp [hp, h p (List.mem_cons_self _ _)]
    · simpa [hp] using hw

theorem foldl_width_none (L : Nat) (levels : List (Nat × Nat)) (h : ∀ p ∈ levels, p.1 ≠ L) :
    ∀ w : Option Nat,
      (levels.foldl (fun w p => if p.1 = L then some p.2 else w) w) = w := by
  induction levels with
  | nil => intro w; rfl
  | cons p rest ih =>
    intro w
    simp only [List.foldl_cons, h p (List.mem_cons_self _ _), if_false]
    exact ih (fun q hq => h q (List.mem_cons_of_mem _ hq)) w

theorem reportedWidth_lt (cpuid : Cpuid) (L : Nat) : (reportedWidth cpuid L).getD 0 < 32 :=
  foldl_width_lt L _ (fun p hp => (enumeratedLevels_ne_invalid cpuid 7 0 p hp).2) none
    (by decide)

theorem reportedWidth_zero (cpuid : Cpuid) : reportedWidth cpuid 0 = none :=
  foldl_width_none 0 _ (fun p hp => (enumeratedLevels_ne_invalid cpuid 7 0 p hp).1) none

/-- The array `Bits` after the CPUID loop. -/
theorem readLevels_eq (cpuid : Cpuid) :
    readLevels cpuid 7 0 [0, 0, 0, 0, 0, 0, 0] =
      [0, (reportedWidth cpuid 1).getD 0, (reportedWidth cpuid 2).getD 0,
        (reportedWidth cpuid 3).getD 0, (reportedWidth cpuid 4).getD 0,
        (reportedWidth cpuid 5).getD 0, (reportedWidth cpuid 6).getD 0] := by
  have hlen : (readLevels cpuid 7 0 [0, 0, 0, 0, 0, 0, 0]).length = 7 := by
    rw [readLevels_eq_foldl, foldl_set_length]; rfl
  have hget : ∀ L, L < 7 → (readLevels cpuid 7 0 [0, 0, 0, 0, 0, 0, 0]).getD L 0
      = (reportedWidth cpuid L).getD 0 := by
    intro L hL
    rw [readLevels_eq_foldl]
    apply foldl_set_getD L _ _ none (by simpa using hL)
    interval_cases L <;> rfl
  have h0 := hget 0 (by decide)
  rw [reportedWidth_zero] at h0
  have h1 := hget 1 (by decide)
  have h2 := hget 2 (by decide)
  have h3 := hget 3 (by decide)
  have h4 := hget 4 (by decide)
  have h5 := hget 5 (by decide)
  have h6 := hget 6 (by decide)
  generalize readLevels cpuid 7 0 [0, 0, 0, 0, 0, 0, 0] = R at *
  match R, hlen with
  | [r0, r1, r2, r3, r4, r5, r6], _ =>
    simp only [List.getD_cons_zero, List.getD_cons_succ, Option.getD_none] at h0 h1 h2 h3 h4 h5 h6
    rw [h0, h1, h2, h3, h4, h5, h6]

theorem effectiveWidth_succ (cpuid : Cpuid) (L : Nat) (h : L ≠ 5) :
    effectiveWidth cpuid (L + 1) =
      if (reportedWidth cpuid (L + 1)).getD 0 = 0 then effectiveWidth cpuid L
      else (reportedWidth cpuid (L + 1)).getD 0 := by
  rw [effectiveWidth]
  simp only [AMD_CPUID_V2_EXTENDED_TOPOLOGY_LEVEL_TYPE_DIE, h, if_false]
  cases reportedWidth cpuid (L + 1) with
  | none => simp
  | some w => simp

theorem effectiveWidth_six (cpuid : Cpuid) :
    effectiveWidth cpuid 6 = effectiveWidth cpuid 5 + 1 := by
  rw [effectiveWidth]
  simp [AMD_CPUID_V2_EXTENDED_TOPOLOGY_LEVEL_TYPE_DIE]

/-- The array `Bits` before the output loop holds the effective widths. -/
theorem topologyBits_eq (cpuid : Cpuid) :
    topologyBits cpuid =
      [0, effectiveWidth cpuid 1, effectiveWidth cpuid 2, effectiveWidth cpuid 3,
        effectiveWidth cpuid 4, effectiveWidth cpuid 5, effectiveWidth cpuid 6] := by
  have e1 := effectiveWidth_succ cpuid 0 (by decide)
  have e2 := effectiveWidth_succ cpuid 1 (by decide)
  have e3 := effectiveWidth_succ cpuid 2 (by decide)
  have e4 := effectiveWidth_succ cpuid 3 (by decide)
  have e5 := effectiveWidth_succ cpuid 4 (by decide)
  have e6 := effectiveWidth_six cpuid
  have e0 : effectiveWidth cpuid 0 = 0 := rfl
  simp only [Nat.zero_add, Nat.reduceAdd] at e1 e2 e3 e4 e5
  rw [e0] at e1
  rw [e6, e5, e4, e3, e2, e1]
  unfold topologyBits
  rw [readLevels_eq]
  generalize (reportedWidth cpuid 1).getD 0 = r1
  generalize (reportedWidth cpuid 2).getD 0 = r2
  generalize (reportedWidth cpuid 3).getD 0 = r3
  generalize (reportedWidth cpuid 4).getD 0 = r4
  generalize (reportedWidth cpuid 5).getD 0 = r5
  generalize (reportedWidth cpuid 6).getD 0 = r6
  simp only [inheritLevels, CPUID_EXTENDED_TOPOLOGY_LEVEL_TYPE_CORE,
    AMD_CPUID_V2_EXTENDED_TOPOLOGY_LEVEL_TYPE_DIE, List.range', List.foldl_cons, List.foldl_nil,
    Nat.reduceAdd, Nat.reduceSub]
  have k1 : (if r1 = 0 then 0 else r1) = r1 := by
    split
    · rename_i h; exact h.symm
    · rfl
  simp only [k1]
  by_cases h2 : r2 = 0 <;> by_cases h3 : r3 = 0 <;> by_cases h4 : r4 = 0 <;>
    by_cases h5 : r5 = 0 <;> by_cases h6 : r6 = 0 <;>
    simp only [h2, h3, h4, h5, h6, List.getD_cons_zero, List.getD_cons_succ, List.set_cons_zero,
      List.set_cons_succ, if_true, if_false, eq_self_iff_true]

theorem effectiveWidth_lt (cpuid : Cpuid) : ∀ L, L ≤ 5 → effectiveWidth cpuid L < 32 := by
  intro L
  induction L with
  | zero => intro _; exact Nat.zero_lt_succ _
  | succ n ih =>
    intro h
    rw [effectiveWidth_succ cpuid n (by omega)]
    split
    · exact ih (by omega)
    · exact reportedWidth_lt cpuid _

/-! ## Lemmas: the mask-and-shift of the decoder -/

theorem maskShift32_eq (apicId wL wBelow : Nat) (h : wL < 32) :
    maskShift32 apicId wL wBelow = apicId % 2 ^ wL / 2 ^ wBelow := by
  unfold maskShift32
  have h1 : (1 <<< wL) % 2 ^ 32 = 2 ^ wL := by
    rw [Nat.one_shiftLeft]
    exact Nat.mod_eq_of_lt (Nat.pow_lt_pow_right (by decide) h)
  have h2 : (2 ^ wL + 2 ^ 32 - 1) % 2 ^ 32 = 2 ^ wL - 1 := by
    have hpos : 0 < 2 ^ wL := Nat.two_pow_pos _
    have hlt : 2 ^ wL < 2 ^ 32 := Nat.pow_lt_pow_right (by decide) h
    rw [show 2 ^ wL + 2 ^ 32 - 1 = (2 ^ wL - 1) + 2 ^ 32 by omega, Nat.add_mod_right]
    exact Nat.mod_eq_of_lt (by omega)
  rw [h1, h2, Nat.and_pow_two_sub_one_eq_mod, Nat.shiftRight_eq_div_pow]

theorem maskShift32_same (apicId w : Nat) (h : w < 32) : maskShift32 apicId w w = 0 := by
  rw [maskShift32_eq apicId w w h]
  exact Nat.div_eq_of_lt (Nat.mod_lt _ (Nat.two_pow_pos _))

/-- The value the output loop computes for a level is the mask-and-shift of the
effective widths of the level and of the level below. -/
theorem locationField_topologyBits (cpuid : Cpuid) (InitialApicId L : Nat) (h1 : 1 ≤ L)
    (h6 : L ≤ 6) :
    locationField (topologyBits cpuid) InitialApicId L =
      maskShift32 InitialApicId (effectiveWidth cpuid L) (effectiveWidth cpuid (L - 1)) := by
  rw [topologyBits_eq]
  interval_cases L <;> rfl

/-- A level that is not reported has the effective width of the level below. -/
theorem effectiveWidth_unreported (cpuid : Cpuid) (L : Nat) (h1 : 1 ≤ L) (h5 : L ≤ 5)
    (h : reportedWidth cpuid L = none) :
    effectiveWidth cpuid L = effectiveWidth cpuid (L - 1) := by
  obtain ⟨n, rfl⟩ : ∃ n, L = n + 1 := ⟨L - 1, by omega⟩
  rw [effectiveWidth_succ cpuid n (by omega), h]
  simp

theorem locationField_unreported (cpuid : Cpuid) (InitialApicId L : Nat) (h1 : 1 ≤ L)
    (h5 : L ≤ 5) (h : reportedWidth cpuid L = none) :
    locationField (topologyBits cpuid) InitialApicId L = 0 := by
  rw [locationField_topologyBits cpuid InitialApicId L h1 (by omega),
    effectiveWidth_unreported cpuid L h1 h5 h]
  exact maskShift32_same _ _ (effectiveWidth_lt cpuid _ (by omega))

/-! ## Claims about the topology decoder -/

/-- C12, as stated, fails: with CPUID answers that report the SMT level with
width 1, the core level with width 0 and the complex level with width 3, the
decoder lets the core level take the width 1 of the SMT level, so for APIC id 1
it returns complex number `(1 & 7) >> 1 = 0`, while the formula with the
reported core width 0 gives `(1 & 7) >> 0 = 1`. -/
theorem AmdGetProcessorLocation2ByApicId_reported_width_zero :
    reportedWidth Sample.cpuidCoreWidth0 2 = some 0 ∧
    (AmdGetProcessorLocation2ByApicId Sample.cpuidCoreWidth0 1 allOutputs).Complex = some 0 ∧
    maskShift32 1 (claimedWidth Sample.cpuidCoreWidth0 3)
      (claimedWidth Sample.cpuidCoreWidth0 2) = 1 ∧
    ¬ ((AmdGetProcessorLocation2ByApicId Sample.cpuidCoreWidth0 1 allOutputs).Complex =
      some (maskShift32 1 (claimedWidth Sample.cpuidCoreWidth0 3)
        (claimedWidth Sample.cpuidCoreWidth0 2))) := by
  decide

/-- C12, amended: for every APIC id and all CPUID answers, each of the fields
thread, core, complex, CCD and package that `AmdGetProcessorLocation2ByApicId`
writes equals `(apicId & ((1 << w_L) - 1)) >> w_(L-1)` in 32-bit unsigned
arithmetic, where the width of a level is its last reported width when that is
not 0 and otherwise (not reported, or reported with width 0) the width of the
next lower level, the package width is the die width plus one, and the width
below the SMT level is 0; every one of these widths up to the die level is
below 32. -/
theorem AmdGetProcessorLocation2ByApicId_fields (cpuid : Cpuid) (InitialApicId : Nat)
    (req : LocationRequest) :
    (AmdGetProcessorLocation2ByApicId cpuid InitialApicId req).Thread =
      (if req.Thread then
        some (maskShift32 InitialApicId (effectiveWidth cpuid 1) (effectiveWidth cpuid 0))
      else none) ∧
    (AmdGetProcessorLocation2ByApicId cpuid InitialApicId req).Core =
      (if req.Core then
        some (maskShift32 InitialApicId (effectiveWidth cpuid 2) (effectiveWidth cpuid 1))
      else none) ∧
    (AmdGetProcessorLocation2ByApicId cpuid InitialApicId req).Complex =
      (if req.Complex then
        some (maskShift32 InitialApicId (effectiveWidth cpuid 3) (effectiveWidth cpuid 2))
      else none) ∧
    (AmdGetProcessorLocation2ByApicId cpuid InitialApicId req).Ccd =
      (if req.Ccd then
        some (maskShift32 InitialApicId (effectiveWidth cpuid 4) (effectiveWidth cpuid 3))
      else none) ∧
    (AmdGetProcessorLocation2ByApicId cpuid InitialApicId req).Package =
      (if req.Package then
        some (maskShift32 InitialApicId (effectiveWidth cpuid 6) (effectiveWidth cpuid 5))
      else none) ∧
    effectiveWidth cpuid 6 = effectiveWidth cpuid 5 + 1 ∧
    effectiveWidth cpuid 0 = 0 ∧
    (∀ L, L ≤ 5 → effectiveWidth cpuid L < 32) := by
  refine ⟨?_, ?_, ?_, ?_, ?_, effectiveWidth_six cpuid, rfl, effectiveWidth_lt cpuid⟩
  · simp only [AmdGetProcessorLocation2ByApicId, CPUID_EXTENDED_TOPOLOGY_LEVEL_TYPE_SMT]
    rw [locationField_topologyBits cpuid InitialApicId 1 (by decide) (by decide)]
  · simp only [AmdGetProcessorLocation2ByApicId, CPUID_EXTENDED_TOPOLOGY_LEVEL_TYPE_CORE]
    rw [locationField_topologyBits cpuid InitialApicId 2 (by decide) (by decide)]
  · simp only [AmdGetProcessorLocation2ByApicId, AMD_CPUID_V2_EXTENDED_TOPOLOGY_LEVEL_TYPE_CCX]
    rw [locationField_topologyBits cpuid InitialApicId 3 (by decide) (by decide)]
  · simp only [AmdGetProcessorLocation2ByApicId, AMD_CPUID_V2_EXTENDED_TOPOLOGY_LEVEL_TYPE_CCD]
    rw [locationField_topologyBits cpuid InitialApicId 4 (by decide) (by decide)]
  · simp only [AmdGetProcessorLocation2ByApicId, AMD_CPUID_V2_EXTENDED_TOPOLOGY_LEVEL_TYPE_DIE]
    rw [locationField_topologyBits cpuid InitialApicId 6 (by decide) (by decide)]

/-- Witness for the amended C12: with the answers of the counterexample, the
complex number of APIC id 1 is the mask-and-shift with widths 3 and 1, which
is 0. -/
theorem AmdGetProcessorLocation2ByApicId_fields_witness :
    (AmdGetProcessorLocation2ByApicId Sample.cpuidCoreWidth0 1 allOutputs).Complex =
      (if allOutputs.Complex then
        some (maskShift32 1 (effectiveWidth Sample.cpuidCoreWidth0 3)
          (effectiveWidth Sample.cpuidCoreWidth0 2))
      else none) ∧
    effectiveWidth Sample.cpuidCoreWidth0 3 = 3 ∧ effectiveWidth Sample.cpuidCoreWidth0 2 = 1 :=
  ⟨(AmdGetProcessorLocation2ByApicId_fields Sample.cpuidCoreWidth0 1 allOutputs).2.2.1,
    by decide, by decide⟩

/-- C13: for every APIC id and all CPUID answers, the die output of
`AmdGetProcessorLocation2ByApicId` is 0 when the caller asks for it, whatever
width the answers report for the die level. -/
theorem AmdGetProcessorLocation2ByApicId_die_zero (cpuid : Cpuid) (InitialApicId : Nat)
    (req : LocationRequest) (h : req.Die = true) :
    (AmdGetProcessorLocation2ByApicId cpuid InitialApicId req).Die = some 0 := by
  simp [AmdGetProcessorLocation2ByApicId, h]

/-- Witness for C13: CPUID answers that report a die level of width 6 above a
CCD level of width 4, so that bits 5:4 of the APIC id 0x7F would be die
number 3; the die output is 0. -/
theorem AmdGetProcessorLocation2ByApicId_die_zero_witness :
    allOutputs.Die = true ∧
    locationField (topologyBits Sample.cpuidDie) 0x7F
      AMD_CPUID_V2_EXTENDED_TOPOLOGY_LEVEL_TYPE_DIE = 3 ∧
    (AmdGetProcessorLocation2ByApicId Sample.cpuidDie 0x7F allOutputs).Die = some 0 :=
  ⟨rfl, by decide, AmdGetProcessorLocation2ByApicId_die_zero Sample.cpuidDie 0x7F allOutputs rfl⟩

/-- C14: `AmdGetProcessorLocation2ByApicId` has no failure path: for all CPUID
answers and every APIC id it writes every output the caller asks for.  For a
level among SMT, core, complex and CCD that no sub-leaf read by the decoder
reports, the value written is 0, and the width `Bits[L]` of such a level (also
of the die level) is the width `Bits[L - 1]` of the next lower level. -/
theorem AmdGetProcessorLocation2ByApicId_unreported_level (cpuid : Cpuid)
    (InitialApicId : Nat) (req : LocationRequest) :
    ((AmdGetProcessorLocation2ByApicId cpuid InitialApicId req).Package.isSome = req.Package ∧
      (AmdGetProcessorLocation2ByApicId cpuid InitialApicId req).Die.isSome = req.Die ∧
      (AmdGetProcessorLocation2ByApicId cpuid InitialApicId req).Ccd.isSome = req.Ccd ∧
      (AmdGetProcessorLocation2ByApicId cpuid InitialApicId req).Complex.isSome = req.Complex ∧
      (AmdGetProcessorLocation2ByApicId cpuid InitialApicId req).Core.isSome = req.Core ∧
      (AmdGetProcessorLocation2ByApicId cpuid InitialApicId req).Thread.isSome = req.Thread) ∧
    (reportedWidth cpuid CPUID_EXTENDED_TOPOLOGY_LEVEL_TYPE_SMT = none →
      (AmdGetProcessorLocation2ByApicId cpuid InitialApicId req).Thread =
        if req.Thread then some 0 else none) ∧
    (reportedWidth cpuid CPUID_EXTENDED_TOPOLOGY_LEVEL_TYPE_CORE = none →
      (AmdGetProcessorLocation2ByApicId cpuid InitialApicId req).Core =
        if req.Core then some 0 else none) ∧
    (reportedWidth cpuid AMD_CPUID_V2_EXTENDED_TOPOLOGY_LEVEL_TYPE_CCX = none →
      (AmdGetProcessorLocation2ByApicId cpuid InitialApicId req).Complex =
        if req.Complex then some 0 else none) ∧
    (reportedWidth cpuid AMD_CPUID_V2_EXTENDED_TOPOLOGY_LEVEL_TYPE_CCD = none →
      (AmdGetProcessorLocation2ByApicId cpuid InitialApicId req).Ccd =
        if req.Ccd then some 0 else none) ∧
    (∀ L, 1 ≤ L → L ≤ 5 → reportedWidth cpuid L = none →
      (topologyBits cpuid).getD L 0 = (topologyBits cpuid).getD (L - 1) 0) := by
  refine ⟨⟨?_, ?_, ?_, ?_, ?_, ?_⟩, ?_, ?_, ?_, ?_, ?_⟩
  · cases h : req.Package <;> simp [AmdGetProcessorLocation2ByApicId, h]
  · cases h : req.Die <;> simp [AmdGetProcessorLocation2ByApicId, h]
  · cases h : req.Ccd <;> simp [AmdGetProcessorLocation2ByApicId, h]
  · cases h : req.Complex <;> simp [AmdGetProcessorLocation2ByApicId, h]
  · cases h : req.Core <;> simp [AmdGetProcessorLocation2ByApicId, h]
  · cases h : req.Thread <;> simp [AmdGetProcessorLocation2ByApicId, h]
  · intro h
    simp only [AmdGetProcessorLocation2ByApicId]
    rw [locationField_unreported cpuid InitialApicId _ (by decide) (by decide) h]
  · intro h
    simp only [AmdGetProcessorLocation2ByApicId]
    rw [locationField_unreported cpuid InitialApicId _ (by decide) (by decide) h]
  · intro h
    simp only [AmdGetProcessorLocation2ByApicId]
    rw [locationField_unreported cpuid InitialApicId _ (by decide) (by decide) h]
  · intro h
    simp only [AmdGetProcessorLocation2ByApicId]
    rw [locationField_unreported cpuid InitialApicId _ (by decide) (by decide) h]
  · intro L h1 h5 h
    have e := effectiveWidth_unreported cpuid L h1 h5 h
    rw [topologyBits_eq]
    have e0 : effectiveWidth cpuid 0 = 0 := rfl
    interval_cases L <;> simp [e0] at e ⊢ <;> exact e

/-- Witness for C14: the sample answers report only the SMT and the CCD level;
for APIC id 0x1F the core and complex numbers are 0. -/
theorem AmdGetProcessorLocation2ByApicId_unreported_level_witness :
    reportedWidth Sample.cpuid CPUID_EXTENDED_TOPOLOGY_LEVEL_TYPE_CORE = none ∧
    (AmdGetProcessorLocation2ByApicId Sample.cpuid 0x1F allOutputs).Core = some 0 :=
  ⟨by decide,
    (AmdGetProcessorLocation2ByApicId_unreported_level Sample.cpuid 0x1F allOutputs).2.2.1
      (by decide)⟩

namespace Madt

/-! ## Claims about the patch without IOAPIC information -/

/-- The patch when `GetIoApicInfo` leaves a NULL list or a zero count: success,
and the table with `Header.Revision` set to 6. -/
theorem MadtAcpiTablePatch_without_ioApic (sort : SortFn) (P : MadtPlatform) (T : MadtTable)
    (h : P.NbioIoApic = none ∨ P.IoApicCount = 0) :
    MadtAcpiTablePatch sort P T = .ok (.EFI_SUCCESS, setRevision T) := by
  unfold MadtAcpiTablePatch
  cases hN : P.NbioIoApic with
  | none => rfl
  | some N =>
    rcases h with h | h
    · rw [hN] at h; cases h
    · simp [h]

/-- C11, as stated, fails: with the library instance whose `GetIoApicInfo`
returns `EFI_UNSUPPORTED`, the patch of the sample table, whose header has
revision 5, returns success but the table is not as it was on entry, for
`Header.Revision` is set to 6 before the IOAPIC information is asked for. -/
theorem MadtAcpiTablePatch_without_ioApic_changes_revision :
    ¬ ∃ sort : SortFn,
      MadtAcpiTablePatch sort (DxePlatformSocLibNull.platform Sample.cpuid 1)
        (Sample.table [1, 9, 4]) = .ok (.EFI_SUCCESS, Sample.table [1, 9, 4]) := by
  rintro ⟨sort, h⟩
  rw [MadtAcpiTablePatch_without_ioApic sort _ _ (Or.inl rfl)] at h
  injection h with h
  injection h with _ h
  have h2 := congrArg (fun T => T.Header.Header.Revision) h
  revert h2
  decide

/-- C11, amended: if `GetIoApicInfo` leaves a NULL list or a zero count (as
the library instance that returns `EFI_UNSUPPORTED` does), `MadtAcpiTablePatch`
returns success and the table is as it was on entry except that
`Header.Revision` is 6: the sub-structures and every other field of the header
are unchanged. -/
theorem MadtAcpiTablePatch_without_ioApic_sets_revision (sort : SortFn) (P : MadtPlatform)
    (T : MadtTable) (h : P.NbioIoApic = none ∨ P.IoApicCount = 0) :
    ∃ T2, MadtAcpiTablePatch sort P T = .ok (.EFI_SUCCESS, T2) ∧
      T2.Structures = T.Structures ∧
      T2.Header.LocalApicAddress = T.Header.LocalApicAddress ∧
      T2.Header.Flags = T.Header.Flags ∧
      T2.Header.Header = { T.Header.Header with Revision := 6 } :=
  ⟨setRevision T, MadtAcpiTablePatch_without_ioApic sort P T h, rfl, rfl, rfl, rfl⟩

/-- Witness for the amended C11: the library instance without IOAPIC
information and the sample table. -/
theorem MadtAcpiTablePatch_without_ioApic_sets_revision_witness :
    (DxePlatformSocLibNull.platform Sample.cpuid 1).NbioIoApic = none ∧
    ∃ T2, MadtAcpiTablePatch referenceSort (DxePlatformSocLibNull.platform Sample.cpuid 1)
        (Sample.table [1, 9, 4]) = .ok (.EFI_SUCCESS, T2) ∧
      T2.Structures = (Sample.table [1, 9, 4]).Structures ∧
      T2.Header.LocalApicAddress = (Sample.table [1, 9, 4]).Header.LocalApicAddress ∧
      T2.Header.Flags = (Sample.table [1, 9, 4]).Header.Flags ∧
      T2.Header.Header = { (Sample.table [1, 9, 4]).Header.Header with Revision := 6 } :=
  ⟨rfl, MadtAcpiTablePatch_without_ioApic_sets_revision referenceSort
    (DxePlatformSocLibNull.platform Sample.cpuid 1) (Sample.table [1, 9, 4]) (Or.inl rfl)⟩

end Madt

/-! ## Lemmas: the CCD rank -/

theorem findCcdIndex_eq (Die : Nat) :
    ∀ (l : List Nat) (Index : Nat),
      findCcdIndex Die l Index = if Die ∈ l then Index + l.indexOf Die else MAX_UINT32 := by
  intro l
  induction l with
  | nil => intro _; simp [findCcdIndex]
  | cons c rest ih =>
    intro Index
    unfold findCcdIndex
    by_cases h : Die = c
    · subst h; simp
    · have h2 : ¬ c = Die := fun e => h e.symm
      rw [if_neg h, ih, List.indexOf_cons_ne _ h2]
      by_cases hm : Die ∈ rest
      · simp [hm]; omega
      · simp [hm, h]

theorem ccdIndex_eq_claimedRank (Die : Nat) : ccdIndex Die = claimedRank Die := by
  unfold ccdIndex claimedRank
  rw [findCcdIndex_eq]
  simp [mCcdOrder, ccdSequence, MAX_UINT32]

theorem mem_mCcdOrder (Die : Nat) : Die ∈ mCcdOrder ↔ Die < 16 := by
  constructor
  · intro h
    simp [mCcdOrder] at h
    omega
  · intro h
    interval_cases Die <;> decide

theorem ccdIndex_lt_of_mem (Die : Nat) (h : Die ∈ mCcdOrder) : ccdIndex Die < 16 := by
  rw [mem_mCcdOrder] at h
  interval_cases Die <;> decide

theorem ccdIndex_of_not_mem (Die : Nat) (h : Die ∉ mCcdOrder) : ccdIndex Die = MAX_UINT32 := by
  unfold ccdIndex
  rw [findCcdIndex_eq, if_neg h]

theorem ccdIndex_injOn (a b : Nat) (ha : a < 16) (hb : b < 16) (h : ccdIndex a = ccdIndex b) :
    a = b := by
  revert h
  interval_cases a <;> interval_cases b <;> decide

theorem compareCcdIndex_eq_zero (x y : Nat) : compareCcdIndex x y = 0 ↔ x = y := by
  unfold compareCcdIndex
  by_cases h1 : x < y
  · simp [h1]; omega
  · by_cases h2 : x > y
    · simp [h1, h2]; omega
    · simp [h1, h2]; omega

/-! ## Claims about the comparator -/

/-- C15: on processor records the comparator `SortByCcd` is total and
transitive; among records with CCD numbers 0..15 it is antisymmetric in the CCD
number and returns 0 exactly for equal CCD numbers; the numbers in `mCcdOrder`
are exactly 0..15; and a record whose CCD number is not in `mCcdOrder`
compares greater than every record whose number is in it. -/
theorem SortByCcd_total_order :
    (∀ a b : EFI_PROCESSOR_INFORMATION, Ssdt.SortByCcd a b ≤ 0 ∨ Ssdt.SortByCcd b a ≤ 0) ∧
    (∀ a b c : EFI_PROCESSOR_INFORMATION,
      Ssdt.SortByCcd a b ≤ 0 → Ssdt.SortByCcd b c ≤ 0 → Ssdt.SortByCcd a c ≤ 0) ∧
    (∀ a b : EFI_PROCESSOR_INFORMATION,
      a.ExtendedInformation.Location2.Die < 16 → b.ExtendedInformation.Location2.Die < 16 →
      Ssdt.SortByCcd a b ≤ 0 → Ssdt.SortByCcd b a ≤ 0 →
      a.ExtendedInformation.Location2.Die = b.ExtendedInformation.Location2.Die) ∧
    (∀ a b : EFI_PROCESSOR_INFORMATION,
      a.ExtendedInformation.Location2.Die < 16 → b.ExtendedInformation.Location2.Die < 16 →
      (Ssdt.SortByCcd a b = 0 ↔
        a.ExtendedInformation.Location2.Die = b.ExtendedInformation.Location2.Die)) ∧
    (∀ Die : Nat, Die ∈ mCcdOrder ↔ Die < 16) ∧
    (∀ a b : EFI_PROCESSOR_INFORMATION,
      a.ExtendedInformation.Location2.Die ∉ mCcdOrder →
      b.ExtendedInformation.Location2.Die ∈ mCcdOrder →
      Ssdt.SortByCcd a b = 1 ∧ Ssdt.SortByCcd b a = -1) := by
  refine ⟨?_, ?_, ?_, ?_, mem_mCcdOrder, ?_⟩
  · intro a b
    simp only [Ssdt.SortByCcd, compareCcdIndex_le]
    omega
  · intro a b c
    simp only [Ssdt.SortByCcd, compareCcdIndex_le]
    omega
  · intro a b ha hb
    simp only [Ssdt.SortByCcd, compareCcdIndex_le]
    intro h1 h2
    exact ccdIndex_injOn _ _ ha hb (by omega)
  · intro a b ha hb
    simp only [Ssdt.SortByCcd, compareCcdIndex_eq_zero]
    exact ⟨ccdIndex_injOn _ _ ha hb, fun h => by rw [h]⟩
  · intro a b ha hb
    have h1 := ccdIndex_of_not_mem _ ha
    have h2 := ccdIndex_lt_of_mem _ hb
    simp only [Ssdt.SortByCcd, compareCcdIndex, h1, MAX_UINT32]
    constructor
    · rw [if_neg (by omega), if_pos (by omega)]
    · rw [if_pos (by omega)]

/-- Witness for C15: two records with CCD numbers 4 and 2 (ranks 1 and 4), and
a record with CCD number 16, which is not in `mCcdOrder`. -/
theorem SortByCcd_total_order_witness :
    (Ssdt.SortByCcd
        (Ssdt.readProcessor Sample.cpuidWideCcd (Sample.mpServices [8, 4, 32]) 0)
        (Ssdt.readProcessor Sample.cpuidWideCcd (Sample.mpServices [8, 4, 32]) 1) = 0 ↔
      (Ssdt.readProcessor Sample.cpuidWideCcd (Sample.mpServices [8, 4, 32])
          0).ExtendedInformation.Location2.Die =
        (Ssdt.readProcessor Sample.cpuidWideCcd (Sample.mpServices [8, 4, 32])
          1).ExtendedInformation.Location2.Die) ∧
    (Ssdt.SortByCcd
        (Ssdt.readProcessor Sample.cpuidWideCcd (Sample.mpServices [8, 4, 32]) 2)
        (Ssdt.readProcessor Sample.cpuidWideCcd (Sample.mpServices [8, 4, 32]) 0) = 1 ∧
      Ssdt.SortByCcd
        (Ssdt.readProcessor Sample.cpuidWideCcd (Sample.mpServices [8, 4, 32]) 0)
        (Ssdt.readProcessor Sample.cpuidWideCcd (Sample.mpServices [8, 4, 32]) 2) = -1) :=
  ⟨SortByCcd_total_order.2.2.2.1 _ _ (by decide) (by decide),
    SortByCcd_total_order.2.2.2.2.2 _ _ (by decide) (by decide)⟩

/-- C16: both copies of `SortByCcd` return -1 when the rank of the left CCD
number is below the rank of the right one, 1 when it is above, and 0
otherwise, where the rank of a CCD number is its index in the sequence
0,4,8,12,2,6,10,14,3,7,11,15,1,5,9,13, or 0xFFFFFFFF when it is not in the
sequence.  In CpuSsdt.c the CCD number is the stored `Location2.Die`; in
MadtAcpiTablePatch.c it is the decoder's CCD output for the entry's
`X2ApicId`, which the call stores in `Location2.Die`. -/
theorem SortByCcd_eq_rank_comparison :
    (∀ a b : EFI_PROCESSOR_INFORMATION,
      Ssdt.SortByCcd a b =
        if claimedRank a.ExtendedInformation.Location2.Die
            < claimedRank b.ExtendedInformation.Location2.Die then -1
        else if claimedRank a.ExtendedInformation.Location2.Die
            > claimedRank b.ExtendedInformation.Location2.Die then 1
        else 0) ∧
    (∀ (cpuid : Cpuid) (a b : EFI_ACPI_6_5_PROCESSOR_LOCAL_X2APIC_STRUCTURE),
      Madt.SortByCcd cpuid a b =
        if claimedRank ((AmdGetProcessorLocation2ByApicId cpuid a.X2ApicId allOutputs).Ccd.getD 0)
            < claimedRank
              ((AmdGetProcessorLocation2ByApicId cpuid b.X2ApicId allOutputs).Ccd.getD 0) then -1
        else if claimedRank
              ((AmdGetProcessorLocation2ByApicId cpuid a.X2ApicId allOutputs).Ccd.getD 0)
            > claimedRank
              ((AmdGetProcessorLocation2ByApicId cpuid b.X2ApicId allOutputs).Ccd.getD 0) then 1
        else 0) ∧
    (∀ ccd : Nat, claimedRank ccd < 16 ∨ claimedRank ccd = 0xFFFFFFFF) := by
  refine ⟨?_, ?_, ?_⟩
  · intro a b
    simp only [Ssdt.SortByCcd, compareCcdIndex, ccdIndex_eq_claimedRank]
  · intro cpuid a b
    simp only [Madt.SortByCcd, compareCcdIndex, ccdIndex_eq_claimedRank, decodeLocation2]
  · intro ccd
    rw [← ccdIndex_eq_claimedRank]
    by_cases h : ccd ∈ mCcdOrder
    · exact Or.inl (ccdIndex_lt_of_mem ccd h)
    · exact Or.inr (ccdIndex_of_not_mem ccd h)

/-! ## Lemmas: the sorted halves -/

/-- The three parts `sortByCcdHalves` leaves with more than one socket: the
first `Count / 2` elements, the next `Count / 2` elements and the rest are the
results of the two sort calls and the untouched tail. -/
theorem sortByCcdHalves_parts (sort : SortFn) (hs : SortContract sort) (n : Nat) {α : Type}
    (cmp : α → α → Int) (buf : List α) (hn : 1 < n) :
    (sortByCcdHalves sort n cmp buf).take (buf.length / 2)
        = sort α cmp (buf.take (buf.length / 2)) ∧
    ((sortByCcdHalves sort n cmp buf).drop (buf.length / 2)).take (buf.length / 2)
        = sort α cmp ((buf.drop (buf.length / 2)).take (buf.length / 2)) ∧
    (sortByCcdHalves sort n cmp buf).drop (buf.length / 2 + buf.length / 2)
        = buf.drop (buf.length / 2 + buf.length / 2) := by
  have hA : (sort α cmp (buf.take (buf.length / 2))).length = buf.length / 2 := by
    rw [(hs.perm α cmp _).length_eq, List.length_take]
    omega
  have hB : (sort α cmp ((buf.drop (buf.length / 2)).take (buf.length / 2))).length
      = buf.length / 2 := by
    rw [(hs.perm α cmp _).length_eq, List.length_take, List.length_drop]
    omega
  unfold sortByCcdHalves
  rw [if_pos hn]
  refine ⟨?_, ?_, ?_⟩
  · rw [List.append_assoc, List.take_left' hA]
  · rw [List.append_assoc, List.drop_left' hA, List.take_left' hB]
  · have hAB : (sort α cmp (buf.take (buf.length / 2))
        ++ sort α cmp ((buf.drop (buf.length / 2)).take (buf.length / 2))).length
        = buf.length / 2 + buf.length / 2 := by
      rw [List.length_append, hA, hB]
    rw [List.drop_left' hAB]

theorem compareCcdIndex_total {α : Type} (key : α → Nat) (a b : α) :
    compareCcdIndex (key a) (key b) ≤ 0 ∨ compareCcdIndex (key b) (key a) ≤ 0 := by
  simp only [compareCcdIndex_le]
  omega

theorem compareCcdIndex_trans {α : Type} (key : α → Nat) (a b c : α)
    (h1 : compareCcdIndex (key a) (key b) ≤ 0) (h2 : compareCcdIndex (key b) (key c) ≤ 0) :
    compareCcdIndex (key a) (key c) ≤ 0 := by
  simp only [compareCcdIndex_le] at *
  omega

/-- The sort step for a comparator that compares the ranks `key` gives: with
more than one socket each of the two halves is a permutation of the original
half in non-decreasing rank and the rest is untouched; otherwise the whole
buffer is a permutation of the original in non-decreasing rank. -/
theorem sortByCcdHalves_by_rank (sort : SortFn) (hs : SortContract sort) (n : Nat) {α : Type}
    (key : α → Nat) (buf : List α) :
    (1 < n →
      (((sortByCcdHalves sort n (fun a b => compareCcdIndex (key a) (key b)) buf).take
          (buf.length / 2)).Perm (buf.take (buf.length / 2)) ∧
        ((sortByCcdHalves sort n (fun a b => compareCcdIndex (key a) (key b)) buf).take
          (buf.length / 2)).Pairwise (fun a b => key a ≤ key b)) ∧
      ((((sortByCcdHalves sort n (fun a b => compareCcdIndex (key a) (key b)) buf).drop
          (buf.length / 2)).take (buf.length / 2)).Perm
            ((buf.drop (buf.length / 2)).take (buf.length / 2)) ∧
        (((sortByCcdHalves sort n (fun a b => compareCcdIndex (key a) (key b)) buf).drop
          (buf.length / 2)).take (buf.length / 2)).Pairwise (fun a b => key a ≤ key b)) ∧
      (sortByCcdHalves sort n (fun a b => compareCcdIndex (key a) (key b)) buf).drop
          (buf.length / 2 + buf.length / 2) = buf.drop (buf.length / 2 + buf.length / 2)) ∧
    (¬ 1 < n →
      (sortByCcdHalves sort n (fun a b => compareCcdIndex (key a) (key b)) buf).Perm buf ∧
      (sortByCcdHalves sort n (fun a b => compareCcdIndex (key a) (key b)) buf).Pairwise
        (fun a b => key a ≤ key b)) := by
  have hsorted : ∀ l : List α,
      (sort α (fun a b => compareCcdIndex (key a) (key b)) l).Pairwise
        (fun a b => key a ≤ key b) := by
    intro l
    have h := hs.sorted α (fun a b => compareCcdIndex (key a) (key b)) l
      (compareCcdIndex_total key) (compareCcdIndex_trans key)
    simpa only [compareCcdIndex_le] using h
  constructor
  · intro hn
    obtain ⟨h1, h2, h3⟩ := sortByCcdHalves_parts sort hs n
      (fun a b => compareCcdIndex (key a) (key b)) buf hn
    rw [h1, h2, h3]
    exact ⟨⟨hs.perm _ _ _, hsorted _⟩, ⟨hs.perm _ _ _, hsorted _⟩, rfl⟩
  · intro hn
    have e : sortByCcdHalves sort n (fun a b => compareCcdIndex (key a) (key b)) buf
        = sort α (fun a b => compareCcdIndex (key a) (key b)) buf := by
      unfold sortByCcdHalves
      rw [if_neg (by omega)]
    rw [e]
    exact ⟨hs.perm _ _ _, hsorted _⟩

theorem sortedInHalvesByRank_sortByCcdHalves (sort : SortFn) (hs : SortContract sort) (n : Nat)
    {α : Type} (key : α → Nat) (buf : List α) :
    SortedInHalvesByRank n key buf
      (sortByCcdHalves sort n (fun a b => compareCcdIndex (key a) (key b)) buf) := by
  unfold SortedInHalvesByRank
  split
  · rename_i h
    exact (sortByCcdHalves_by_rank sort hs n key buf).1 h
  · rename_i h
    exact (sortByCcdHalves_by_rank sort hs n key buf).2 h

/-! ## Claims about the sort step -/

/-- C17: for every buffer of N processor records, the sort step of
`GenerateApicIdtoUidMap` (on the stored CCD number) and the sort step of
`MadtAcpiTablePatch` (on the CCD number decoded from `X2ApicId`) leave, with
more than one socket configured, the first N/2 records a permutation of the
original first N/2 records in non-decreasing CCD rank and the next N/2 records
a permutation of the original next N/2 records in non-decreasing CCD rank,
with nothing after them moved; otherwise the whole buffer is a permutation of
the original in non-decreasing CCD rank. -/
theorem sortByCcdHalves_sorts_halves (sort : SortFn) (hs : SortContract sort)
    (PcdMaxCpuSocketCount : Nat) (cpuid : Cpuid) (map : List EFI_PROCESSOR_INFORMATION)
    (arr : List EFI_ACPI_6_5_PROCESSOR_LOCAL_X2APIC_STRUCTURE) :
    SortedInHalvesByRank PcdMaxCpuSocketCount
      (fun p : EFI_PROCESSOR_INFORMATION => ccdIndex p.ExtendedInformation.Location2.Die) map
      (sortByCcdHalves sort PcdMaxCpuSocketCount Ssdt.SortByCcd map) ∧
    SortedInHalvesByRank PcdMaxCpuSocketCount (Madt.ccdRank cpuid) arr
      (sortByCcdHalves sort PcdMaxCpuSocketCount (Madt.SortByCcd cpuid) arr) :=
  ⟨sortedInHalvesByRank_sortByCcdHalves sort hs PcdMaxCpuSocketCount
      (fun p : EFI_PROCESSOR_INFORMATION => ccdIndex p.ExtendedInformation.Location2.Die) map,
    sortedInHalvesByRank_sortByCcdHalves sort hs PcdMaxCpuSocketCount (Madt.ccdRank cpuid) arr⟩

/-- Witness for C17: the reference sort, two sockets, five processors with
APIC ids 8, 2, 0, 6, 4 (CCD numbers 4, 1, 0, 3, 2) and the same ids as
local-x2APIC entries. -/
theorem sortByCcdHalves_sorts_halves_witness :
    SortContract referenceSort ∧
    SortedInHalvesByRank 2
      (fun p : EFI_PROCESSOR_INFORMATION => ccdIndex p.ExtendedInformation.Location2.Die)
      ((List.range 5).map
        (Ssdt.readProcessor Sample.cpuid (Sample.mpServices [8, 2, 0, 6, 4])))
      (sortByCcdHalves referenceSort 2 Ssdt.SortByCcd
        ((List.range 5).map
          (Ssdt.readProcessor Sample.cpuid (Sample.mpServices [8, 2, 0, 6, 4])))) ∧
    SortedInHalvesByRank 2 (Madt.ccdRank Sample.cpuid) ([8, 2, 0, 6, 4].map Sample.x2apic)
      (sortByCcdHalves referenceSort 2 (Madt.SortByCcd Sample.cpuid)
        ([8, 2, 0, 6, 4].map Sample.x2apic)) :=
  ⟨referenceSort_contract,
    sortByCcdHalves_sorts_halves referenceSort referenceSort_contract 2 Sample.cpuid _ _⟩

namespace Ssdt

/-! ## Lemmas: the device nodes of the SSDT -/

theorem cpuDevice_ok_eq (Aml : AmlLib) (i : Nat) (p : EFI_PROCESSOR_INFORMATION)
    (d : CpuDevice) (h : cpuDevice Aml i p = .ok d) : d = deviceNode i p := by
  unfold cpuDevice at h
  split_ifs at h
  injection h with h
  rw [← h]
  rfl

theorem cpuDevice_error (Aml : AmlLib) (i : Nat) (p : EFI_PROCESSOR_INFORMATION)
    (e : EFI_STATUS) (h : cpuDevice Aml i p = .error e) : EFI_ERROR e = true := by
  unfold cpuDevice at h
  split_ifs at h <;> injection h with h <;> rw [← h] <;> assumption

theorem cpuDevices_error (Aml : AmlLib) :
    ∀ (l : List EFI_PROCESSOR_INFORMATION) (i : Nat) (e : EFI_STATUS),
      (cpuDevices Aml l i).2 = some e → EFI_ERROR e = true := by
  intro l
  induction l with
  | nil => intro i e h; simp [cpuDevices] at h
  | cons q rest ih =>
    intro i e h
    unfold cpuDevices at h
    by_cases hq : q.StatusFlag = 0
    · simp only [hq, if_true] at h
      exact ih _ e h
    · simp only [hq, if_false] at h
      cases hc : cpuDevice Aml i q with
      | error e0 =>
        simp only [hc, Option.some.injEq] at h
        rw [← h]
        exact cpuDevice_error Aml i q e0 hc
      | ok d0 =>
        simp only [hc] at h
        exact ih _ e h

/-- Every node the loop completes is the node of a record with a non-zero
`StatusFlag`, named by the position of the record. -/
theorem mem_cpuDevices_node (Aml : AmlLib) :
    ∀ (l : List EFI_PROCESSOR_INFORMATION) (i : Nat) (d : CpuDevice),
      d ∈ (cpuDevices Aml l i).1 →
      ∃ j p, l[j]? = some p ∧ p.StatusFlag ≠ 0 ∧ d = deviceNode (i + j) p := by
  intro l
  induction l with
  | nil => intro i d h; simp [cpuDevices] at h
  | cons q rest ih =>
    intro i d h
    unfold cpuDevices at h
    by_cases hq : q.StatusFlag = 0
    · simp only [hq, if_true] at h
      obtain ⟨j, p, hj, hp, hd⟩ := ih (i + 1) d h
      exact ⟨j + 1, p, by simpa using hj, hp, by rw [hd]; congr 1; omega⟩
    · simp only [hq, if_false] at h
      cases hc : cpuDevice Aml i q with
      | error e => simp [hc] at h
      | ok d0 =>
        simp only [hc, List.mem_cons] at h
        rcases h with rfl | h
        · exact ⟨0, q, by simp, hq, cpuDevice_ok_eq Aml i q d hc⟩
        · obtain ⟨j, p, hj, hp, hd⟩ := ih (i + 1) d h
          exact ⟨j + 1, p, by simpa using hj, hp, by rw [hd]; congr 1; omega⟩

/-- When no call of the loop fails, the nodes completed are those of the
records with a non-zero `StatusFlag`, in order. -/
theorem cpuDevices_eq (Aml : AmlLib) :
    ∀ (l : List EFI_PROCESSOR_INFORMATION) (i : Nat), (cpuDevices Aml l i).2 = none →
      (cpuDevices Aml l i).1 =
        (l.enumFrom i).filterMap
          (fun q => if q.2.StatusFlag = 0 then none else some (deviceNode q.1 q.2)) := by
  intro l
  induction l with
  | nil => intro i _; simp [cpuDevices]
  | cons q rest ih =>
    intro i h
    unfold cpuDevices at h ⊢
    by_cases hq : q.StatusFlag = 0
    · simp only [hq, if_true] at h ⊢
      rw [ih _ h]
      simp [List.enumFrom, hq]
    · simp only [hq, if_false] at h ⊢
      cases hc : cpuDevice Aml i q with
      | error e => simp [hc] at h
      | ok d0 =>
        simp only [hc] at h ⊢
        rw [ih _ h, cpuDevice_ok_eq Aml i q d0 hc]
        simp [List.enumFrom, hq]

theorem length_deviceNodes :
    ∀ (l : List EFI_PROCESSOR_INFORMATION) (i : Nat),
      ((l.enumFrom i).filterMap
        (fun q => if q.2.StatusFlag = 0 then none else some (deviceNode q.1 q.2))).length
        = l.countP (fun p => p.StatusFlag != 0) := by
  intro l
  induction l with
  | nil => intro _; rfl
  | cons q rest ih =>
    intro i
    by_cases hq : q.StatusFlag = 0
    · simp [List.enumFrom, hq, ih]
    · simp [List.enumFrom, hq, ih]

theorem countP_deviceNodes_below :
    ∀ (l : List EFI_PROCESSOR_INFORMATION) (i k : Nat), k < i →
      ((l.enumFrom i).filterMap
        (fun q => if q.2.StatusFlag = 0 then none else some (deviceNode q.1 q.2))).countP
          (fun d => d.NameIndex == k) = 0 := by
  intro l
  induction l with
  | nil => intro _ _ _; rfl
  | cons q rest ih =>
    intro i k hk
    by_cases hq : q.StatusFlag = 0
    · simp only [List.enumFrom, List.filterMap_cons, hq, if_true]
      exact ih (i + 1) k (by omega)
    · simp only [List.enumFrom, List.filterMap_cons, hq, if_false, List.countP_cons]
      rw [ih (i + 1) k (by omega)]
      have : ¬ i = k := by omega
      simp [deviceNode, this]

/-- One node for the record at a position when its `StatusFlag` is not 0, none
when it is 0. -/
theorem countP_deviceNodes :
    ∀ (l : List EFI_PROCESSOR_INFORMATION) (i j : Nat) (p : EFI_PROCESSOR_INFORMATION),
      l[j]? = some p →
      ((l.enumFrom i).filterMap
        (fun q => if q.2.StatusFlag = 0 then none else some (deviceNode q.1 q.2))).countP
          (fun d => d.NameIndex == i + j) = if p.StatusFlag = 0 then 0 else 1 := by
  intro l
  induction l with
  | nil => intro i j p h; simp at h
  | cons q rest ih =>
    intro i j p h
    cases j with
    | zero =>
      simp only [List.getElem?_cons_zero, Option.some.injEq] at h
      subst h
      by_cases hq : q.StatusFlag = 0
      · simp only [List.enumFrom, List.filterMap_cons, hq, if_true, Nat.add_zero]
        exact countP_deviceNodes_below rest (i + 1) i (by omega)
      · simp only [List.enumFrom, List.filterMap_cons, hq, if_false, List.countP_cons,
          Nat.add_zero]
        rw [countP_deviceNodes_below rest (i + 1) i (by omega)]
        simp [deviceNode]
    | succ j =>
      simp only [List.getElem?_cons_succ] at h
      have e : i + (j + 1) = i + 1 + j := by omega
      by_cases hq : q.StatusFlag = 0
      · simp only [List.enumFrom, List.filterMap_cons, hq, if_true]
        rw [e]
        exact ih (i + 1) j p h
      · simp only [List.enumFrom, List.filterMap_cons, hq, if_false, List.countP_cons]
        rw [e, ih (i + 1) j p h]
        have : ¬ i = i + 1 + j := by omega
        simp [deviceNode, this]

theorem assignProcessorId_map_StatusFlag :
    ∀ (l : List EFI_PROCESSOR_INFORMATION) (i : Nat),
      (assignProcessorId l i).map (fun e => e.StatusFlag) = l.map (fun e => e.StatusFlag) := by
  intro l
  induction l with
  | nil => intro _; rfl
  | cons e rest ih => intro i; simp [assignProcessorId, ih]

theorem sortedMap_perm (sort : SortFn) (hs : SortContract sort) (P : SsdtPlatform)
    (Mp : EFI_MP_SERVICES_PROTOCOL) (n : Nat) :
    (sortedMap sort P Mp n).Perm ((List.range n).map (readProcessor P.cpuid Mp)) :=
  sortByCcdHalves_perm sort hs _ _ _

/-- The status flags in the map are those the MP services report, rearranged. -/
theorem map_StatusFlag_perm (sort : SortFn) (hs : SortContract sort) (P : SsdtPlatform)
    (Mp : EFI_MP_SERVICES_PROTOCOL) (n : Nat) :
    ((assignProcessorId (sortedMap sort P Mp n) 0).map (fun e => e.StatusFlag)).Perm
      ((List.range n).map (fun i => (Mp.GetProcessorInfo i).StatusFlag)) := by
  rw [assignProcessorId_map_StatusFlag]
  have e : ((List.range n).map (readProcessor P.cpuid Mp)).map (fun e => e.StatusFlag)
      = (List.range n).map (fun i => (Mp.GetProcessorInfo i).StatusFlag) := by
    rw [List.map_map]
    apply List.map_congr_left
    intro i _
    simp only [Function.comp, readProcessor]
  rw [← e]
  exact (sortedMap_perm sort hs P Mp n).map (fun e => e.StatusFlag)

theorem ne_success_of_error (s : EFI_STATUS) (h : EFI_ERROR s = true) :
    s ≠ EFI_STATUS.EFI_SUCCESS := by
  intro e
  rw [e] at h
  cases h

/-- A call of `InstallCpuAcpi` that returns `EFI_SUCCESS` has found the MP
services, built the map and completed the loop without a failing call. -/
theorem InstallCpuAcpi_success (sort : SortFn) (P : SsdtPlatform) (Aml : AmlLib)
    (G : CpuSsdtGlobals) (h : (InstallCpuAcpi sort P Aml G).Status = .EFI_SUCCESS) :
    ∃ Mp n m, P.MpService = some Mp ∧ Mp.GetNumberOfProcessors = (.EFI_SUCCESS, n, m) ∧
      P.poolAvailable = true ∧
      (InstallCpuAcpi sort P Aml G).Globals.mApicIdtoUidMap
        = some (assignProcessorId (sortedMap sort P Mp n) 0) ∧
      (InstallCpuAcpi sort P Aml G).Devices
        = (cpuDevices Aml ((assignProcessorId (sortedMap sort P Mp n) 0).take n) 0).1 ∧
      (cpuDevices Aml ((assignProcessorId (sortedMap sort P Mp n) 0).take n) 0).2 = none := by
  cases hMp : P.MpService with
  | none => simp [InstallCpuAcpi, hMp] at h
  | some Mp =>
    rcases hn : Mp.GetNumberOfProcessors with ⟨s, n, m⟩
    have e1 : EFI_ERROR EFI_STATUS.EFI_SUCCESS = false := rfl
    by_cases hs : EFI_ERROR s = true
    · exfalso
      simp [InstallCpuAcpi, hMp, GenerateApicIdtoUidMap, hn, hs] at h
    · have hs2 : s = .EFI_SUCCESS := by
        cases s <;> first | rfl | exact absurd rfl hs
      subst hs2
      cases hpool : P.poolAvailable with
      | false =>
        exfalso
        simp [InstallCpuAcpi, hMp, GenerateApicIdtoUidMap, hn, hpool, EFI_ERROR] at h
      | true =>
        refine ⟨Mp, n, m, rfl, hn, rfl, ?_⟩
        unfold InstallCpuAcpi at h ⊢
        simp only [hMp, GenerateApicIdtoUidMap_eq sort P G Mp n m hMp hn hpool, hn, e1,
          Bool.false_eq_true, if_false, Option.getD_some] at h ⊢
        by_cases h1 : EFI_ERROR Aml.AmlCodeGenDefinitionBlock = true
        · exact absurd (by simpa [h1] using h) (ne_success_of_error _ h1)
        · by_cases h2 : EFI_ERROR Aml.AmlCodeGenScope = true
          · exact absurd (by simpa [h1, h2] using h) (ne_success_of_error _ h2)
          · simp only [h1, h2, Bool.false_eq_true, if_false] at h ⊢
            cases hr : (cpuDevices Aml
                ((assignProcessorId (sortedMap sort P Mp n) 0).take n) 0).2 with
            | some e =>
              simp only [hr] at h
              exact absurd h (ne_success_of_error _ (cpuDevices_error Aml _ _ e hr))
            | none =>
              simp only [hr] at h ⊢
              refine ⟨?_, ?_, trivial⟩ <;> split_ifs <;> rfl

theorem GenerateApicIdtoUidMap_success (sort : SortFn) (P : SsdtPlatform) (G : CpuSsdtGlobals)
    (h : (GenerateApicIdtoUidMap sort P G).1 = .EFI_SUCCESS) :
    ∃ Mp n m, P.MpService = some Mp ∧ Mp.GetNumberOfProcessors = (.EFI_SUCCESS, n, m) ∧
      P.poolAvailable = true := by
  cases hMp : P.MpService with
  | none => simp [GenerateApicIdtoUidMap, hMp] at h
  | some Mp =>
    rcases hn : Mp.GetNumberOfProcessors with ⟨s, n, m⟩
    by_cases hs : EFI_ERROR s = true
    · exfalso
      simp only [GenerateApicIdtoUidMap, hMp, hn, hs, if_true] at h
      rw [h] at hs
      cases hs
    · have hs2 : s = .EFI_SUCCESS := by
        cases s <;> first | rfl | exact absurd rfl hs
      subst hs2
      cases hpool : P.poolAvailable with
      | false => simp [GenerateApicIdtoUidMap, hMp, hn, hpool, EFI_ERROR] at h
      | true => exact ⟨Mp, n, m, rfl, hn, rfl⟩

theorem take_map_eq (sort : SortFn) (hs : SortContract sort) (P : SsdtPlatform)
    (Mp : EFI_MP_SERVICES_PROTOCOL) (n : Nat) :
    (assignProcessorId (sortedMap sort P Mp n) 0).take n
      = assignProcessorId (sortedMap sort P Mp n) 0 := by
  apply List.take_of_length_le
  rw [assignProcessorId_length, sortedMap_length sort hs]

/-- Every node `InstallCpuAcpi` completes is the node of a record of the map
with a non-zero `StatusFlag`, named by the position of the record. -/
theorem mem_InstallCpuAcpi_node (sort : SortFn) (hs : SortContract sort) (P : SsdtPlatform)
    (Aml : AmlLib) (G : CpuSsdtGlobals) (Mp : EFI_MP_SERVICES_PROTOCOL) (n m : Nat)
    (hMp : P.MpService = some Mp)
    (hn : Mp.GetNumberOfProcessors = (.EFI_SUCCESS, n, m)) (hpool : P.poolAvailable = true)
    (d : CpuDevice) (h : d ∈ (InstallCpuAcpi sort P Aml G).Devices) :
    ∃ p, (assignProcessorId (sortedMap sort P Mp n) 0)[d.NameIndex]? = some p ∧
      p.StatusFlag ≠ 0 ∧ p.ProcessorId = d.NameIndex ∧ d = deviceNode d.NameIndex p := by
  have h1 := mem_InstallCpuAcpi_Devices sort P Aml G Mp n m hMp hn hpool d h
  rw [take_map_eq sort hs] at h1
  obtain ⟨j, p, hj, hp, hd⟩ := mem_cpuDevices_node Aml _ 0 d h1
  have hname : d.NameIndex = j := by rw [hd]; simp [deviceNode]
  rw [Nat.zero_add] at hd
  refine ⟨p, by rw [hname]; exact hj, hp, ?_, by rw [hname]; exact hd⟩
  rw [assignProcessorId_getElem?] at hj
  cases hq : (sortedMap sort P Mp n)[j]? with
  | none => simp [hq] at hj
  | some q =>
    simp only [hq, Option.map_some', Option.some.injEq, Nat.zero_add] at hj
    rw [hname, ← hj]

/-- The nodes of a successful call: those of the records of the map with a
non-zero `StatusFlag`, in map order. -/
theorem InstallCpuAcpi_Devices_eq (sort : SortFn) (hs : SortContract sort) (P : SsdtPlatform)
    (Aml : AmlLib) (G : CpuSsdtGlobals) (Mp : EFI_MP_SERVICES_PROTOCOL) (n m : Nat)
    (hMp : P.MpService = some Mp) (hn : Mp.GetNumberOfProcessors = (.EFI_SUCCESS, n, m))
    (h : (InstallCpuAcpi sort P Aml G).Status = .EFI_SUCCESS) :
    (InstallCpuAcpi sort P Aml G).Globals.mApicIdtoUidMap
      = some (assignProcessorId (sortedMap sort P Mp n) 0) ∧
    (InstallCpuAcpi sort P Aml G).Devices
      = ((assignProcessorId (sortedMap sort P Mp n) 0).enumFrom 0).filterMap
          (fun q => if q.2.StatusFlag = 0 then none else some (deviceNode q.1 q.2)) := by
  obtain ⟨Mp2, n2, m2, hMp2, hn2, _, hG, hD, hnone⟩ := InstallCpuAcpi_success sort P Aml G h
  rw [hMp] at hMp2
  injection hMp2 with hMp2
  subst hMp2
  rw [hn] at hn2
  injection hn2 with _ hn2
  injection hn2 with hn2 _
  subst hn2
  rw [take_map_eq sort hs] at hD hnone
  exact ⟨hG, by rw [hD, cpuDevices_eq Aml _ 0 hnone]⟩

theorem countP_StatusFlag (sort : SortFn) (hs : SortContract sort) (P : SsdtPlatform)
    (Mp : EFI_MP_SERVICES_PROTOCOL) (n : Nat) (g : Nat → Bool) :
    (assignProcessorId (sortedMap sort P Mp n) 0).countP (fun p => g p.StatusFlag)
      = ((List.range n).map (fun i => (Mp.GetProcessorInfo i).StatusFlag)).countP g := by
  rw [← (map_StatusFlag_perm sort hs P Mp n).countP_eq g, List.countP_map]
  rfl

theorem deviceStatus_bits (StatusFlag : Nat) :
    deviceStatus StatusFlag &&& DEVICE_PRESENT_BIT = DEVICE_PRESENT_BIT ∧
    deviceStatus StatusFlag &&& DEVICE_IN_UI_BIT = DEVICE_IN_UI_BIT ∧
    (deviceStatus StatusFlag &&& DEVICE_ENABLED_BIT ≠ 0 ↔
      StatusFlag &&& PROCESSOR_ENABLED_BIT ≠ 0) ∧
    (deviceStatus StatusFlag &&& DEVICE_HEALTH_BIT ≠ 0 ↔
      StatusFlag &&& PROCESSOR_HEALTH_STATUS_BIT ≠ 0) ∧
    deviceStatus StatusFlag < 16 := by
  unfold deviceStatus
  by_cases h1 : StatusFlag &&& PROCESSOR_ENABLED_BIT = 0 <;>
    by_cases h2 : StatusFlag &&& PROCESSOR_HEALTH_STATUS_BIT = 0 <;>
    simp only [h1, h2, ne_eq, not_true_eq_false, not_false_eq_true, if_true, if_false] <;>
    decide

theorem cpuDevices_amlLib :
    ∀ (l : List EFI_PROCESSOR_INFORMATION) (i : Nat), (cpuDevices Sample.amlLib l i).2 = none := by
  intro l
  induction l with
  | nil => intro _; rfl
  | cons q rest ih =>
    intro i
    unfold cpuDevices
    by_cases hq : q.StatusFlag = 0
    · simp only [hq, if_true]; exact ih _
    · simp only [hq, if_false]
      have hc : cpuDevice Sample.amlLib i q = .ok (deviceNode i q) := rfl
      simp only [hc]
      exact ih _

/-- With an AmlLib all of whose calls succeed, `InstallCpuAcpi` returns
`EFI_SUCCESS` once the map is built. -/
theorem InstallCpuAcpi_amlLib (sort : SortFn) (P : SsdtPlatform) (G : CpuSsdtGlobals)
    (Mp : EFI_MP_SERVICES_PROTOCOL) (n m : Nat) (hMp : P.MpService = some Mp)
    (hn : Mp.GetNumberOfProcessors = (.EFI_SUCCESS, n, m)) (hpool : P.poolAvailable = true) :
    (InstallCpuAcpi sort P Sample.amlLib G).Status = .EFI_SUCCESS := by
  have e1 : EFI_ERROR EFI_STATUS.EFI_SUCCESS = false := rfl
  have a1 : Sample.amlLib.AmlCodeGenDefinitionBlock = .EFI_SUCCESS := rfl
  have a2 : Sample.amlLib.AmlCodeGenScope = .EFI_SUCCESS := rfl
  have a3 : Sample.amlLib.AmlSerializeDefinitionBlock = .EFI_SUCCESS := rfl
  have a4 : Sample.amlLib.AmlDeleteTree = .EFI_SUCCESS := rfl
  have a5 : Sample.amlLib.AppendExistingAcpiTable = .EFI_SUCCESS := rfl
  unfold InstallCpuAcpi
  simp only [hMp, GenerateApicIdtoUidMap_eq sort P G Mp n m hMp hn hpool, hn, e1,
    Bool.false_eq_true, if_false, Option.getD_some, a1, a2, a3, a4, a5, cpuDevices_amlLib]

/-! ## Claims about the device nodes -/

/-- C18, as stated, fails: two processors, the first enabled and healthy
(`StatusFlag` 0x06), the second healthy but not enabled (`StatusFlag` 0x04).
The loop skips a record only when its whole `StatusFlag` is 0, so
`InstallCpuAcpi` emits a node for both, while one processor is enabled: the
number of nodes is 2, not the number of enabled processors, whatever sort
meeting the contract is used. -/
theorem InstallCpuAcpi_node_for_disabled_processor :
    ¬ ∃ sort : SortFn, SortContract sort ∧
      (InstallCpuAcpi sort (Sample.ssdtPlatformWithFlags Sample.cpuid 1 [(0, 0x06), (2, 0x04)])
          Sample.amlLib Sample.globals).Devices.length
        = (((InstallCpuAcpi sort
            (Sample.ssdtPlatformWithFlags Sample.cpuid 1 [(0, 0x06), (2, 0x04)])
            Sample.amlLib Sample.globals).Globals.mApicIdtoUidMap).getD []).countP
            (fun p => p.StatusFlag &&& PROCESSOR_ENABLED_BIT != 0) := by
  rintro ⟨sort, hs, h⟩
  have hst := InstallCpuAcpi_amlLib sort
    (Sample.ssdtPlatformWithFlags Sample.cpuid 1 [(0, 0x06), (2, 0x04)]) Sample.globals
    (Sample.mpServicesWithFlags [(0, 0x06), (2, 0x04)]) 2 1 rfl rfl rfl
  obtain ⟨hG, hD⟩ := InstallCpuAcpi_Devices_eq sort hs _ Sample.amlLib Sample.globals
    (Sample.mpServicesWithFlags [(0, 0x06), (2, 0x04)]) 2 1 rfl rfl hst
  rw [hG, hD, length_deviceNodes, Option.getD_some,
    countP_StatusFlag sort hs _ _ 2 (fun f => f != 0),
    countP_StatusFlag sort hs _ _ 2 (fun f => f &&& PROCESSOR_ENABLED_BIT != 0)] at h
  revert h
  decide

/-- C18, amended: in a call of `InstallCpuAcpi` that returns success, for the
map of N records: a record whose `StatusFlag` is not 0 (BSP, enabled or health
bit set) gets exactly one device node, named by its position, and a record
whose `StatusFlag` is 0 gets none; so the number of nodes is the number of
processors the MP services report with a non-zero `StatusFlag`, which is at
least the number of enabled processors and at most N. -/
theorem InstallCpuAcpi_node_per_nonzero_status (sort : SortFn) (hs : SortContract sort)
    (P : SsdtPlatform) (Aml : AmlLib) (G : CpuSsdtGlobals) (Mp : EFI_MP_SERVICES_PROTOCOL)
    (n m : Nat) (hMp : P.MpService = some Mp)
    (hn : Mp.GetNumberOfProcessors = (.EFI_SUCCESS, n, m))
    (h : (InstallCpuAcpi sort P Aml G).Status = .EFI_SUCCESS) :
    ∃ Map, (InstallCpuAcpi sort P Aml G).Globals.mApicIdtoUidMap = some Map ∧
      Map.length = n ∧
      (∀ (i : Nat) (p : EFI_PROCESSOR_INFORMATION), Map[i]? = some p →
        (InstallCpuAcpi sort P Aml G).Devices.countP (fun d => d.NameIndex == i)
          = if p.StatusFlag = 0 then 0 else 1) ∧
      (∀ d ∈ (InstallCpuAcpi sort P Aml G).Devices, d.NameIndex < n) ∧
      (InstallCpuAcpi sort P Aml G).Devices.length
        = Map.countP (fun p => p.StatusFlag != 0) ∧
      (InstallCpuAcpi sort P Aml G).Devices.length
        = ((List.range n).map (fun i => (Mp.GetProcessorInfo i).StatusFlag)).countP
            (fun f => f != 0) ∧
      ((List.range n).map (fun i => (Mp.GetProcessorInfo i).StatusFlag)).countP
          (fun f => f &&& PROCESSOR_ENABLED_BIT != 0)
        ≤ (InstallCpuAcpi sort P Aml G).Devices.length ∧
      (InstallCpuAcpi sort P Aml G).Devices.length ≤ n := by
  obtain ⟨hG, hD⟩ := InstallCpuAcpi_Devices_eq sort hs P Aml G Mp n m hMp hn h
  obtain ⟨_, _, _, _, _, hpool, _⟩ := InstallCpuAcpi_success sort P Aml G h
  have hlen : (assignProcessorId (sortedMap sort P Mp n) 0).length = n := by
    rw [assignProcessorId_length, sortedMap_length sort hs]
  have hL : (InstallCpuAcpi sort P Aml G).Devices.length
      = ((List.range n).map (fun i => (Mp.GetProcessorInfo i).StatusFlag)).countP
          (fun f => f != 0) := by
    rw [hD, length_deviceNodes, countP_StatusFlag sort hs P Mp n (fun f => f != 0)]
  refine ⟨_, hG, hlen, ?_, ?_, ?_, hL, ?_, ?_⟩
  · intro i p hi
    rw [hD]
    have := countP_deviceNodes _ 0 i p hi
    rwa [Nat.zero_add] at this
  · intro d hd
    obtain ⟨p, hp, _⟩ := mem_InstallCpuAcpi_node sort hs P Aml G Mp n m hMp hn hpool d hd
    have := (List.getElem?_eq_some_iff.1 hp).1
    rwa [hlen] at this
  · rw [hD, length_deviceNodes]
  · rw [hL]
    apply List.countP_mono_left
    intro f _ hf
    simp only [bne_iff_ne, ne_eq] at hf ⊢
    intro h0
    rw [h0] at hf
    exact hf (Nat.zero_and _)
  · rw [hL]
    exact (List.countP_le_length _).trans (by simp)

/-- Witness for the amended C18: the reference sort and three processors with
`StatusFlag` 0x06, 0x04 and 0; the first two get a node, the third does not. -/
theorem InstallCpuAcpi_node_per_nonzero_status_witness :
    SortContract referenceSort ∧
    (InstallCpuAcpi referenceSort
      (Sample.ssdtPlatformWithFlags Sample.cpuid 1 [(0, 0x06), (2, 0x04), (4, 0)])
      Sample.amlLib Sample.globals).Status = .EFI_SUCCESS ∧
    (InstallCpuAcpi referenceSort
      (Sample.ssdtPlatformWithFlags Sample.cpuid 1 [(0, 0x06), (2, 0x04), (4, 0)])
      Sample.amlLib Sample.globals).Devices.length = 2 ∧
    ∃ Map, (InstallCpuAcpi referenceSort
        (Sample.ssdtPlatformWithFlags Sample.cpuid 1 [(0, 0x06), (2, 0x04), (4, 0)])
        Sample.amlLib Sample.globals).Globals.mApicIdtoUidMap = some Map ∧
      Map.length = 3 ∧
      (∀ (i : Nat) (p : EFI_PROCESSOR_INFORMATION), Map[i]? = some p →
        (InstallCpuAcpi referenceSort
          (Sample.ssdtPlatformWithFlags Sample.cpuid 1 [(0, 0x06), (2, 0x04), (4, 0)])
          Sample.amlLib Sample.globals).Devices.countP (fun d => d.NameIndex == i)
          = if p.StatusFlag = 0 then 0 else 1) :=
  ⟨referenceSort_contract, by decide, by decide,
    (InstallCpuAcpi_node_per_nonzero_status referenceSort referenceSort_contract
      (Sample.ssdtPlatformWithFlags Sample.cpuid 1 [(0, 0x06), (2, 0x04), (4, 0)])
      Sample.amlLib Sample.globals (Sample.mpServicesWithFlags [(0, 0x06), (2, 0x04), (4, 0)])
      3 1 rfl rfl (by decide)).imp (fun _ hM => ⟨hM.1, hM.2.1, hM.2.2.1⟩)⟩

/-- C19: after `GenerateApicIdtoUidMap` returns success for N processors, the
map has N records and for every i < N the record at position i has
`ProcessorId` i; and every device node `InstallCpuAcpi` emits is the node of
the record at the position i in its name and carries `_UID` i. -/
theorem GenerateApicIdtoUidMap_uid_is_position (sort : SortFn) (hs : SortContract sort)
    (P : SsdtPlatform) (Aml : AmlLib) (G : CpuSsdtGlobals)
    (h : (GenerateApicIdtoUidMap sort P G).1 = .EFI_SUCCESS) :
    ∃ Map, (GenerateApicIdtoUidMap sort P G).2.mApicIdtoUidMap = some Map ∧
      Map.length = (GenerateApicIdtoUidMap sort P G).2.mNumberOfCpus ∧
      (∀ i, i < Map.length → ∃ p, Map[i]? = some p ∧ p.ProcessorId = i) ∧
      (∀ d ∈ (InstallCpuAcpi sort P Aml G).Devices,
        ∃ p, Map[d.NameIndex]? = some p ∧ d = deviceNode d.NameIndex p ∧
          d.Uid = d.NameIndex) := by
  obtain ⟨Mp, n, m, hMp, hn, hpool⟩ := GenerateApicIdtoUidMap_success sort P G h
  have hlen : (assignProcessorId (sortedMap sort P Mp n) 0).length = n := by
    rw [assignProcessorId_length, sortedMap_length sort hs]
  rw [GenerateApicIdtoUidMap_eq sort P G Mp n m hMp hn hpool]
  refine ⟨_, rfl, hlen, ?_, ?_⟩
  · intro i hi
    rw [assignProcessorId_getElem?]
    rw [assignProcessorId_length] at hi
    rw [List.getElem?_eq_getElem hi]
    exact ⟨_, rfl, by simp⟩
  · intro d hd
    obtain ⟨p, hp, _, hid, hnode⟩ :=
      mem_InstallCpuAcpi_node sort hs P Aml G Mp n m hMp hn hpool d hd
    refine ⟨p, hp, hnode, ?_⟩
    rw [hnode]
    exact hid

/-- Witness for C19: the reference sort and processors 1, 9, 4. -/
theorem GenerateApicIdtoUidMap_uid_is_position_witness :
    SortContract referenceSort ∧
    (GenerateApicIdtoUidMap referenceSort (Sample.ssdtPlatform Sample.cpuid 1 [1, 9, 4])
      Sample.globals).1 = .EFI_SUCCESS ∧
    (InstallCpuAcpi referenceSort (Sample.ssdtPlatform Sample.cpuid 1 [1, 9, 4]) Sample.amlLib
      Sample.globals).Devices.map (fun d => (d.NameIndex, d.Uid)) = [(0, 0), (1, 1), (2, 2)] ∧
    ∃ Map, (GenerateApicIdtoUidMap referenceSort (Sample.ssdtPlatform Sample.cpuid 1 [1, 9, 4])
        Sample.globals).2.mApicIdtoUidMap = some Map ∧
      Map.length = (GenerateApicIdtoUidMap referenceSort
        (Sample.ssdtPlatform Sample.cpuid 1 [1, 9, 4]) Sample.globals).2.mNumberOfCpus ∧
      (∀ i, i < Map.length → ∃ p, Map[i]? = some p ∧ p.ProcessorId = i) :=
  ⟨referenceSort_contract, by decide, by decide,
    (GenerateApicIdtoUidMap_uid_is_position referenceSort referenceSort_contract
      (Sample.ssdtPlatform Sample.cpuid 1 [1, 9, 4]) Sample.amlLib Sample.globals
      (by decide)).imp (fun _ hM => ⟨hM.1, hM.2.1, hM.2.2.1⟩)⟩

/-- C20: every device node `InstallCpuAcpi` emits is the node of the record at
the position in its name, and its `_STA` value has the present bit (0x1) and
the show-in-UI bit (0x4) set, the enabled bit (0x2) set exactly when the
record's `StatusFlag` has `PROCESSOR_ENABLED_BIT`, the health bit (0x8) set
exactly when it has `PROCESSOR_HEALTH_STATUS_BIT`, and no bit above these
four. -/
theorem InstallCpuAcpi_sta_bits (sort : SortFn) (hs : SortContract sort) (P : SsdtPlatform)
    (Aml : AmlLib) (G : CpuSsdtGlobals) (Mp : EFI_MP_SERVICES_PROTOCOL) (n m : Nat)
    (hMp : P.MpService = some Mp)
    (hn : Mp.GetNumberOfProcessors = (.EFI_SUCCESS, n, m)) (hpool : P.poolAvailable = true)
    (d : CpuDevice) (hd : d ∈ (InstallCpuAcpi sort P Aml G).Devices) :
    ∃ p, (assignProcessorId (sortedMap sort P Mp n) 0)[d.NameIndex]? = some p ∧
      d.Sta &&& DEVICE_PRESENT_BIT = DEVICE_PRESENT_BIT ∧
      d.Sta &&& DEVICE_IN_UI_BIT = DEVICE_IN_UI_BIT ∧
      (d.Sta &&& DEVICE_ENABLED_BIT ≠ 0 ↔ p.StatusFlag &&& PROCESSOR_ENABLED_BIT ≠ 0) ∧
      (d.Sta &&& DEVICE_HEALTH_BIT ≠ 0 ↔ p.StatusFlag &&& PROCESSOR_HEALTH_STATUS_BIT ≠ 0) ∧
      d.Sta < 16 := by
  obtain ⟨p, hp, _, _, hnode⟩ :=
    mem_InstallCpuAcpi_node sort hs P Aml G Mp n m hMp hn hpool d hd
  refine ⟨p, hp, ?_⟩
  have hsta : d.Sta = deviceStatus p.StatusFlag := by rw [hnode]; rfl
  rw [hsta]
  exact deviceStatus_bits p.StatusFlag

/-- Witness for C20: the reference sort and two processors, one enabled and
healthy, one healthy but not enabled; the `_STA` values are 0xF and 0xD. -/
theorem InstallCpuAcpi_sta_bits_witness :
    SortContract referenceSort ∧
    (InstallCpuAcpi referenceSort
      (Sample.ssdtPlatformWithFlags Sample.cpuid 1 [(0, 0x06), (2, 0x04)])
      Sample.amlLib Sample.globals).Devices.map (fun d => (d.NameIndex, d.Sta))
        = [(0, 0xF), (1, 0xD)] ∧
    ∃ p, (assignProcessorId (sortedMap referenceSort
        (Sample.ssdtPlatformWithFlags Sample.cpuid 1 [(0, 0x06), (2, 0x04)])
        (Sample.mpServicesWithFlags [(0, 0x06), (2, 0x04)]) 2) 0)[1]? = some p ∧
      0xD &&& DEVICE_PRESENT_BIT = DEVICE_PRESENT_BIT ∧
      0xD &&& DEVICE_IN_UI_BIT = DEVICE_IN_UI_BIT ∧
      (0xD &&& DEVICE_ENABLED_BIT ≠ 0 ↔ p.StatusFlag &&& PROCESSOR_ENABLED_BIT ≠ 0) ∧
      (0xD &&& DEVICE_HEALTH_BIT ≠ 0 ↔ p.StatusFlag &&& PROCESSOR_HEALTH_STATUS_BIT ≠ 0) ∧
      0xD < 16 :=
  ⟨referenceSort_contract, by decide,
    InstallCpuAcpi_sta_bits referenceSort referenceSort_contract
      (Sample.ssdtPlatformWithFlags Sample.cpuid 1 [(0, 0x06), (2, 0x04)]) Sample.amlLib
      Sample.globals (Sample.mpServicesWithFlags [(0, 0x06), (2, 0x04)]) 2 1 rfl rfl rfl
      { NameIndex := 1, Hid := "ACPI0007", Uid := 1, Sta := 0xD, Pack := 0, Ccd := 1, Ccx := 0,
        Core := 0, Thrd := 0 } (by decide)⟩

end Ssdt

namespace Ssdt

/-! ## Claims about failures -/

/-- Any error of `GenerateApicIdtoUidMap` makes `InstallCpuAcpi` return
`EFI_NOT_FOUND` before any AML object is created. -/
theorem InstallCpuAcpi_of_map_error (sort : SortFn) (P : SsdtPlatform) (Aml : AmlLib)
    (G : CpuSsdtGlobals) (h : EFI_ERROR (GenerateApicIdtoUidMap sort P G).1 = true) :
    (InstallCpuAcpi sort P Aml G).Status = .EFI_NOT_FOUND ∧
    (InstallCpuAcpi sort P Aml G).Devices = [] ∧
    (InstallCpuAcpi sort P Aml G).Appended = false := by
  unfold InstallCpuAcpi
  cases hMp : P.MpService with
  | none => exact ⟨rfl, rfl, rfl⟩
  | some Mp =>
    simp only [h, if_true]
    exact ⟨trivial, trivial, trivial⟩

/-- C21, as stated, fails: on the sample platform with processors 1, 9, 4
whose pool allocation for the map fails, `GenerateApicIdtoUidMap` returns
`EFI_OUT_OF_RESOURCES`, but `InstallCpuAcpi` returns `EFI_NOT_FOUND`, not
`EFI_OUT_OF_RESOURCES`, whatever sort routine is used. -/
theorem InstallCpuAcpi_hides_out_of_resources :
    ¬ ∃ sort : SortFn,
      ((GenerateApicIdtoUidMap sort (Sample.ssdtPlatformNoPool Sample.cpuid 1 [1, 9, 4])
          Sample.globals).1 = .EFI_OUT_OF_RESOURCES →
        (InstallCpuAcpi sort (Sample.ssdtPlatformNoPool Sample.cpuid 1 [1, 9, 4])
          Sample.amlLib Sample.globals).Status = .EFI_OUT_OF_RESOURCES) := by
  rintro ⟨sort, h⟩
  have hg : (GenerateApicIdtoUidMap sort (Sample.ssdtPlatformNoPool Sample.cpuid 1 [1, 9, 4])
      Sample.globals).1 = .EFI_OUT_OF_RESOURCES := rfl
  have h1 := h hg
  have h2 := (InstallCpuAcpi_of_map_error sort
    (Sample.ssdtPlatformNoPool Sample.cpuid 1 [1, 9, 4]) Sample.amlLib Sample.globals
    (by rw [hg]; rfl)).1
  rw [h2] at h1
  cases h1

/-- C21, amended: when building the processor map fails because its buffer
cannot be allocated (`GenerateApicIdtoUidMap` returns `EFI_OUT_OF_RESOURCES`),
`InstallCpuAcpi` returns `EFI_NOT_FOUND` to its caller, emits no device node
and appends no table. -/
theorem InstallCpuAcpi_out_of_resources_as_not_found (sort : SortFn) (P : SsdtPlatform)
    (Aml : AmlLib) (G : CpuSsdtGlobals)
    (h : (GenerateApicIdtoUidMap sort P G).1 = .EFI_OUT_OF_RESOURCES) :
    (InstallCpuAcpi sort P Aml G).Status = .EFI_NOT_FOUND ∧
    (InstallCpuAcpi sort P Aml G).Devices = [] ∧
    (InstallCpuAcpi sort P Aml G).Appended = false :=
  InstallCpuAcpi_of_map_error sort P Aml G (by rw [h]; rfl)

/-- Witness for the amended C21: the sample platform whose pool allocation
fails. -/
theorem InstallCpuAcpi_out_of_resources_as_not_found_witness :
    (GenerateApicIdtoUidMap referenceSort (Sample.ssdtPlatformNoPool Sample.cpuid 1 [1, 9, 4])
      Sample.globals).1 = .EFI_OUT_OF_RESOURCES ∧
    (InstallCpuAcpi referenceSort (Sample.ssdtPlatformNoPool Sample.cpuid 1 [1, 9, 4])
      Sample.amlLib Sample.globals).Status = .EFI_NOT_FOUND ∧
    (InstallCpuAcpi referenceSort (Sample.ssdtPlatformNoPool Sample.cpuid 1 [1, 9, 4])
      Sample.amlLib Sample.globals).Devices = [] ∧
    (InstallCpuAcpi referenceSort (Sample.ssdtPlatformNoPool Sample.cpuid 1 [1, 9, 4])
      Sample.amlLib Sample.globals).Appended = false :=
  ⟨rfl, InstallCpuAcpi_out_of_resources_as_not_found referenceSort
    (Sample.ssdtPlatformNoPool Sample.cpuid 1 [1, 9, 4]) Sample.amlLib Sample.globals rfl⟩

end Ssdt

namespace Madt

/-- C22: for a well-formed MADT with contiguous local-x2APIC entries and IOAPIC
information available, when the partition is due (the second entry after the
sort has an odd `X2ApicId`) and its buffer cannot be allocated,
`MadtAcpiTablePatch` returns `EFI_OUT_OF_RESOURCES` and the local-x2APIC
entries of the table are exactly the array after the sort calls and the UID
loop, in that order and with those UIDs. -/
theorem MadtAcpiTablePatch_partition_out_of_resources (sort : SortFn) (hs : SortContract sort)
    (P : MadtPlatform) (T : MadtTable)
    (N : List EFI_ACPI_6_5_IO_APIC_STRUCTURE) (pre post : List MadtStructure)
    (arr : List EFI_ACPI_6_5_PROCESSOR_LOCAL_X2APIC_STRUCTURE)
    (hwf : WellFormed T) (hrun : LocalX2ApicRun T pre arr post) (hio : IoApicInfo P N)
    (e : EFI_ACPI_6_5_PROCESSOR_LOCAL_X2APIC_STRUCTURE)
    (hsecond : (sortedWithUid sort P arr)[1]? = some e) (hodd : e.X2ApicId % 2 = 1)
    (hpool : P.poolAvailable = false) :
    ∃ T2, MadtAcpiTablePatch sort P T = .ok (.EFI_OUT_OF_RESOURCES, T2) ∧
      localX2ApicEntries T2 = sortedWithUid sort P arr ∧
      localX2ApicEntries T2
        = assignUid (sortByCcdHalves sort P.PcdMaxCpuSocketCount (SortByCcd P.cpuid) arr) 0 ∧
      ∀ i, i < arr.length →
        ∃ a, (localX2ApicEntries T2)[i]? = some a ∧ a.AcpiProcessorUid = i := by
  obtain ⟨st, T2, h, _, _, hent, hst, _⟩ :=
    MadtAcpiTablePatch_getElem? sort hs P T N pre post arr hwf hrun hio
  have hc := (collateOrSkip_of_second sort hs P arr e hsecond).1 hodd
  rw [hpool] at hc
  simp only [Bool.false_eq_true, if_false] at hc
  rw [hc] at hent hst
  subst hst
  refine ⟨T2, h, hent, hent, ?_⟩
  intro i hi
  rw [hent, sortedWithUid_getElem?]
  have hlt : i < (sortByCcdHalves sort P.PcdMaxCpuSocketCount (SortByCcd P.cpuid) arr).length := by
    rw [sortByCcdHalves_length sort hs]; exact hi
  rw [List.getElem?_eq_getElem hlt]
  exact ⟨_, rfl, rfl⟩

/-- Witness for C22: the sample table with entries 1, 9, 4, one socket, and no
pool for the partition buffer: the entries stay in sorted order 1, 9, 4 with
UIDs 0, 1, 2. -/
theorem MadtAcpiTablePatch_partition_out_of_resources_witness :
    (Sample.platform Sample.cpuid 1 false).poolAvailable = false ∧
    ∃ T2, MadtAcpiTablePatch referenceSort (Sample.platform Sample.cpuid 1 false)
        (Sample.table [1, 9, 4]) = .ok (.EFI_OUT_OF_RESOURCES, T2) ∧
      localX2ApicEntries T2
        = sortedWithUid referenceSort (Sample.platform Sample.cpuid 1 false)
            ([1, 9, 4].map Sample.x2apic) ∧
      localX2ApicEntries T2
        = assignUid (sortByCcdHalves referenceSort
            (Sample.platform Sample.cpuid 1 false).PcdMaxCpuSocketCount
            (SortByCcd (Sample.platform Sample.cpuid 1 false).cpuid)
            ([1, 9, 4].map Sample.x2apic)) 0 ∧
      ∀ i, i < ([1, 9, 4].map Sample.x2apic).length →
        ∃ a, (localX2ApicEntries T2)[i]? = some a ∧ a.AcpiProcessorUid = i :=
  ⟨rfl, MadtAcpiTablePatch_partition_out_of_resources referenceSort referenceSort_contract
    (Sample.platform Sample.cpuid 1 false) (Sample.table [1, 9, 4]) Sample.nbioIoApic
    Sample.pre Sample.post ([1, 9, 4].map Sample.x2apic) (Sample.wellFormed_table _)
    (Sample.run_table _) (Sample.ioApicInfo _ _ _)
    { Sample.x2apic 9 with AcpiProcessorUid := 1 } (by decide) (by decide) rfl⟩

end Madt

namespace Ssdt

/-! ## Lemmas: the stored locations -/

/-- Every record of the map after the sort is the record read for one of the
processors the MP services report. -/
theorem mem_sortedMap (sort : SortFn) (hs : SortContract sort) (P : SsdtPlatform)
    (Mp : EFI_MP_SERVICES_PROTOCOL) (n : Nat) (q : EFI_PROCESSOR_INFORMATION)
    (h : q ∈ sortedMap sort P Mp n) : ∃ j, j < n ∧ q = readProcessor P.cpuid Mp j := by
  have h2 := (sortedMap_perm sort hs P Mp n).subset h
  simp only [List.mem_map, List.mem_range] at h2
  obtain ⟨j, hj, rfl⟩ := h2
  exact ⟨j, hj, rfl⟩

/-- C26: every device node `InstallCpuAcpi` emits belongs to one of the
processors the MP services report, and its PACK, CCD_, CCX_, CORE and THRD
integers are the package, CCD, complex, core and thread outputs of
`AmdGetProcessorLocation2ByApicId` for that processor's original
`ProcessorId`, taken as a 32-bit APIC id; CCD_ is the CCD output, which is the
stored `Location2.Die` that `SortByCcd` ranks, while the die output of the
same call is 0. -/
theorem InstallCpuAcpi_location_integers (sort : SortFn) (hs : SortContract sort)
    (P : SsdtPlatform) (Aml : AmlLib) (G : CpuSsdtGlobals) (Mp : EFI_MP_SERVICES_PROTOCOL)
    (n m : Nat) (hMp : P.MpService = some Mp)
    (hn : Mp.GetNumberOfProcessors = (.EFI_SUCCESS, n, m)) (hpool : P.poolAvailable = true)
    (d : CpuDevice) (hd : d ∈ (InstallCpuAcpi sort P Aml G).Devices) :
    ∃ j, j < n ∧
      (sortedMap sort P Mp n)[d.NameIndex]? = some (readProcessor P.cpuid Mp j) ∧
      d.Pack = (AmdGetProcessorLocation2ByApicId P.cpuid
        ((Mp.GetProcessorInfo j).ProcessorId % 2 ^ 32) allOutputs).Package.getD 0 ∧
      d.Ccd = (AmdGetProcessorLocation2ByApicId P.cpuid
        ((Mp.GetProcessorInfo j).ProcessorId % 2 ^ 32) allOutputs).Ccd.getD 0 ∧
      d.Ccx = (AmdGetProcessorLocation2ByApicId P.cpuid
        ((Mp.GetProcessorInfo j).ProcessorId % 2 ^ 32) allOutputs).Complex.getD 0 ∧
      d.Core = (AmdGetProcessorLocation2ByApicId P.cpuid
        ((Mp.GetProcessorInfo j).ProcessorId % 2 ^ 32) allOutputs).Core.getD 0 ∧
      d.Thrd = (AmdGetProcessorLocation2ByApicId P.cpuid
        ((Mp.GetProcessorInfo j).ProcessorId % 2 ^ 32) allOutputs).Thread.getD 0 ∧
      (AmdGetProcessorLocation2ByApicId P.cpuid
        ((Mp.GetProcessorInfo j).ProcessorId % 2 ^ 32) allOutputs).Die = some 0 ∧
      d.Ccd = (readProcessor P.cpuid Mp j).ExtendedInformation.Location2.Die := by
  obtain ⟨p, hp, _, _, hnode⟩ :=
    mem_InstallCpuAcpi_node sort hs P Aml G Mp n m hMp hn hpool d hd
  rw [assignProcessorId_getElem?] at hp
  cases hq : (sortedMap sort P Mp n)[d.NameIndex]? with
  | none => simp [hq] at hp
  | some q =>
    simp only [hq, Option.map_some', Option.some.injEq, Nat.zero_add] at hp
    obtain ⟨j, hj, hqj⟩ := mem_sortedMap sort hs P Mp n q (List.getElem?_mem hq)
    subst hqj
    have e1 : d.Pack = (readProcessor P.cpuid Mp j).ExtendedInformation.Location2.Package := by
      rw [hnode, ← hp]; rfl
    have e2 : d.Ccd = (readProcessor P.cpuid Mp j).ExtendedInformation.Location2.Die := by
      rw [hnode, ← hp]; rfl
    have e3 : d.Ccx = (readProcessor P.cpuid Mp j).ExtendedInformation.Location2.Module := by
      rw [hnode, ← hp]; rfl
    have e4 : d.Core = (readProcessor P.cpuid Mp j).ExtendedInformation.Location2.Core := by
      rw [hnode, ← hp]; rfl
    have e5 : d.Thrd = (readProcessor P.cpuid Mp j).ExtendedInformation.Location2.Thread := by
      rw [hnode, ← hp]; rfl
    refine ⟨j, hj, rfl, ?_, ?_, ?_, ?_, ?_, ?_, ?_⟩
    · rw [e1]; simp only [readProcessor, decodeLocation2]
    · rw [e2]; simp only [readProcessor, decodeLocation2]
    · rw [e3]; simp only [readProcessor, decodeLocation2]
    · rw [e4]; simp only [readProcessor, decodeLocation2]
    · rw [e5]; simp only [readProcessor, decodeLocation2]
    · simp [AmdGetProcessorLocation2ByApicId, allOutputs]
    · exact e2

/-- Witness for C26: the reference sort and processors 1, 9, 4 (CCD numbers 0,
4, 2 with the sample widths); the nodes carry CCD_ 0, 4, 2 in map order. -/
theorem InstallCpuAcpi_location_integers_witness :
    SortContract referenceSort ∧
    (InstallCpuAcpi referenceSort (Sample.ssdtPlatform Sample.cpuid 1 [1, 9, 4]) Sample.amlLib
      Sample.globals).Devices.map (fun d => (d.Pack, d.Ccd, d.Ccx, d.Core, d.Thrd))
        = [(0, 0, 0, 0, 1), (0, 4, 0, 0, 1), (0, 2, 0, 0, 0)] ∧
    ∃ j, j < 3 ∧
      (sortedMap referenceSort (Sample.ssdtPlatform Sample.cpuid 1 [1, 9, 4])
        (Sample.mpServices [1, 9, 4]) 3)[1]?
        = some (readProcessor Sample.cpuid (Sample.mpServices [1, 9, 4]) j) ∧
      4 = (AmdGetProcessorLocation2ByApicId Sample.cpuid
        (((Sample.mpServices [1, 9, 4]).GetProcessorInfo j).ProcessorId % 2 ^ 32)
        allOutputs).Ccd.getD 0 :=
  ⟨referenceSort_contract, by decide,
    (InstallCpuAcpi_location_integers referenceSort referenceSort_contract
      (Sample.ssdtPlatform Sample.cpuid 1 [1, 9, 4]) Sample.amlLib Sample.globals
      (Sample.mpServices [1, 9, 4]) 3 3 rfl rfl rfl
      { NameIndex := 1, Hid := "ACPI0007", Uid := 1, Sta := 0xF, Pack := 0, Ccd := 4, Ccx := 0,
        Core := 0, Thrd := 1 } (by decide)).imp
      (fun _ h => ⟨h.1, h.2.1, h.2.2.2.1⟩)⟩

end Ssdt

namespace Madt

/-! ## Claims about the frame of the patch and the two comparators -/

theorem assignUid_map_erase :
    ∀ (l : List EFI_ACPI_6_5_PROCESSOR_LOCAL_X2APIC_STRUCTURE) (i : Nat),
      (assignUid l i).map (fun e => { e with AcpiProcessorUid := 0 })
        = l.map (fun e => { e with AcpiProcessorUid := 0 }) := by
  intro l
  induction l with
  | nil => intro _; rfl
  | cons e rest ih => intro i; simp [assignUid, ih]

/-- The array block leaves the entries of the array, `AcpiProcessorUid` apart,
rearranged. -/
theorem collateOrSkip_perm_erase (sort : SortFn) (hs : SortContract sort) (P : MadtPlatform)
    (arr : List EFI_ACPI_6_5_PROCESSOR_LOCAL_X2APIC_STRUCTURE) :
    ((collateOrSkip sort P arr).2.map (fun e => { e with AcpiProcessorUid := 0 })).Perm
      (arr.map (fun e => { e with AcpiProcessorUid := 0 })) := by
  have h1 := (collateOrSkip_perm sort hs P arr).map
    (fun e : EFI_ACPI_6_5_PROCESSOR_LOCAL_X2APIC_STRUCTURE => { e with AcpiProcessorUid := 0 })
  have h2 := (sortByCcdHalves_perm sort hs P.PcdMaxCpuSocketCount (SortByCcd P.cpuid) arr).map
    (fun e : EFI_ACPI_6_5_PROCESSOR_LOCAL_X2APIC_STRUCTURE => { e with AcpiProcessorUid := 0 })
  unfold sortedWithUid at h1
  rw [assignUid_map_erase] at h1
  exact h1.trans h2

/-- C27: for every well-formed MADT whose local-x2APIC entries are contiguous
(two or more, and in this embedding also fewer), whether the IOAPIC
information is there or not, `MadtAcpiTablePatch` returns and only permutes
those entries: the entries after the patch, `AcpiProcessorUid` apart, are a
permutation of the entries before it, so the multiset of their `(X2ApicId,
Flags)` pairs is the same, their number is the same, and every entry after the
patch is an entry from before with only `AcpiProcessorUid` rewritten. -/
theorem MadtAcpiTablePatch_only_permutes_entries (sort : SortFn) (hs : SortContract sort)
    (P : MadtPlatform) (T : MadtTable) (pre post : List MadtStructure)
    (arr : List EFI_ACPI_6_5_PROCESSOR_LOCAL_X2APIC_STRUCTURE)
    (hwf : WellFormed T) (hrun : LocalX2ApicRun T pre arr post) :
    localX2ApicEntries T = arr ∧
    ∃ st T2, MadtAcpiTablePatch sort P T = .ok (st, T2) ∧
      ((localX2ApicEntries T2).map (fun e => { e with AcpiProcessorUid := 0 })).Perm
        ((localX2ApicEntries T).map (fun e => { e with AcpiProcessorUid := 0 })) ∧
      ((localX2ApicEntries T2).map (fun e => (e.X2ApicId, e.Flags))).Perm
        ((localX2ApicEntries T).map (fun e => (e.X2ApicId, e.Flags))) ∧
      (localX2ApicEntries T2).length = arr.length ∧
      ∀ e ∈ localX2ApicEntries T2,
        ∃ e0 ∈ localX2ApicEntries T, e = { e0 with AcpiProcessorUid := e.AcpiProcessorUid } := by
  have harr := localX2ApicEntries_of_run T pre post arr hrun
  have hskip : MadtAcpiTablePatch sort P T = .ok (.EFI_SUCCESS, setRevision T) →
      ∃ st T2, MadtAcpiTablePatch sort P T = .ok (st, T2) ∧
      ((localX2ApicEntries T2).map (fun e => { e with AcpiProcessorUid := 0 })).Perm
        ((localX2ApicEntries T).map (fun e => { e with AcpiProcessorUid := 0 })) ∧
      ((localX2ApicEntries T2).map (fun e => (e.X2ApicId, e.Flags))).Perm
        ((localX2ApicEntries T).map (fun e => (e.X2ApicId, e.Flags))) ∧
      (localX2ApicEntries T2).length = arr.length ∧
      ∀ e ∈ localX2ApicEntries T2,
        ∃ e0 ∈ localX2ApicEntries T,
          e = { e0 with AcpiProcessorUid := e.AcpiProcessorUid } := by
    intro h
    have hT : localX2ApicEntries (setRevision T) = localX2ApicEntries T := rfl
    refine ⟨_, _, h, ?_, ?_, ?_, ?_⟩
    · rw [hT]
    · rw [hT]
    · rw [hT, harr]
    · intro e he
      rw [hT] at he
      exact ⟨e, he, rfl⟩
  refine ⟨harr, ?_⟩
  cases hN : P.NbioIoApic with
  | none => exact hskip (by simp only [MadtAcpiTablePatch, hN])
  | some N =>
    by_cases hc : P.IoApicCount = 0
    · exact hskip (by simp only [MadtAcpiTablePatch, hN, hc, if_true])
    · obtain ⟨st, T2, h, _, _, hent, _, _⟩ :=
        MadtAcpiTablePatch_getElem? sort hs P T N pre post arr hwf hrun ⟨hN, hc⟩
      have hp := collateOrSkip_perm_erase sort hs P arr
      refine ⟨st, T2, h, ?_, ?_, ?_, ?_⟩
      · rw [hent, harr]; exact hp
      · rw [hent, harr]
        have := hp.map (fun e : EFI_ACPI_6_5_PROCESSOR_LOCAL_X2APIC_STRUCTURE =>
          (e.X2ApicId, e.Flags))
        simpa only [List.map_map, Function.comp] using this
      · rw [hent, collateOrSkip_length sort hs]
      · intro e he
        rw [hent] at he
        rw [harr]
        exact mem_collateOrSkip sort hs P arr e he

/-- Witness for C27 on the sample table with entries 1, 9, 4. -/
theorem MadtAcpiTablePatch_only_permutes_entries_witness :
    2 ≤ ([1, 9, 4].map Sample.x2apic).length ∧
    localX2ApicEntries (Sample.table [1, 9, 4]) = [1, 9, 4].map Sample.x2apic ∧
    ∃ st T2, MadtAcpiTablePatch referenceSort (Sample.platform Sample.cpuid 1 true)
        (Sample.table [1, 9, 4]) = .ok (st, T2) ∧
      ((localX2ApicEntries T2).map (fun e => { e with AcpiProcessorUid := 0 })).Perm
        ((localX2ApicEntries (Sample.table [1, 9, 4])).map
          (fun e => { e with AcpiProcessorUid := 0 })) ∧
      ((localX2ApicEntries T2).map (fun e => (e.X2ApicId, e.Flags))).Perm
        ((localX2ApicEntries (Sample.table [1, 9, 4])).map (fun e => (e.X2ApicId, e.Flags))) ∧
      (localX2ApicEntries T2).length = ([1, 9, 4].map Sample.x2apic).length ∧
      ∀ e ∈ localX2ApicEntries T2,
        ∃ e0 ∈ localX2ApicEntries (Sample.table [1, 9, 4]),
          e = { e0 with AcpiProcessorUid := e.AcpiProcessorUid } :=
  ⟨by decide, MadtAcpiTablePatch_only_permutes_entries referenceSort referenceSort_contract
    (Sample.platform Sample.cpuid 1 true) (Sample.table [1, 9, 4])
    Sample.pre Sample.post ([1, 9, 4].map Sample.x2apic) (Sample.wellFormed_table _)
    (Sample.run_table _)⟩

end Madt

/-- C28: for the same CPUID answers, the comparator of MadtAcpiTablePatch.c on
two entries returns what the comparator of CpuSsdt.c returns on the records
`GenerateApicIdtoUidMap` has read for two processors whose `ProcessorId`, as a
32-bit APIC id, is the `X2ApicId` of the entries; and the text of
`AmdGetProcessorLocation2ByApicId` and of `mCcdOrder` in CpuSsdt.c denotes the
same function and the same table as the text in MadtAcpiTablePatch.c. -/
theorem SortByCcd_madt_eq_ssdt :
    (∀ (cpuid : Cpuid) (Mp : EFI_MP_SERVICES_PROTOCOL) (i j : Nat)
        (a b : EFI_ACPI_6_5_PROCESSOR_LOCAL_X2APIC_STRUCTURE),
      a.X2ApicId = (Mp.GetProcessorInfo i).ProcessorId % 2 ^ 32 →
      b.X2ApicId = (Mp.GetProcessorInfo j).ProcessorId % 2 ^ 32 →
      Madt.SortByCcd cpuid a b
        = Ssdt.SortByCcd (Ssdt.readProcessor cpuid Mp i) (Ssdt.readProcessor cpuid Mp j)) ∧
    CpuSsdt.AmdGetProcessorLocation2ByApicId = AmdGetProcessorLocation2ByApicId ∧
    CpuSsdt.mCcdOrder = mCcdOrder := by
  refine ⟨?_, rfl, rfl⟩
  intro cpuid Mp i j a b ha hb
  simp only [Madt.SortByCcd, Ssdt.SortByCcd, Ssdt.readProcessor, ha, hb]

/-- Witness for C28: entries 9 and 4 against the records read for processors
9 and 4 of the sample MP services. -/
theorem SortByCcd_madt_eq_ssdt_witness :
    (Sample.x2apic 9).X2ApicId
      = ((Sample.mpServices [1, 9, 4]).GetProcessorInfo 1).ProcessorId % 2 ^ 32 ∧
    Madt.SortByCcd Sample.cpuid (Sample.x2apic 9) (Sample.x2apic 4)
      = Ssdt.SortByCcd (Ssdt.readProcessor Sample.cpuid (Sample.mpServices [1, 9, 4]) 1)
          (Ssdt.readProcessor Sample.cpuid (Sample.mpServices [1, 9, 4]) 2) ∧
    Madt.SortByCcd Sample.cpuid (Sample.x2apic 9) (Sample.x2apic 4) = -1 :=
  ⟨by decide,
    SortByCcd_madt_eq_ssdt.1 Sample.cpuid (Sample.mpServices [1, 9, 4]) 1 2 (Sample.x2apic 9)
      (Sample.x2apic 4) (by decide) (by decide),
    by decide⟩

/-! ## Lemmas: putting the decoded fields together -/

theorem mod_or_shift (id a b : Nat) (hab : a ≤ b) :
    id % 2 ^ a ||| ((id % 2 ^ b / 2 ^ a) <<< a) = id % 2 ^ b := by
  have hdvd : 2 ^ a ∣ 2 ^ b := Nat.pow_dvd_pow 2 hab
  have hlt : id % 2 ^ a < 2 ^ a := Nat.mod_lt _ (Nat.two_pow_pos a)
  rw [Nat.shiftLeft_eq, Nat.or_comm, Nat.mul_comm, ← Nat.mul_add_lt_is_or hlt]
  have h := Nat.div_add_mod (id % 2 ^ b) (2 ^ a)
  rw [Nat.mod_mod_of_dvd _ hdvd] at h
  exact h

theorem topologyBits_getD (cpuid : Cpuid) (L : Nat) (h1 : 1 ≤ L) (h6 : L ≤ 6) :
    (topologyBits cpuid).getD L 0 = effectiveWidth cpuid L := by
  rw [topologyBits_eq]
  interval_cases L <;> rfl

/-- The five outputs of the decoder as remainders and quotients, when the die
width is below 31. -/
theorem decodeLocation2_fields (cpuid : Cpuid) (id : Nat)
    (h5 : effectiveWidth cpuid 5 < 31) :
    (decodeLocation2 cpuid id).Thread = id % 2 ^ effectiveWidth cpuid 1 ∧
    (decodeLocation2 cpuid id).Core
      = id % 2 ^ effectiveWidth cpuid 2 / 2 ^ effectiveWidth cpuid 1 ∧
    (decodeLocation2 cpuid id).Module
      = id % 2 ^ effectiveWidth cpuid 3 / 2 ^ effectiveWidth cpuid 2 ∧
    (decodeLocation2 cpuid id).Die
      = id % 2 ^ effectiveWidth cpuid 4 / 2 ^ effectiveWidth cpuid 3 ∧
    (decodeLocation2 cpuid id).Package
      = id % 2 ^ (effectiveWidth cpuid 5 + 1) / 2 ^ effectiveWidth cpuid 5 := by
  have e0 : effectiveWidth cpuid 0 = 0 := rfl
  have hw := effectiveWidth_lt cpuid
  have h6 := effectiveWidth_six cpuid
  refine ⟨?_, ?_, ?_, ?_, ?_⟩
  · show locationField (topologyBits cpuid) id 1 = _
    rw [locationField_topologyBits cpuid id 1 (by decide) (by decide),
      maskShift32_eq _ _ _ (hw 1 (by decide))]
    simp [e0]
  · show locationField (topologyBits cpuid) id 2 = _
    rw [locationField_topologyBits cpuid id 2 (by decide) (by decide),
      maskShift32_eq _ _ _ (hw 2 (by decide))]
  · show locationField (topologyBits cpuid) id 3 = _
    rw [locationField_topologyBits cpuid id 3 (by decide) (by decide),
      maskShift32_eq _ _ _ (hw 3 (by decide))]
  · show locationField (topologyBits cpuid) id 4 = _
    rw [locationField_topologyBits cpuid id 4 (by decide) (by decide),
      maskShift32_eq _ _ _ (hw 4 (by decide))]
  · show locationField (topologyBits cpuid) id 6 = _
    rw [locationField_topologyBits cpuid id 6 (by decide) (by decide),
      maskShift32_eq _ _ _ (by rw [h6]; omega), h6]

/-! ## Claim about the decoded fields and the APIC id -/

/-- C29: when the widths `Bits[L]` the decoder uses are non-decreasing from the
SMT level to the CCD level, the die width equals the CCD width and is below
31, the decoded fields determine the low bits of the APIC id:
`thread | core << w_smt | complex << w_core | ccd << w_ccx | package << w_ccd`
equals `apicId & (2^(w_ccd + 1) - 1)`; hence two APIC ids below
`2^(w_ccd + 1)` with the same decoded location are equal.  The location is
the one the call pattern of both files stores: the complex output in `Module`
and the CCD output in `Die`. -/
theorem decodeLocation2_determines_low_bits (cpuid : Cpuid) (apicId : Nat)
    (h12 : (topologyBits cpuid).getD 1 0 ≤ (topologyBits cpuid).getD 2 0)
    (h23 : (topologyBits cpuid).getD 2 0 ≤ (topologyBits cpuid).getD 3 0)
    (h34 : (topologyBits cpuid).getD 3 0 ≤ (topologyBits cpuid).getD 4 0)
    (h45 : (topologyBits cpuid).getD 5 0 = (topologyBits cpuid).getD 4 0)
    (h5 : (topologyBits cpuid).getD 5 0 < 31) :
    ((decodeLocation2 cpuid apicId).Thread
      ||| (decodeLocation2 cpuid apicId).Core <<< (topologyBits cpuid).getD 1 0
      ||| (decodeLocation2 cpuid apicId).Module <<< (topologyBits cpuid).getD 2 0
      ||| (decodeLocation2 cpuid apicId).Die <<< (topologyBits cpuid).getD 3 0
      ||| (decodeLocation2 cpuid apicId).Package <<< (topologyBits cpuid).getD 4 0
      = apicId &&& (2 ^ ((topologyBits cpuid).getD 4 0 + 1) - 1)) ∧
    (∀ other : Nat, apicId < 2 ^ ((topologyBits cpuid).getD 4 0 + 1) →
      other < 2 ^ ((topologyBits cpuid).getD 4 0 + 1) →
      decodeLocation2 cpuid apicId = decodeLocation2 cpuid other → apicId = other) := by
  rw [topologyBits_getD cpuid 1 (by decide) (by decide),
    topologyBits_getD cpuid 2 (by decide) (by decide),
    topologyBits_getD cpuid 3 (by decide) (by decide),
    topologyBits_getD cpuid 4 (by decide) (by decide),
    topologyBits_getD cpuid 5 (by decide) (by decide)] at *
  have key : ∀ id : Nat,
      (decodeLocation2 cpuid id).Thread
        ||| (decodeLocation2 cpuid id).Core <<< effectiveWidth cpuid 1
        ||| (decodeLocation2 cpuid id).Module <<< effectiveWidth cpuid 2
        ||| (decodeLocation2 cpuid id).Die <<< effectiveWidth cpuid 3
        ||| (decodeLocation2 cpuid id).Package <<< effectiveWidth cpuid 4
        = id % 2 ^ (effectiveWidth cpuid 4 + 1) := by
    intro id
    obtain ⟨f1, f2, f3, f4, f6⟩ := decodeLocation2_fields cpuid id h5
    rw [f1, f2, f3, f4, f6, h45, mod_or_shift id _ _ h12, mod_or_shift id _ _ h23,
      mod_or_shift id _ _ h34, mod_or_shift id _ _ (Nat.le_succ _)]
  refine ⟨?_, ?_⟩
  · rw [key, Nat.and_pow_two_sub_one_eq_mod]
  · intro other h1 h2 heq
    have k1 := key apicId
    have k2 := key other
    rw [heq, k2, Nat.mod_eq_of_lt h2] at k1
    rw [Nat.mod_eq_of_lt h1] at k1
    exact k1.symm

/-- Witness for C29: the widths of the 2 x 2 x 2 x 2 scenario (SMT 1, core 2,
complex 2, CCD 3, die 3) and APIC id 13. -/
theorem decodeLocation2_determines_low_bits_witness :
    (topologyBits Sample.cpuid16).getD 5 0 < 31 ∧
    ((decodeLocation2 Sample.cpuid16 13).Thread
      ||| (decodeLocation2 Sample.cpuid16 13).Core <<< (topologyBits Sample.cpuid16).getD 1 0
      ||| (decodeLocation2 Sample.cpuid16 13).Module <<< (topologyBits Sample.cpuid16).getD 2 0
      ||| (decodeLocation2 Sample.cpuid16 13).Die <<< (topologyBits Sample.cpuid16).getD 3 0
      ||| (decodeLocation2 Sample.cpuid16 13).Package <<< (topologyBits Sample.cpuid16).getD 4 0
      = 13 &&& (2 ^ ((topologyBits Sample.cpuid16).getD 4 0 + 1) - 1)) ∧
    (∀ other : Nat, 13 < 2 ^ ((topologyBits Sample.cpuid16).getD 4 0 + 1) →
      other < 2 ^ ((topologyBits Sample.cpuid16).getD 4 0 + 1) →
      decodeLocation2 Sample.cpuid16 13 = decodeLocation2 Sample.cpuid16 other → 13 = other) :=
  ⟨by decide, decodeLocation2_determines_low_bits Sample.cpuid16 13 (by decide) (by decide)
    (by decide) (by decide) (by decide)⟩

namespace DxePlatformSocLib

/-! ## Lemmas: the IOAPIC list of the Turin library -/

theorem MaximumRedirectionEntry_lt (Uint32 : Nat) : MaximumRedirectionEntry Uint32 < 256 :=
  Nat.mod_lt _ (by decide)

theorem nbioInterruptCount_le (S : SocPlatform) (h : GNB_HANDLE) :
    0 < nbioInterruptCount S h ∧ nbioInterruptCount S h ≤ 256 := by
  unfold nbioInterruptCount
  have := MaximumRedirectionEntry_lt
    (readIoApicRegister S (nbioIoApicAddress S h) S.IO_APIC_VERSION_REGISTER_INDEX)
  omega

theorem fchInterruptCount_le (S : SocPlatform) :
    0 < fchInterruptCount S ∧ fchInterruptCount S ≤ 256 := by
  unfold fchInterruptCount
  have := MaximumRedirectionEntry_lt
    (readIoApicRegister S S.PcdIoApicAddress S.IO_APIC_VERSION_REGISTER_INDEX)
  omega

theorem nbioIoApics_length (S : SocPlatform) :
    ∀ (handles : List GNB_HANDLE) (base : Nat), (nbioIoApics S handles base).length
      = handles.length := by
  intro handles
  induction handles with
  | nil => intro _; rfl
  | cons h rest ih => intro base; simp [nbioIoApics, ih]

theorem sum_take_succ (l : List Nat) (j n : Nat) (h : l[j]? = some n) :
    (l.take (j + 1)).sum = (l.take j).sum + n := by
  rw [List.take_succ, h]
  simp

/-- The element the loop stores for the handle at position `i`: its interrupt
base is the base the loop started with plus the interrupt inputs of the
handles before it. -/
theorem nbioIoApics_getElem? (S : SocPlatform) :
    ∀ (handles : List GNB_HANDLE) (base i : Nat) (h : GNB_HANDLE),
      base + 256 * handles.length < 2 ^ 32 → handles[i]? = some h →
      ((nbioIoApics S handles base)[i]?).map
          (fun e => (e.GlobalSystemInterruptBase, e.IoApicAddress))
        = some (base + ((handles.map (nbioInterruptCount S)).take i).sum,
            nbioIoApicAddress S h) := by
  intro handles
  induction handles with
  | nil => intro _ _ _ _ h; simp at h
  | cons g rest ih =>
    intro base i h hb hi
    cases i with
    | zero =>
      simp only [List.getElem?_cons_zero, Option.some.injEq] at hi
      subst hi
      simp [nbioIoApics]
    | succ i =>
      simp only [List.getElem?_cons_succ] at hi
      have hg := nbioInterruptCount_le S g
      have hlen : (g :: rest).length = rest.length + 1 := rfl
      rw [hlen] at hb
      have hmod : (base + (MaximumRedirectionEntry (readIoApicRegister S (nbioIoApicAddress S g)
          S.IO_APIC_VERSION_REGISTER_INDEX) + 1)) % 2 ^ 32
          = base + nbioInterruptCount S g :=
        Nat.mod_eq_of_lt (by unfold nbioInterruptCount at hg; omega)
      have := ih (base + nbioInterruptCount S g) i h (by omega) hi
      simp only [nbioIoApics, List.getElem?_cons_succ, hmod, this, List.map_cons,
        List.take_succ_cons, List.sum_cons, Nat.add_assoc]

end DxePlatformSocLib

namespace DxePlatformSocLib

/-- The outcome of `GetIoApicInfo` when the pool and the NBIO PCIe services are
available and the buffer holds all the IOAPICs. -/
theorem GetIoApicInfo_eq (S : SocPlatform) (handles : List GNB_HANDLE)
    (v : Option (List EFI_ACPI_6_5_IO_APIC_STRUCTURE)) (c : Nat)
    (hpool : S.poolAvailable = true) (hsvc : S.NbioPcieServices = some handles)
    (hk : handles.length ≤ 31) :
    GetIoApicInfo S (some v) (some c) =
      .ok { Status := .EFI_SUCCESS
            IoApicInfo := some (some (
              ({ zeroIoApic with
                  IoApicId := S.PcdIoApicId % 256, IoApicAddress := S.PcdIoApicAddress % 2 ^ 32,
                  GlobalSystemInterruptBase := 0 }
                :: nbioIoApics S handles (fchInterruptCount S))
              ++ List.replicate (MAX_IOAPIC_NUM - (handles.length + 1)) zeroIoApic))
            IoApicCount := some (handles.length + 1)
            Trace := [.AllocateZeroPool, .MmioWrite8, .MmioRead32, .LocateProtocol,
              .PcieGetTopology] ++ (handles.map (fun _ => nbioIoApicTrace)).flatten
              ++ [.Store, .Store] } := by
  have hf := fchInterruptCount_le S
  have hmod : (0 + (MaximumRedirectionEntry (readIoApicRegister S S.PcdIoApicAddress
      S.IO_APIC_VERSION_REGISTER_INDEX) + 1)) % 2 ^ 32 = fchInterruptCount S := by
    unfold fchInterruptCount at hf ⊢
    rw [Nat.zero_add]
    exact Nat.mod_eq_of_lt (by omega)
  have hnot : ¬ (handles.length + 1 > MAX_IOAPIC_NUM) := by
    unfold MAX_IOAPIC_NUM; omega
  simp only [GetIoApicInfo, hpool, hsvc, hmod, hnot, if_false, Bool.not_true,
    Bool.false_eq_true, List.length_cons, nbioIoApics_length]

/-! ## Claims about the IOAPIC list -/

/-- C30: when the pool and the NBIO PCIe services are available and the
platform has k NBIO handles, k <= 31, `GetIoApicInfo` returns success, count
k + 1 and a buffer of `MAX_IOAPIC_NUM` elements in which element 0 is the FCH
IOAPIC (`PcdIoApicId`, `PcdIoApicAddress`) with `GlobalSystemInterruptBase` 0
and every element j <= k has `GlobalSystemInterruptBase` equal to the sum of
`MaximumRedirectionEntry + 1` over the IOAPICs before it; so from one element
to the next the base grows by the number of interrupt inputs of the former,
which is at least 1: the bases strictly increase and the ranges are
contiguous and disjoint. -/
theorem GetIoApicInfo_interrupt_bases (S : SocPlatform) (handles : List GNB_HANDLE)
    (v : Option (List EFI_ACPI_6_5_IO_APIC_STRUCTURE)) (c : Nat)
    (hpool : S.poolAvailable = true) (hsvc : S.NbioPcieServices = some handles)
    (hk : handles.length ≤ 31) :
    ∃ r buf, GetIoApicInfo S (some v) (some c) = .ok r ∧
      r.Status = .EFI_SUCCESS ∧ r.IoApicInfo = some (some buf) ∧
      r.IoApicCount = some (handles.length + 1) ∧ buf.length = MAX_IOAPIC_NUM ∧
      (buf[0]?).map (fun e => (e.IoApicId, e.IoApicAddress, e.GlobalSystemInterruptBase))
        = some (S.PcdIoApicId % 256, S.PcdIoApicAddress % 2 ^ 32, 0) ∧
      (∀ j, j ≤ handles.length →
        (buf[j]?).map (fun e => e.GlobalSystemInterruptBase)
          = some (((interruptCounts S handles).take j).sum)) ∧
      (∀ j, j < handles.length →
        ∃ n, (interruptCounts S handles)[j]? = some n ∧ 0 < n ∧
          (buf[j + 1]?).map (fun e => e.GlobalSystemInterruptBase)
            = some (((interruptCounts S handles).take j).sum + n)) := by
  have hf := fchInterruptCount_le S
  have hbase : ∀ j, j ≤ handles.length →
      (((({ zeroIoApic with
            IoApicId := S.PcdIoApicId % 256, IoApicAddress := S.PcdIoApicAddress % 2 ^ 32,
            GlobalSystemInterruptBase := 0 } : EFI_ACPI_6_5_IO_APIC_STRUCTURE)
          :: nbioIoApics S handles (fchInterruptCount S))
        ++ List.replicate (MAX_IOAPIC_NUM - (handles.length + 1)) zeroIoApic)[j]?).map
          (fun e => e.GlobalSystemInterruptBase)
        = some (((interruptCounts S handles).take j).sum) := by
    intro j hj
    have hlt : j < ((({ zeroIoApic with
            IoApicId := S.PcdIoApicId % 256, IoApicAddress := S.PcdIoApicAddress % 2 ^ 32,
            GlobalSystemInterruptBase := 0 } : EFI_ACPI_6_5_IO_APIC_STRUCTURE)
          :: nbioIoApics S handles (fchInterruptCount S))).length := by
      rw [List.length_cons, nbioIoApics_length]; omega
    rw [List.getElem?_append_left hlt]
    cases j with
    | zero => simp [interruptCounts]
    | succ i =>
      have hi : i < handles.length := by omega
      have h1 := nbioIoApics_getElem? S handles (fchInterruptCount S) i handles[i]
        (by omega) (List.getElem?_eq_getElem hi)
      have h2 := congrArg (Option.map Prod.fst) h1
      simp only [Option.map_map, Option.map_some'] at h2
      simp only [List.getElem?_cons_succ, interruptCounts, List.take_succ_cons, List.sum_cons]
      exact h2
  refine ⟨_, _, GetIoApicInfo_eq S handles v c hpool hsvc hk, rfl, rfl, rfl, ?_, ?_, hbase, ?_⟩
  · simp only [List.length_append, List.length_cons, nbioIoApics_length, List.length_replicate,
      MAX_IOAPIC_NUM]
    omega
  · simp
  · intro j hj
    have hlen : (interruptCounts S handles).length = handles.length + 1 := by
      simp [interruptCounts]
    have hjl : j < (interruptCounts S handles).length := by omega
    refine ⟨(interruptCounts S handles)[j], List.getElem?_eq_getElem hjl, ?_, ?_⟩
    · cases j with
      | zero => exact hf.1
      | succ i =>
        have hi : i < handles.length := by omega
        simp only [interruptCounts, List.getElem_cons_succ, List.getElem_map]
        exact (nbioInterruptCount_le S _).1
    · rw [hbase (j + 1) (by omega),
        sum_take_succ _ j _ (List.getElem?_eq_getElem hjl)]

/-- Witness for C30: the sample Turin platform with three NBIO handles; the
four IOAPICs have 24, 32, 32 and 32 interrupt inputs and the bases 0, 24, 56
and 88. -/
theorem GetIoApicInfo_interrupt_bases_witness :
    (Sample.soc (some [Sample.gnbHandle 0 0x00, Sample.gnbHandle 1 0x20,
      Sample.gnbHandle 4 0x40]) 0).poolAvailable = true ∧
    interruptCounts (Sample.soc (some [Sample.gnbHandle 0 0x00, Sample.gnbHandle 1 0x20,
        Sample.gnbHandle 4 0x40]) 0)
      [Sample.gnbHandle 0 0x00, Sample.gnbHandle 1 0x20, Sample.gnbHandle 4 0x40]
      = [24, 32, 32, 32] ∧
    ∃ r buf, GetIoApicInfo (Sample.soc (some [Sample.gnbHandle 0 0x00, Sample.gnbHandle 1 0x20,
        Sample.gnbHandle 4 0x40]) 0) (some none) (some 0) = .ok r ∧
      r.Status = .EFI_SUCCESS ∧ r.IoApicInfo = some (some buf) ∧
      r.IoApicCount = some 4 ∧ buf.length = MAX_IOAPIC_NUM ∧
      (buf.take 4).map (fun e => e.GlobalSystemInterruptBase) = [0, 24, 56, 88] :=
  ⟨rfl, by decide,
    (GetIoApicInfo_interrupt_bases (Sample.soc (some [Sample.gnbHandle 0 0x00,
      Sample.gnbHandle 1 0x20, Sample.gnbHandle 4 0x40]) 0)
      [Sample.gnbHandle 0 0x00, Sample.gnbHandle 1 0x20, Sample.gnbHandle 4 0x40] none 0
      rfl rfl (by decide)).imp (fun r hr => hr.imp (fun buf hb =>
        ⟨hb.1, hb.2.1, hb.2.2.1, hb.2.2.2.1, hb.2.2.2.2.1, by
          have h2 := hb.1
          have e := hb.2.2.1
          rw [GetIoApicInfo_eq _ [Sample.gnbHandle 0 0x00, Sample.gnbHandle 1 0x20,
            Sample.gnbHandle 4 0x40] none 0 rfl rfl (by decide)] at h2
          injection h2 with h2
          rw [← h2] at e
          injection e with e
          injection e with e
          rw [← e]
          decide⟩))⟩

end DxePlatformSocLib

/-! ## Claims about missing IOAPIC information and NULL arguments -/

/-- C24, divergence of the code: when `LocateProtocol` of the NBIO PCIe services
fails (and the pool is available), the Turin `GetIoApicInfo` reports no IOAPIC
at all yet returns `EFI_SUCCESS` with a non-NULL buffer of zeroed elements and
the count left in the never-assigned variable `LocalIoApicCount`, which can be
0.  The library instance without IOAPIC information returns
`EFI_UNSUPPORTED` and leaves both variables as they were.  With the services
available the count is never 0. -/
theorem GetIoApicInfo_success_without_services :
    (∀ (S : SocPlatform) (v : Option (List EFI_ACPI_6_5_IO_APIC_STRUCTURE)) (c : Nat),
      S.poolAvailable = true → S.NbioPcieServices = none →
      DxePlatformSocLib.GetIoApicInfo S (some v) (some c) =
        .ok { Status := .EFI_SUCCESS
              IoApicInfo := some (some (List.replicate DxePlatformSocLib.MAX_IOAPIC_NUM
                DxePlatformSocLib.zeroIoApic))
              IoApicCount := some (S.LocalIoApicCountOnEntry % 256)
              Trace := [.AllocateZeroPool, .MmioWrite8, .MmioRead32, .LocateProtocol, .Store,
                .Store] }) ∧
    (∀ (v : Option (List EFI_ACPI_6_5_IO_APIC_STRUCTURE)) (c : Nat),
      DxePlatformSocLibNull.GetIoApicInfo v c = (.EFI_UNSUPPORTED, v, c)) ∧
    (∀ (S : SocPlatform) (handles : List GNB_HANDLE)
        (v : Option (List EFI_ACPI_6_5_IO_APIC_STRUCTURE)) (c : Nat)
        (r : DxePlatformSocLib.IoApicOutcome),
      S.NbioPcieServices = some handles →
      DxePlatformSocLib.GetIoApicInfo S (some v) (some c) = .ok r →
      r.Status = .EFI_SUCCESS → r.IoApicCount ≠ some 0) := by
  refine ⟨?_, fun _ _ => rfl, ?_⟩
  · intro S v c hpool hsvc
    simp [DxePlatformSocLib.GetIoApicInfo, hpool, hsvc]
  · intro S handles v c r hsvc h hst
    unfold DxePlatformSocLib.GetIoApicInfo at h
    simp only [hsvc] at h
    split at h
    · injection h with h
      rw [← h] at hst
      cases hst
    · split at h
      · cases h
      · injection h with h
        rw [← h]
        simp

/-- Witness for C24: the sample Turin platform without NBIO PCIe services,
the stack slot of `LocalIoApicCount` holding 0: success, a non-NULL buffer,
count 0. -/
theorem GetIoApicInfo_success_without_services_witness :
    (Sample.soc none 0).NbioPcieServices = none ∧
    DxePlatformSocLib.GetIoApicInfo (Sample.soc none 0) (some none) (some 0) =
      .ok { Status := .EFI_SUCCESS
            IoApicInfo := some (some (List.replicate DxePlatformSocLib.MAX_IOAPIC_NUM
              DxePlatformSocLib.zeroIoApic))
            IoApicCount := some ((Sample.soc none 0).LocalIoApicCountOnEntry % 256)
            Trace := [.AllocateZeroPool, .MmioWrite8, .MmioRead32, .LocateProtocol, .Store,
              .Store] } ∧
    (Sample.soc none 0).LocalIoApicCountOnEntry % 256 = 0 :=
  ⟨rfl, GetIoApicInfo_success_without_services.1 (Sample.soc none 0) none 0 rfl rfl, rfl⟩

/-- C25, divergence of the code: `GetIoApicInfo`, `GetPcieCxl2Info`,
`SlotBdfInfo`, `CreateSmbiosSystemSlotRecord` and `SystemSlotInfoFunction`
return `EFI_INVALID_PARAMETER` for a NULL pointer argument without any call
or store, but `GetPcieCxlInfo` does not: with a NULL argument it goes on to
`LocateProtocol` and returns `EFI_SUCCESS` when the CXL services are absent,
`EFI_OUT_OF_RESOURCES` when they are there and the pool is not, and otherwise
allocates, asks for the root ports and stores through the NULL pointer. -/
theorem GetPcieCxlInfo_accepts_null :
    (∀ (S : SocPlatform) (a : Option (Option (List EFI_ACPI_6_5_IO_APIC_STRUCTURE)))
        (b : Option Nat), a = none ∨ b = none →
      DxePlatformSocLib.GetIoApicInfo S a b =
        .ok { Status := .EFI_INVALID_PARAMETER, IoApicInfo := a, IoApicCount := b,
              Trace := [] }) ∧
    (∀ (S : SocPlatform) (a : Option (Option (List AMD_CXL_PORT_INFO))) (b : Option Nat),
      a = none ∨ b = none →
      DxePlatformSocLib.GetPcieCxl2Info S a b =
        { Status := .EFI_INVALID_PARAMETER, CxlPortInfo := a, CxlCount := b, Trace := [] }) ∧
    (∀ (S : SmbiosPlatform) (n s b d : Option Nat),
      n = none ∨ s = none ∨ b = none ∨ d = none →
      SmbiosType9.SlotBdfInfo S n s b d =
        { Status := .EFI_INVALID_PARAMETER, SegInfo := s, BusInfo := b, DevFunInfo := d,
          Trace := [] }) ∧
    (∀ (S : SmbiosPlatform) (p : Option DXIO_PORT_DESCRIPTOR)
        (q : Option (Option SMBIOS_TABLE_TYPE9)), p = none ∨ q = none →
      SmbiosType9.CreateSmbiosSystemSlotRecord S p q =
        { Status := .EFI_INVALID_PARAMETER, SmbiosRecordPtr := q, Trace := [] }) ∧
    (∀ S : SmbiosPlatform,
      SmbiosType9.SystemSlotInfoFunction S none =
        .ok { Status := .EFI_INVALID_PARAMETER, Added := [], Trace := [] }) ∧
    (∀ (S : SocPlatform) (a : Option (Option (List AMD_CXL_PORT_INFO))) (b : Option Nat),
      a = none ∨ b = none →
      (S.NbioCxlServices = none →
        DxePlatformSocLib.GetPcieCxlInfo S a b =
          .ok { Status := .EFI_SUCCESS, CxlPortInfo := a, CxlCount := b,
                Trace := [.LocateProtocol] }) ∧
      (S.NbioCxlServices ≠ none → S.poolAvailable = false →
        DxePlatformSocLib.GetPcieCxlInfo S a b =
          .ok { Status := .EFI_OUT_OF_RESOURCES, CxlPortInfo := a, CxlCount := b,
                Trace := [.LocateProtocol, .AllocateZeroPool] }) ∧
      (S.NbioCxlServices ≠ none → S.poolAvailable = true →
        DxePlatformSocLib.GetPcieCxlInfo S a b = .error .nullStore)) := by
  refine ⟨?_, ?_, ?_, ?_, fun _ => rfl, ?_⟩
  · intro S a b h
    rcases h with rfl | rfl
    · rfl
    · cases a <;> rfl
  · intro S a b h
    rcases h with rfl | rfl
    · rfl
    · cases a <;> rfl
  · intro S n s b d h
    rcases h with rfl | rfl | rfl | rfl
    · rfl
    · cases n <;> rfl
    · cases n <;> cases s <;> rfl
    · cases n <;> cases s <;> cases b <;> rfl
  · intro S p q h
    rcases h with rfl | rfl
    · rfl
    · cases p <;> rfl
  · intro S a b h
    have h2 : DxePlatformSocLib.GetPcieCxl2Info S a b =
        { Status := .EFI_INVALID_PARAMETER, CxlPortInfo := a, CxlCount := b, Trace := [] } := by
      rcases h with rfl | rfl
      · rfl
      · cases a <;> rfl
    refine ⟨?_, ?_, ?_⟩
    · intro hn
      simp [DxePlatformSocLib.GetPcieCxlInfo, h2, EFI_ERROR, hn]
    · intro hn hp
      cases hs : S.NbioCxlServices with
      | none => exact absurd hs hn
      | some P => simp [DxePlatformSocLib.GetPcieCxlInfo, h2, EFI_ERROR, hs, hp]
    · intro hn hp
      cases hs : S.NbioCxlServices with
      | none => exact absurd hs hn
      | some P =>
        simp only [DxePlatformSocLib.GetPcieCxlInfo, h2, EFI_ERROR, hs, hp]
        simp only [Bool.not_true, Bool.false_and, Bool.false_eq_true, if_false]
        rcases h with rfl | rfl
        · rfl
        · cases a <;> rfl

/-- Witness for C25: on the sample Turin platform, which has no CXL services,
`GetPcieCxlInfo` with a NULL first argument calls `LocateProtocol` and returns
`EFI_SUCCESS`. -/
theorem GetPcieCxlInfo_accepts_null_witness :
    (Sample.soc none 0).NbioCxlServices = none ∧
    DxePlatformSocLib.GetPcieCxlInfo (Sample.soc none 0) none (some 0) =
      .ok { Status := .EFI_SUCCESS, CxlPortInfo := none, CxlCount := some 0,
            Trace := [.LocateProtocol] } :=
  ⟨rfl, (GetPcieCxlInfo_accepts_null.2.2.2.2.2 (Sample.soc none 0) none (some 0)
    (Or.inl rfl)).1 rfl⟩

/-! ## Claims about the slot records -/

/-- C23: for every port descriptor, when the pool is available, the record that
`CreateSmbiosSystemSlotRecord` stores through `SmbiosRecordPtr` has its bus
width chosen by the span `DxioEndLane - DxioStartLane` taken as a signed
integer: 15 gives the 16x encoding and `DataBusWidth` 16, 7 gives 8x and 8,
3 gives 4x and 4, 1 gives 2x and 2, every other span, a negative one
included, gives 1x and 1; and `SlotPhysicalWidth` of the extended part equals
`SlotDataBusWidth`. -/
theorem CreateSmbiosSystemSlotRecord_bus_width (S : SmbiosPlatform)
    (Port : DXIO_PORT_DESCRIPTOR) (q : Option SMBIOS_TABLE_TYPE9)
    (hpool : S.poolAvailable = true) :
    ∃ rec : SMBIOS_TABLE_TYPE9,
      (SmbiosType9.CreateSmbiosSystemSlotRecord S (some Port) (some q)).SmbiosRecordPtr =
        some (some rec) ∧
      rec.Extended.SlotPhysicalWidth = rec.SlotDataBusWidth ∧
      ((Port.DxioEndLane : Int) - (Port.DxioStartLane : Int) = 15 →
        rec.SlotDataBusWidth = .SlotDataBusWidth16X ∧ rec.DataBusWidth = 16) ∧
      ((Port.DxioEndLane : Int) - (Port.DxioStartLane : Int) = 7 →
        rec.SlotDataBusWidth = .SlotDataBusWidth8X ∧ rec.DataBusWidth = 8) ∧
      ((Port.DxioEndLane : Int) - (Port.DxioStartLane : Int) = 3 →
        rec.SlotDataBusWidth = .SlotDataBusWidth4X ∧ rec.DataBusWidth = 4) ∧
      ((Port.DxioEndLane : Int) - (Port.DxioStartLane : Int) = 1 →
        rec.SlotDataBusWidth = .SlotDataBusWidth2X ∧ rec.DataBusWidth = 2) ∧
      ((Port.DxioEndLane : Int) - (Port.DxioStartLane : Int) ≠ 15 →
        (Port.DxioEndLane : Int) - (Port.DxioStartLane : Int) ≠ 7 →
        (Port.DxioEndLane : Int) - (Port.DxioStartLane : Int) ≠ 3 →
        (Port.DxioEndLane : Int) - (Port.DxioStartLane : Int) ≠ 1 →
        rec.SlotDataBusWidth = .SlotDataBusWidth1X ∧ rec.DataBusWidth = 1) := by
  refine ⟨_, by simp only [SmbiosType9.CreateSmbiosSystemSlotRecord, hpool]; rfl, rfl,
    ?_, ?_, ?_, ?_, ?_⟩
  · intro h
    simp [SmbiosType9.slotWidth, h]
  · intro h
    simp [SmbiosType9.slotWidth, h]
  · intro h
    simp [SmbiosType9.slotWidth, h]
  · intro h
    simp [SmbiosType9.slotWidth, h]
  · intro h1 h2 h3 h4
    simp [SmbiosType9.slotWidth, h1, h2, h3, h4]

/-- Witness for C23: the port of slot 3 on lanes 4 to 7 of the sample platform
has span 3, so its record is 4x wide. -/
theorem CreateSmbiosSystemSlotRecord_bus_width_witness :
    (Sample.smbiosPlatform [Sample.dxioPort 3 4 7]).poolAvailable = true ∧
    ∃ rec : SMBIOS_TABLE_TYPE9,
      (SmbiosType9.CreateSmbiosSystemSlotRecord (Sample.smbiosPlatform [Sample.dxioPort 3 4 7])
        (some (Sample.dxioPort 3 4 7)) (some none)).SmbiosRecordPtr = some (some rec) ∧
      rec.Extended.SlotPhysicalWidth = .SlotDataBusWidth4X ∧
      rec.SlotDataBusWidth = .SlotDataBusWidth4X ∧ rec.DataBusWidth = 4 := by
  refine ⟨rfl, ?_⟩
  obtain ⟨rec, h, hw, _, _, h3, _⟩ := CreateSmbiosSystemSlotRecord_bus_width
    (Sample.smbiosPlatform [Sample.dxioPort 3 4 7]) (Sample.dxioPort 3 4 7) none rfl
  exact ⟨rec, h, hw.trans (h3 (by decide)).1, (h3 (by decide)).1, (h3 (by decide)).2⟩

end AmdPlatform
